import Mathlib

/-!
# A verification development for a recursive-descent structured-text parser

This file gives a shallow embedding, in Lean, of a recursive-descent parser
for an IEC-61131-3-style structured-text language (file `src/parser.rs` of the
repository under study), together with theorems about the embedded functions.

Modelling conventions:
* The token stream is a `List Tok`; the cursor is the head of the list.
* The parse session (`ParseSession` in the source) is the structure `PSt`:
  remaining tokens, the last consumed token, the accumulated diagnostics,
  the region stack of the recovery engine, the single scope slot, the id
  counter, and two instrumentation counters (`openCount`/`closeCount`)
  counting the calls to `enter_region` and `close_region`.
* Source locations are elided (they never influence control flow); every
  `SourceLocation`-valued expression of the source is dropped.
* Machinery that lives outside `src/` (the lexer primitives, the expression
  and statement sub-parsers, the diagnostic constructors of the diagnostics
  crate and the AST node types) is modelled from the specification document;
  each such definition carries a doc comment starting with
  `Modelled from the spec:`.
* Loops of the source become fuel-indexed recursion; every function that can
  loop takes a `fuel : Nat` argument and returns a safe default at fuel 0.
* Rust functions keep their names (`parse_pou`, `parse_any_in_region`, ...).
-/

set_option maxHeartbeats 1000000

/-- Modelled from the spec: hardware access direction tag carried by a
hardware-access token (`%I`, `%Q`, `%M`, `%G`). -/
inductive HardwareAccessType where
  | Input
  | Output
  | Memory
  | Global
  deriving DecidableEq, Repr

/-- Modelled from the spec: hardware access width tag (`X`, `B`, `W`, `D`,
`L`) or the template form (`%I*`). -/
inductive DirectAccessType where
  | Bit
  | Byte
  | Word
  | DWord
  | LWord
  | Template
  deriving DecidableEq, Repr

/-- Modelled from the spec: the closed token enumeration produced by the
lexer (§6).  Only the token kinds consumed by `src/parser.rs` appear.
Identifier / literal payloads live in `Tok`, mirroring `lexer.slice()`. -/
inductive Token where
  | PropertyExternal
  | PropertyConstant
  | PropertyByRef
  | PropertySized
  | KeywordInterface
  | KeywordEndInterface
  | KeywordVarGlobal
  | KeywordVarConfig
  | KeywordProgram
  | KeywordClass
  | KeywordFunction
  | KeywordFunctionBlock
  | KeywordEndProgram
  | KeywordEndClass
  | KeywordEndFunction
  | KeywordEndFunctionBlock
  | KeywordAction
  | KeywordEndAction
  | KeywordActions
  | KeywordEndActions
  | KeywordType
  | KeywordEndType
  | KeywordMethod
  | KeywordEndMethod
  | KeywordProperty
  | KeywordEndProperty
  | KeywordGet
  | KeywordEndGet
  | KeywordSet
  | KeywordEndSet
  | KeywordExtends
  | KeywordImplements
  | KeywordFinal
  | KeywordAbstract
  | KeywordOverride
  | KeywordAccessPublic
  | KeywordAccessPrivate
  | KeywordAccessProtected
  | KeywordAccessInternal
  | KeywordVar
  | KeywordVarInput
  | KeywordVarOutput
  | KeywordVarInOut
  | KeywordVarTemp
  | KeywordVarExternal
  | KeywordEndVar
  | KeywordConstant
  | KeywordRetain
  | KeywordNonRetain
  | KeywordColon
  | KeywordSemicolon
  | KeywordComma
  | KeywordDot
  | KeywordDotDot
  | KeywordDotDotDot
  | KeywordParensOpen
  | KeywordParensClose
  | KeywordSquareParensOpen
  | KeywordSquareParensClose
  | KeywordStruct
  | KeywordEndStruct
  | KeywordArray
  | KeywordOf
  | KeywordPointer
  | KeywordRef
  | KeywordReferenceTo
  | KeywordTo
  | KeywordString
  | KeywordWideString
  | KeywordAssignment
  | KeywordReferenceAssignment
  | KeywordAt
  | OperatorLess
  | OperatorGreater
  | Identifier
  | LiteralInteger
  | HardwareAccessInput
  | HardwareAccessOutput
  | HardwareAccessMemory
  | HardwareAccessGlobal
  | End
  deriving DecidableEq, Repr

/-- A concrete token of the stream: the kind, the raw text (what
`lexer.slice()` returns), an integer payload for integer literals and the
hardware direction/width payload for hardware-access tokens. -/
structure Tok where
  kind : Token
  text : String := ""
  intVal : Nat := 0
  hwDirection : HardwareAccessType := HardwareAccessType.Input
  hwAccess : DirectAccessType := DirectAccessType.Bit
  deriving DecidableEq, Repr

/-- Does a token kind stand for a hardware-access token (`HardwareAccess` in
the source has its direction/width payload inside the token; here the
payload lives in `Tok.hwDirection`/`Tok.hwAccess`)? -/
def Token.isHardwareAccess : Token → Bool
  | .HardwareAccessInput | .HardwareAccessOutput
  | .HardwareAccessMemory | .HardwareAccessGlobal => true
  | _ => false

/-- Modelled from the spec: a diagnostic record; only the message and the
stable error code are kept (locations and severities are elided). -/
structure Diagnostic where
  message : String
  code : Option String := none
  deriving DecidableEq, Repr

/-- Modelled from the spec: `Diagnostic::new`. -/
def Diagnostic.new (message : String) : Diagnostic := { message := message }

/-- Modelled from the spec: `Diagnostic::with_error_code`. -/
def Diagnostic.with_error_code (d : Diagnostic) (c : String) : Diagnostic :=
  { d with code := some c }

/-- Modelled from the spec: `Diagnostic::unexpected_token_found`. -/
def Diagnostic.unexpected_token_found (expected got : String) : Diagnostic :=
  Diagnostic.new ("Unexpected token: expected " ++ expected ++ " but found " ++ got)

/-- Modelled from the spec: `Diagnostic::missing_token`. -/
def Diagnostic.missing_token (expected : String) : Diagnostic :=
  Diagnostic.new ("Missing expected Token " ++ expected)

/-- Modelled from the spec: `Diagnostic::const_pragma_is_not_allowed`. -/
def Diagnostic.const_pragma_is_not_allowed : Diagnostic :=
  Diagnostic.new "Pragma const is not allowed in declarations"

/-- Modelled from the spec: `AutoDerefType` of the AST crate; the auto-deref
tag of pointer types (`REFERENCE TO` and alias variables). -/
inductive AutoDerefType where
  | Alias
  | Reference
  deriving DecidableEq, Repr

mutual

/-- Modelled from the spec: an AST node of the expression/statement grammar
(`AstNode` of the AST crate): an id plus a statement payload. -/
inductive AstNode where
  | mk (id : Nat) (stmt : AstStmt)

/-- Modelled from the spec: the statement payload of an AST node; only the
variants inspected or built by `src/parser.rs` appear. -/
inductive AstStmt where
  | EmptyStatement
  | Identifier (name : String)
  | LiteralInteger (value : Nat)
  | ExpressionList (expressions : List AstNode)
  | ReferenceExpr (access : RefAccess) (base : Option AstNode)
  | RangeStatement (lower upper : AstNode)
  | VlaRangeStatement
  | DefaultValue
  | HardwareAccess (access : DirectAccessType) (direction : HardwareAccessType)
      (address : List AstNode)
  | CaseCondition (condition : AstNode)

/-- Modelled from the spec: `ReferenceAccess` of the AST crate. -/
inductive RefAccess where
  | Member (node : AstNode)
  | Index (node : AstNode)
  | Deref

end

/-- The id of an AST node. -/
def AstNode.id : AstNode → Nat
  | .mk i _ => i

/-- The statement payload of an AST node. -/
def AstNode.stmt : AstNode → AstStmt
  | .mk _ s => s

mutual

/-- `DataTypeDeclaration` (mirrors the AST crate's type, spec §3): either a
reference to a type declared elsewhere or an inline definition. -/
inductive DataTypeDeclaration where
  | Reference (referenced_type : String)
  | Definition (data_type : DataType) (scope : Option String)

/-- `DataType` (mirrors the AST crate's type, spec §3). -/
inductive DataType where
  | StructType (name : Option String) (vars : List Variable)
  | PointerType (name : Option String) (referenced_type : DataTypeDeclaration)
      (auto_deref : Option AutoDerefType) (type_safe : Bool)
  | SubRangeType (name : Option String) (referenced_type : String)
      (bounds : Option AstNode)
  | EnumType (name : Option String) (numeric_type : String) (elements : AstNode)
  | StringType (name : Option String) (is_wide : Bool) (size : Option AstNode)
  | ArrayType (name : Option String) (bounds : AstNode)
      (referenced_type : DataTypeDeclaration) (is_variable_length : Bool)
  | VarArgs (referenced_type : Option DataTypeDeclaration) (sized : Bool)

/-- `Variable` (spec §3): a declared variable. -/
inductive Variable where
  | mk (name : String) (data_type_declaration : DataTypeDeclaration)
      (initializer : Option AstNode) (address : Option AstNode)

end

/-- The name of a variable. -/
def Variable.name : Variable → String
  | .mk n _ _ _ => n

/-- The declared type of a variable. -/
def Variable.data_type_declaration : Variable → DataTypeDeclaration
  | .mk _ d _ _ => d

/-- The optional initializer of a variable. -/
def Variable.initializer : Variable → Option AstNode
  | .mk _ _ i _ => i

/-- The optional hardware address of a variable. -/
def Variable.address : Variable → Option AstNode
  | .mk _ _ _ a => a

/-- Replace the initializer of a variable (used by the constant-block
default-initializer pass). -/
def Variable.withInitializer (v : Variable) (i : Option AstNode) : Variable :=
  match v with
  | .mk n d _ a => .mk n d i a

/-- `LinkageType` (spec §3). -/
inductive LinkageType where
  | Internal
  | External
  | BuiltIn
  deriving DecidableEq, Repr

/-- `AccessModifier` (spec §3). -/
inductive AccessModifier where
  | Public
  | Private
  | Protected
  | Internal
  deriving DecidableEq, Repr

/-- `PolymorphismMode` (spec §3). -/
inductive PolymorphismMode where
  | None
  | Final
  | Abstract
  deriving DecidableEq, Repr

/-- `DeclarationKind` of methods (abstract signature in an interface or
concrete declaration). -/
inductive DeclarationKind where
  | Abstract
  | Concrete
  deriving DecidableEq, Repr

/-- `TypeNature` (spec §3): the closed enumeration of generic constraints. -/
inductive TypeNature where
  | Any
  | Derived
  | Elementary
  | Magnitude
  | Num
  | Real
  | Int
  | Signed
  | Unsigned
  | Duration
  | Bit
  | Chars
  | String
  | Char
  | Date
  | VLA
  deriving DecidableEq, Repr

/-- `ArgumentProperty` of input variable blocks. -/
inductive ArgumentProperty where
  | ByVal
  | ByRef
  deriving DecidableEq, Repr

/-- `VariableBlockType` (spec §3). -/
inductive VariableBlockType where
  | Local
  | Temp
  | Input (prop : ArgumentProperty)
  | Output
  | Global
  | InOut
  | External
  deriving DecidableEq, Repr

/-- `Identifier` (spec §3): a name (its location is elided). -/
structure Identifier where
  name : String
  deriving DecidableEq, Repr

/-- `GenericBinding` (spec §3). -/
structure GenericBinding where
  name : String
  nature : TypeNature
  deriving DecidableEq, Repr

/-- `PouType` (spec §3). -/
inductive PouType where
  | Program
  | Function
  | FunctionBlock
  | Class
  | Method (parent : String) (property : Option Identifier)
      (declaration_kind : DeclarationKind)
  | Action
  deriving DecidableEq, Repr

/-- A printable name for a POU kind, used in diagnostic messages. -/
def PouType.kindName : PouType → String
  | .Program => "Program"
  | .Function => "Function"
  | .FunctionBlock => "FunctionBlock"
  | .Class => "Class"
  | .Method _ _ _ => "Method"
  | .Action => "Action"

/-- `VariableBlock` (spec §3). -/
structure VariableBlock where
  access : AccessModifier
  constant : Bool
  retain : Bool
  vars : List Variable
  kind : VariableBlockType
  linkage : LinkageType

/-- `Implementation` (spec §3). -/
structure Implementation where
  name : String
  type_name : String
  linkage : LinkageType
  pou_type : PouType
  statements : List AstNode
  overriding : Bool
  generic : Bool
  access : Option AccessModifier

/-- `PropertyKind`: a `GET` or `SET` accessor. -/
inductive PropertyKind where
  | Get
  | Set
  deriving DecidableEq, Repr

/-- `PropertyImplementation` (spec §3): one accessor of a property. -/
structure PropertyImplementation where
  kind : PropertyKind
  variable_blocks : List VariableBlock
  body : List AstNode

/-- `PropertyBlock` (spec §3). -/
structure PropertyBlock where
  ident : Identifier
  datatype : DataTypeDeclaration
  implementations : List PropertyImplementation

/-- `Pou` (spec §3). -/
structure Pou where
  name : String
  id : Nat
  kind : PouType
  variable_blocks : List VariableBlock
  return_type : Option DataTypeDeclaration
  poly_mode : Option PolymorphismMode
  generics : List GenericBinding
  linkage : LinkageType
  super_class : Option Identifier
  interfaces : List Identifier
  is_const : Bool
  properties : List PropertyBlock

/-- `Interface` (spec §3). -/
structure Interface where
  id : Nat
  ident : Identifier
  methods : List Pou
  extensions : List Identifier
  properties : List PropertyBlock

/-- `UserTypeDeclaration` (spec §3). -/
structure UserTypeDeclaration where
  data_type : DataType
  initializer : Option AstNode
  scope : Option String

/-- `ConfigVariable` (spec §3). -/
structure ConfigVariable where
  reference : AstNode
  data_type : DataTypeDeclaration
  address : AstNode

/-- `CompilationUnit` (spec §3): the root output of the parser. -/
structure CompilationUnit where
  global_vars : List VariableBlock := []
  var_config : List ConfigVariable := []
  pous : List Pou := []
  implementations : List Implementation := []
  interfaces : List Interface := []
  user_types : List UserTypeDeclaration := []

/-- The parse-session state (`ParseSession` plus the lexer state, spec §6):
token cursor, last consumed token, diagnostics log, region stack, scope
slot, id counter, and instrumentation counters for region opens/closes. -/
structure PSt where
  toks : List Tok
  lastToken : Token := Token.End
  lastText : String := ""
  diags : List Diagnostic := []
  regions : List (List Token) := []
  scope : Option String := none
  idCounter : Nat := 0
  openCount : Nat := 0
  closeCount : Nat := 0

/-- The kind of the current token (`lexer.token`); `End` once the stream is
exhausted. -/
def PSt.token (st : PSt) : Token :=
  match st.toks with
  | [] => Token.End
  | t :: _ => t.kind

/-- The raw text of the current token (`lexer.slice()`). -/
def PSt.slice (st : PSt) : String :=
  match st.toks with
  | [] => ""
  | t :: _ => t.text

/-- The full current token record (payloads included). -/
def PSt.cur (st : PSt) : Tok :=
  match st.toks with
  | [] => { kind := Token.End }
  | t :: _ => t

/-- Modelled from the spec: `lexer.advance()` — move the cursor one token,
remembering the consumed token in `last_token`. -/
def PSt.advance (st : PSt) : PSt :=
  { st with toks := st.toks.tail, lastToken := st.token, lastText := st.slice }

/-- Modelled from the spec: `lexer.is_end_of_stream()`. -/
def PSt.is_end_of_stream (st : PSt) : Bool :=
  st.token = Token.End

/-- Modelled from the spec: `lexer.accept_diagnostic(d)` — append to the
diagnostics log. -/
def PSt.accept_diagnostic (st : PSt) (d : Diagnostic) : PSt :=
  { st with diags := st.diags ++ [d] }

/-- Modelled from the spec: `lexer.next_id()` — the monotonic id source. -/
def PSt.next_id (st : PSt) : Nat × PSt :=
  (st.idCounter, { st with idCounter := st.idCounter + 1 })

/-- Modelled from the spec: `lexer.try_consume(kind)`. -/
def PSt.try_consume (st : PSt) (k : Token) : Bool × PSt :=
  if st.token = k then (true, st.advance) else (false, st)

/-- Modelled from the spec: `lexer.try_consume_or_report(kind)` — consume the
token or record a missing-token diagnostic. -/
def PSt.try_consume_or_report (st : PSt) (k : Token) : PSt :=
  match st.try_consume k with
  | (true, st) => st
  | (false, st) => st.accept_diagnostic (Diagnostic.missing_token (toString (repr k)))

/-- Modelled from the spec: `lexer.slice_and_advance()`. -/
def PSt.slice_and_advance (st : PSt) : String × PSt :=
  (st.slice, st.advance)

/-- Modelled from the spec: `enterRegion(closingTokens)` of the recovery
engine — push a recovery frame (and count the open). -/
def PSt.enter_region (st : PSt) (closing : List Token) : PSt :=
  { st with regions := closing :: st.regions, openCount := st.openCount + 1 }

/-- Modelled from the spec: `closesOpenRegion(token)` — does the token match
some currently open frame (end-of-stream always closes)? -/
def PSt.closes_open_region (st : PSt) (k : Token) : Bool :=
  k = Token.End || st.regions.any (fun frame => frame.contains k)

/-- Modelled from the spec: `closeRegion()` — pop the innermost frame; if the
current token belongs to the popped frame it is consumed (this is how the
terminating keyword of a region is eaten). -/
def PSt.close_region (st : PSt) : PSt :=
  match st.regions with
  | [] => { st with closeCount := st.closeCount + 1 }
  | frame :: rest =>
      let st := { st with regions := rest, closeCount := st.closeCount + 1 }
      if frame.contains st.token then st.advance else st

/-- Helper for `recover_until_close`: walk the remaining tokens, discarding
until the current token closes an open region (structural recursion on the
remaining-token list, which shrinks in lockstep with the state). -/
def recoverGo : List Tok → PSt → PSt
  | [], st => st
  | _ :: rest, st =>
      if st.closes_open_region st.token then st else recoverGo rest st.advance

/-- Modelled from the spec: `recoverUntilClose()` — advance the cursor,
discarding tokens, until the current token matches some open frame or the
stream ends. -/
def PSt.recover_until_close (st : PSt) : PSt :=
  recoverGo st.toks st

/-- `parse_any_in_region` (source lines 1271-1285): open a recovery region,
run the inner parser, recover to a safe token, close the region — the close
happens regardless of how the inner parser exited. -/
def parse_any_in_region {α : Type} (closing : List Token) (f : PSt → α × PSt)
    (st : PSt) : α × PSt :=
  let st := st.enter_region closing
  let (result, st) := f st
  let st := st.recover_until_close
  let st := st.close_region
  (result, st)

/-- `with_scope` (source lines 1260-1269): set the scope slot, run the body,
unconditionally clear the slot afterwards. -/
def with_scope {α : Type} (scope : String) (f : PSt → α × PSt) (st : PSt) :
    α × PSt :=
  let st := { st with scope := some scope }
  let (result, st) := f st
  (result, { st with scope := none })

/-- `parse_identifier` (source lines 762-775): consume an identifier token,
or record an unexpected-token diagnostic and yield nothing.  (The returned
source range is elided.) -/
def parse_identifier (st : PSt) : Option String × PSt :=
  let pou_name := st.slice
  if st.token = Token.Identifier then (some pou_name, st.advance)
  else (none, st.accept_diagnostic (Diagnostic.unexpected_token_found "Identifier" pou_name))

/-- `parse_access_modifier` (source lines 746-758). -/
def parse_access_modifier (st : PSt) : AccessModifier × PSt :=
  match st.try_consume .KeywordAccessPublic with
  | (true, st) => (.Public, st)
  | (false, st) =>
    match st.try_consume .KeywordAccessPrivate with
    | (true, st) => (.Private, st)
    | (false, st) =>
      match st.try_consume .KeywordAccessProtected with
      | (true, st) => (.Protected, st)
      | (false, st) =>
        match st.try_consume .KeywordAccessInternal with
        | (true, st) => (.Internal, st)
        | (false, st) => (.Protected, st)

/-- `parse_type_nature` (source lines 486-513). -/
def parse_type_nature (st : PSt) (nature : String) : TypeNature × PSt :=
  match nature with
  | "ANY" => (.Any, st)
  | "ANY_DERIVED" => (.Derived, st)
  | "ANY_ELEMENTARY" => (.Elementary, st)
  | "ANY_MAGNITUDE" => (.Magnitude, st)
  | "ANY_NUM" => (.Num, st)
  | "ANY_REAL" => (.Real, st)
  | "ANY_INT" => (.Int, st)
  | "ANY_SIGNED" => (.Signed, st)
  | "ANY_UNSIGNED" => (.Unsigned, st)
  | "ANY_DURATION" => (.Duration, st)
  | "ANY_BIT" => (.Bit, st)
  | "ANY_CHARS" => (.Chars, st)
  | "ANY_STRING" => (.String, st)
  | "ANY_CHAR" => (.Char, st)
  | "ANY_DATE" => (.Date, st)
  | "__ANY_VLA" => (.VLA, st)
  | _ =>
      (.Any, st.accept_diagnostic
        ((Diagnostic.new ("Unkown type nature " ++ nature)).with_error_code "E063"))

/-- `parse_polymorphism_mode` (source lines 515-531). -/
def parse_polymorphism_mode (pou_type : PouType) (st : PSt) :
    Option PolymorphismMode × PSt :=
  match pou_type with
  | .Class | .FunctionBlock | .Method _ _ _ =>
      (match st.try_consume .KeywordFinal with
      | (true, st) => (some .Final, st)
      | (false, st) =>
          match st.try_consume .KeywordAbstract with
          | (true, st) => (some .Abstract, st)
          | (false, st) => (some .None, st))
  | _ => (none, st)

/-- Modelled from the spec: primary expression of the external expression
parser (§6) — an identifier becomes a member reference expression, an
integer literal becomes a literal node; anything else yields an empty
statement after a diagnostic, consuming one token (progress, §4.1). -/
def parse_expr_primary (st : PSt) : AstNode × PSt :=
  match st.token with
  | .Identifier =>
      let name := st.slice
      let st := st.advance
      let (i1, st) := st.next_id
      let (i2, st) := st.next_id
      (.mk i2 (.ReferenceExpr (.Member (.mk i1 (.Identifier name))) none), st)
  | .LiteralInteger =>
      let v := st.cur.intVal
      let st := st.advance
      let (i, st) := st.next_id
      (.mk i (.LiteralInteger v), st)
  | _ =>
      let st := st.accept_diagnostic (Diagnostic.unexpected_token_found "Literal" st.slice)
      let st := st.advance
      let (i, st) := st.next_id
      (.mk i .EmptyStatement, st)

/-- Modelled from the spec: a single (non-list) expression — a primary,
optionally a `..` range over two primaries (subrange bounds syntax). -/
def parse_expr_single (st : PSt) : AstNode × PSt :=
  let (a, st) := parse_expr_primary st
  match st.try_consume .KeywordDotDot with
  | (true, st) =>
      let (b, st) := parse_expr_primary st
      let (i, st) := st.next_id
      (.mk i (.RangeStatement a b), st)
  | (false, st) => (a, st)

/-- Modelled from the spec: tail of a comma-separated expression list. -/
def exprListRest : Nat → List AstNode → PSt → List AstNode × PSt
  | 0, acc, st => (acc, st)
  | fuel + 1, acc, st =>
      match st.try_consume .KeywordComma with
      | (true, st) =>
          let (e, st) := parse_expr_single st
          exprListRest fuel (acc ++ [e]) st
      | (false, st) => (acc, st)

/-- Modelled from the spec: `parse_expression_list` of the external
expression parser — one or more comma-separated expressions; two or more
are wrapped into an `ExpressionList` node, a single one stays bare. -/
def parse_expression_list (fuel : Nat) (st : PSt) : AstNode × PSt :=
  let (first, st) := parse_expr_single st
  let (elems, st) := exprListRest fuel [first] st
  match elems with
  | [e] => (e, st)
  | es =>
      let (i, st) := st.next_id
      (.mk i (.ExpressionList es), st)

/-- Modelled from the spec: `parse_expression` of the external expression
parser; comma-separated input parses to an expression list (this is the
shape the type-reference disambiguation inspects, §4.5). -/
def parse_expression (fuel : Nat) (st : PSt) : AstNode × PSt :=
  parse_expression_list fuel st

/-- Modelled from the spec: the optional-returning call-statement parser of
the external expression parser (§6) — a bare identifier parses to a member
reference expression. -/
def parse_call_statement (st : PSt) : Option AstNode × PSt :=
  if st.token = Token.Identifier then
    let name := st.slice
    let st := st.advance
    let (i1, st) := st.next_id
    let (i2, st) := st.next_id
    (some (.mk i2 (.ReferenceExpr (.Member (.mk i1 (.Identifier name))) none)), st)
  else (none, st)

/-- `parse_reference` (source lines 1287-1297): delegate to the
call-statement parser, or fall back to an empty statement. -/
def parse_reference (st : PSt) : AstNode × PSt :=
  match parse_call_statement st with
  | (some statement, st) => (statement, st)
  | (none, st) =>
      let (i, st) := st.next_id
      (.mk i .EmptyStatement, st)

/-- Modelled from the spec: `parse_strict_literal_integer` of the external
expression parser — an integer-literal token or a diagnostic and nothing. -/
def parse_strict_literal_integer (st : PSt) : Option AstNode × PSt :=
  if st.token = Token.LiteralInteger then
    let v := st.cur.intVal
    let st := st.advance
    let (i, st) := st.next_id
    (some (.mk i (.LiteralInteger v)), st)
  else
    (none, st.accept_diagnostic (Diagnostic.unexpected_token_found "LiteralInteger" st.slice))

/-- Modelled from the spec: the external control/statement parser (§6),
reached through `parse_control` (source lines 1299-1301) — it consumes at
least one token and yields one statement node (statement internals are out
of scope, §1). -/
def parse_control (st : PSt) : AstNode × PSt :=
  let st := st.advance
  let (i, st) := st.next_id
  (.mk i .EmptyStatement, st)

/-- `parse_body_standalone` (source lines 1241-1247): parse statements until
the current token closes an open region. -/
def parse_body_standalone : Nat → PSt → List AstNode × PSt
  | 0, st => ([], st)
  | fuel + 1, st =>
      if st.closes_open_region st.token then ([], st)
      else
        let (s, st) := parse_control st
        let (rest, st) := parse_body_standalone fuel st
        (s :: rest, st)

/-- `parse_body_in_region` (source lines 1236-1239). -/
def parse_body_in_region (fuel : Nat) (end_keywords : List Token) (st : PSt) :
    List AstNode × PSt :=
  parse_any_in_region end_keywords (parse_body_standalone fuel) st

/-- The dot-separated integer segments of a hardware address (the loop of
`parse_hardware_access`, source lines 1536-1543); a failing segment aborts
the whole address (the `?` operator). -/
def hwAddressLoop : Nat → PSt → Option (List AstNode) × PSt
  | 0, st => (some [], st)
  | fuel + 1, st =>
      match parse_strict_literal_integer st with
      | (none, st) => (none, st)
      | (some int, st) =>
          match st.try_consume .KeywordDot with
          | (false, st) => (some [int], st)
          | (true, st) =>
              match hwAddressLoop fuel st with
              | (none, st) => (none, st)
              | (some rest, st) => (some (int :: rest), st)

/-- `parse_hardware_access` (source lines 1525-1555). -/
def parse_hardware_access (fuel : Nat) (hardware_access_type : HardwareAccessType)
    (access_type : DirectAccessType) (st : PSt) : Option AstNode × PSt :=
  let st := st.advance
  if access_type = DirectAccessType.Template ∨ st.token = Token.LiteralInteger then
    let (addrOpt, st) :=
      if st.token = Token.LiteralInteger then hwAddressLoop fuel st else (some [], st)
    match addrOpt with
    | none => (none, st)
    | some address =>
        let (i, st) := st.next_id
        (some (.mk i (.HardwareAccess access_type hardware_access_type address)), st)
  else
    (none, st.accept_diagnostic (Diagnostic.missing_token "LiteralInteger"))

/-- The `EXTENDS` collection loop of `parse_super_class` (source lines
534-538); a failing identifier aborts the whole collection (the `?`
operator inside the loop). -/
def parse_super_class_exts : Nat → PSt → Option (List String) × PSt
  | 0, st => (some [], st)
  | fuel + 1, st =>
      match st.try_consume .KeywordExtends with
      | (false, st) => (some [], st)
      | (true, st) =>
          match parse_identifier st with
          | (none, st) => (none, st)
          | (some name, st) =>
              match parse_super_class_exts fuel st with
              | (none, st) => (none, st)
              | (some rest, st) => (some (name :: rest), st)

/-- `parse_super_class` (source lines 533-550): collect every `EXTENDS`
clause, diagnose every extension after the first as illegal multiple
inheritance (E114), and keep only the first as the superclass. -/
def parse_super_class (fuel : Nat) (st : PSt) : Option Identifier × PSt :=
  match parse_super_class_exts fuel st with
  | (none, st) => (none, st)
  | (some extensions, st) =>
      let st := (extensions.drop 1).foldl
        (fun st _ => st.accept_diagnostic
          ((Diagnostic.new "Multiple inheritance. POUs can only be extended once.").with_error_code
            "E114")) st
      (extensions.head?.map (fun name => ({ name := name } : Identifier)), st)

/-- One entry of the `parse_generics` loop (source lines 427-436): an
identifier, a colon, and a type-nature constraint; a failed identifier or
nature contributes nothing. -/
def parse_generics_entry (acc : List GenericBinding) (st : PSt) :
    List GenericBinding × PSt :=
  let (identOpt, st) := parse_identifier st
  match identOpt with
  | some name =>
      (match parse_identifier (st.try_consume_or_report .KeywordColon) with
      | (some it, st) =>
          let (nature, st) := parse_type_nature st it
          (acc ++ [({ name := name, nature := nature } : GenericBinding)], st)
      | (none, st) => (acc, st))
  | none => (acc, st)

/-- The loop of `parse_generics` (source lines 426-441). -/
def parse_generics_loop : Nat → List GenericBinding → PSt → List GenericBinding × PSt
  | 0, acc, st => (acc, st)
  | fuel + 1, acc, st =>
      let (acc, st) := parse_generics_entry acc st
      match st.try_consume .KeywordComma with
      | (false, st) => (acc, st)
      | (true, st) =>
          match st.try_consume .OperatorGreater with
          | (true, st) => (acc, st)
          | (false, st) => parse_generics_loop fuel acc st

/-- `parse_generics` (source lines 422-448). -/
def parse_generics (fuel : Nat) (st : PSt) : List GenericBinding × PSt :=
  match st.try_consume .OperatorLess with
  | (true, st) => parse_any_in_region [.OperatorGreater] (parse_generics_loop fuel []) st
  | (false, st) => ([], st)

/-- The loop of `parse_interface_declarations` (source lines 471-481). -/
def parse_interface_declarations_loop : Nat → List Identifier → PSt →
    List Identifier × PSt
  | 0, acc, st => (acc, st)
  | fuel + 1, acc, st =>
      match st.token with
      | .Identifier =>
          (match parse_identifier st with
          | (some name, st) =>
              parse_interface_declarations_loop fuel (acc ++ [{ name := name }]) st
          | (none, st) => (acc, st))
      | .KeywordComma => parse_interface_declarations_loop fuel acc st.advance
      | _ => (acc, st)

/-- `parse_interface_declarations` (source lines 452-484): the identifiers
after an `IMPLEMENTS` keyword. -/
def parse_interface_declarations (fuel : Nat) (st : PSt) : List Identifier × PSt :=
  match st.try_consume .KeywordImplements with
  | (false, st) => ([], st)
  | (true, st) =>
      if st.token ≠ Token.Identifier then
        ([], st.accept_diagnostic
          ((Diagnostic.new
            "Expected a comma separated list of identifiers after IMPLEMENTS but got nothing").with_error_code
            "E006"))
      else parse_interface_declarations_loop fuel [] st

/-- `parse_type_reference_type_definition` (source lines 1005-1078): a bare
identifier type; with a defined name or a parenthesized bound, the shape of
the already-parsed bound expression selects between a genuine enum (an
expression list), a single-element enum (a lone member-reference
expression), and a subrange (anything else). -/
def parse_type_reference_type_definition (fuel : Nat) (name : Option String)
    (st : PSt) : Option (DataTypeDeclaration × Option AstNode) × PSt :=
  let (referenced_type, st) := st.slice_and_advance
  let (boundsRes, st) :=
    match st.try_consume .KeywordParensOpen with
    | (true, st) =>
        let (bounds, st) := parse_expression fuel st
        if st.token = Token.KeywordParensClose then
          ((some (some bounds) : Option (Option AstNode)), st.advance)
        else
          (none, st.accept_diagnostic
            (Diagnostic.unexpected_token_found "KeywordParensClose" st.slice))
    | (false, st) => (some none, st)
  match boundsRes with
  | none => (none, st)
  | some bounds =>
      let (initial_value, st) :=
        match st.try_consume .KeywordAssignment with
        | (true, st) =>
            let (e, st) := parse_expression fuel st
            ((some e : Option AstNode), st)
        | (false, st) =>
            match st.try_consume .KeywordReferenceAssignment with
            | (true, st) =>
                let (e, st) := parse_expression fuel st
                (some e, st)
            | (false, st) => (none, st)
      if name.isSome || bounds.isSome then
        let data_type :=
          match bounds with
          | some (.mk i (.ExpressionList expressions)) =>
              DataType.EnumType name referenced_type (.mk i (.ExpressionList expressions))
          | some (.mk i (.ReferenceExpr (.Member m) b)) =>
              DataType.EnumType name referenced_type (.mk i (.ReferenceExpr (.Member m) b))
          | _ => DataType.SubRangeType name referenced_type bounds
        (some (DataTypeDeclaration.Definition data_type st.scope, initial_value), st)
      else
        (some (DataTypeDeclaration.Reference referenced_type, initial_value), st)

/-- The region body of `parse_enum_type_definition` (source lines
1153-1157): the element list of a parenthesized enum. -/
def parse_enum_elements (fuel : Nat) (st : PSt) : Option AstNode × PSt :=
  let (elements, st) := parse_expression_list fuel st
  (some elements, st)

/-- `parse_enum_type_definition` (source lines 1148-1167): the element list
of a parenthesized enum (the opening parenthesis is already consumed); the
backing numeric type is always `DINT`. -/
def parse_enum_type_definition (fuel : Nat) (name : Option String) (st : PSt) :
    Option (DataTypeDeclaration × Option AstNode) × PSt :=
  let (elementsOpt, st) :=
    parse_any_in_region [.KeywordParensClose] (parse_enum_elements fuel) st
  match elementsOpt with
  | none => (none, st)
  | some elements =>
      let (initializer, st) :=
        match st.try_consume .KeywordAssignment with
        | (true, st) =>
            let (e, st) := parse_expression fuel st
            ((some e : Option AstNode), st)
        | (false, st) => (none, st)
      (some (DataTypeDeclaration.Definition (.EnumType name "DINT" elements) st.scope,
        initializer), st)

/-- The region body of `parse_string_size_expression` (source lines
1085-1106): the size expression plus the parenthesis-style diagnostics
(E009 mismatched, E014 unconventional). -/
def parse_string_size_inner (fuel : Nat) (opening_token : Token) (st : PSt) :
    Option AstNode × PSt :=
  let (size_expr, st) := parse_expression fuel st
  let st :=
    if (opening_token = Token.KeywordParensOpen ∧
          st.token = Token.KeywordSquareParensClose) ∨
        (opening_token = Token.KeywordSquareParensOpen ∧
          st.token = Token.KeywordParensClose) then
      st.accept_diagnostic
        ((Diagnostic.new
          "Mismatched types of parentheses around string size expression").with_error_code
          "E009")
    else if opening_token = Token.KeywordParensOpen ∨
        st.token = Token.KeywordParensClose then
      st.accept_diagnostic
        ((Diagnostic.new
          "Unusual type of parentheses around string size expression, consider using square parentheses").with_error_code
          "E014")
    else st
  (some size_expr, st)

/-- `parse_string_size_expression` (source lines 1080-1110): the optional
bracketed or parenthesized size of a string type, diagnosing mismatched
(E009) or unconventional (E014) parenthesis styles. -/
def parse_string_size_expression (fuel : Nat) (st : PSt) : Option AstNode × PSt :=
  let opening_token := st.token
  let (opened, st) :=
    match st.try_consume .KeywordSquareParensOpen with
    | (true, st) => (true, st)
    | (false, st) => st.try_consume .KeywordParensOpen
  if opened then
    parse_any_in_region [.KeywordSquareParensClose, .KeywordParensClose]
      (parse_string_size_inner fuel opening_token) st
  else (none, st)

/-- `parse_string_type_definition` (source lines 1112-1146). -/
def parse_string_type_definition (fuel : Nat) (name : Option String) (st : PSt) :
    Option (DataTypeDeclaration × Option AstNode) × PSt :=
  let text := st.slice
  let is_wide := st.token = Token.KeywordWideString
  let st := st.advance
  let (size, st) := parse_string_size_expression fuel st
  let decl :=
    match size, name with
    | some size, _ =>
        DataTypeDeclaration.Definition (.StringType name is_wide (some size)) st.scope
    | none, some name =>
        DataTypeDeclaration.Definition (.SubRangeType (some name) text none) st.scope
    | none, none => DataTypeDeclaration.Reference text
  let (assigned, st) :=
    match st.try_consume .KeywordAssignment with
    | (true, st) => (true, st)
    | (false, st) => st.try_consume .KeywordReferenceAssignment
  let (initializer, st) :=
    if assigned then
      let (e, st) := parse_expression fuel st
      ((some e : Option AstNode), st)
    else (none, st)
  (some (decl, initializer), st)

/-- The region body of the array-bounds parse (source lines 1174-1186):
`[` expression `]` up to the `OF` keyword. -/
def parse_array_range_inner (fuel : Nat) (st : PSt) : Option AstNode × PSt :=
  if st.token = Token.KeywordSquareParensOpen then
    let st := st.advance
    let (range_statement, st) := parse_expression fuel st
    if st.token = Token.KeywordSquareParensClose then
      ((some range_statement : Option AstNode), st.advance)
    else
      (none, st.accept_diagnostic
        (Diagnostic.unexpected_token_found "KeywordSquareParensClose" st.slice))
  else
    ((none : Option AstNode), st.accept_diagnostic
      (Diagnostic.unexpected_token_found "KeywordSquareParensOpen" st.slice))

/-- The comma-separated name-collection loop of `parse_variable_line`
(source lines 1446-1463). -/
def parse_variable_line_names : Nat → PSt → List String × PSt
  | 0, st => ([], st)
  | fuel + 1, st =>
      if st.token = Token.Identifier then
        let (name, st) := st.slice_and_advance
        if st.token = Token.KeywordColon ∨ st.token = Token.KeywordAt then
          ([name], st)
        else
          match st.try_consume .KeywordComma with
          | (true, st) =>
              let (rest, st) := parse_variable_line_names fuel st
              (name :: rest, st)
          | (false, st) =>
              let st := st.accept_diagnostic
                (Diagnostic.missing_token "KeywordColon or KeywordComma")
              let (rest, st) := parse_variable_line_names fuel st
              (name :: rest, st)
      else ([], st)

mutual

/-- The region body of `parse_full_data_type_definition` (source lines
886-913): the `SIZED`/`...` variadic forms around the plain type
definition. -/
def parse_full_data_type_inner : Nat → Option String → PSt →
    Option (DataTypeDeclaration × Option AstNode) × PSt
  | 0, _, st => (none, st)
  | fuel + 1, name, st =>
      let (sized, st) := st.try_consume .PropertySized
      match st.try_consume .KeywordDotDotDot with
      | (true, st) =>
          ((some (DataTypeDeclaration.Definition (.VarArgs none sized) st.scope,
            (none : Option AstNode)) :
              Option (DataTypeDeclaration × Option AstNode)), st)
      | (false, st) =>
          match parse_data_type_definition fuel name st with
          | (none, st) => (none, st)
          | (some (type_def, initializer), st) =>
              match st.try_consume .KeywordDotDotDot with
              | (true, st) =>
                  (some (DataTypeDeclaration.Definition
                    (.VarArgs (some type_def) sized) st.scope, none), st)
              | (false, st) => (some (type_def, initializer), st)

/-- `parse_full_data_type_definition` (source lines 881-922): wrap the type
definition in a region ending at `END_STRUCT` or `;`, handling the variadic
`...`/`SIZED` forms, and tolerate a trailing semicolon after a struct. -/
def parse_full_data_type_definition : Nat → Option String → PSt →
    Option (DataTypeDeclaration × Option AstNode) × PSt
  | 0, _, st => (none, st)
  | fuel + 1, name, st =>
      let end_keyword :=
        if st.token = Token.KeywordStruct then Token.KeywordEndStruct
        else Token.KeywordSemicolon
      let (parsed_datatype, st) :=
        parse_any_in_region [end_keyword] (parse_full_data_type_inner fuel name) st
      let st :=
        if end_keyword = Token.KeywordEndStruct then (st.try_consume .KeywordSemicolon).2
        else st
      (parsed_datatype, st)

/-- `parse_data_type_definition` (source lines 925-978): dispatch on the
token introducing a type definition. -/
def parse_data_type_definition : Nat → Option String → PSt →
    Option (DataTypeDeclaration × Option AstNode) × PSt
  | 0, _, st => (none, st)
  | fuel + 1, name, st =>
      match st.try_consume .KeywordStruct with
      | (true, st) =>
          let (vars, st) := parse_variable_list fuel st
          (some (DataTypeDeclaration.Definition (.StructType name vars) st.scope,
            none), st)
      | (false, st) =>
      match st.try_consume .KeywordArray with
      | (true, st) => parse_array_type_definition fuel name st
      | (false, st) =>
      match st.try_consume .KeywordPointer with
      | (true, st) =>
          let st := st.accept_diagnostic
            ((Diagnostic.new
              "`POINTER TO` is type-unsafe, consider using `REF_TO` instead").with_error_code
              "E015")
          if st.token = Token.KeywordTo then
            parse_pointer_definition fuel name none false st.advance
          else
            let st := st.accept_diagnostic
              (Diagnostic.unexpected_token_found "KeywordTo" st.slice)
            parse_pointer_definition fuel name none false st
      | (false, st) =>
      match st.try_consume .KeywordRef with
      | (true, st) => parse_pointer_definition fuel name none true st
      | (false, st) =>
      match st.try_consume .KeywordParensOpen with
      | (true, st) => parse_enum_type_definition fuel name st
      | (false, st) =>
      if st.token = Token.KeywordString ∨ st.token = Token.KeywordWideString then
        parse_string_type_definition fuel name st
      else if st.token = Token.Identifier then
        parse_type_reference_type_definition fuel name st
      else
        (none, st.accept_diagnostic
          (Diagnostic.unexpected_token_found "DataTypeDefinition"
            (toString (repr st.token))))

/-- `parse_pointer_definition` (source lines 980-1003): wrap a recursively
parsed referenced type into a pointer type with the given auto-deref tag
and type-safety flag. -/
def parse_pointer_definition : Nat → Option String → Option AutoDerefType → Bool →
    PSt → Option (DataTypeDeclaration × Option AstNode) × PSt
  | 0, _, _, _, st => (none, st)
  | fuel + 1, name, auto_deref, type_safe, st =>
      match parse_data_type_definition fuel none st with
      | (none, st) => (none, st)
      | (some (decl, initializer), st) =>
          (some (DataTypeDeclaration.Definition
            (.PointerType name decl auto_deref type_safe) st.scope, initializer), st)

/-- `parse_array_type_definition` (source lines 1169-1234).  (In the source
an empty bound expression list would index out of bounds; here it falls to
the E008 diagnostic case, an unreachable difference since expression lists
are never empty.) -/
def parse_array_type_definition : Nat → Option String → PSt →
    Option (DataTypeDeclaration × Option AstNode) × PSt
  | 0, _, st => (none, st)
  | fuel + 1, name, st =>
      let (rangeOpt, st) :=
        parse_any_in_region [.KeywordOf] (parse_array_range_inner fuel) st
      match rangeOpt with
      | none => (none, st)
      | some range =>
          match parse_data_type_definition fuel none st with
          | (none, st) => (none, st)
          | (some (reference, initializer), st) =>
              let is_variable_length_opt :=
                match range.stmt with
                | .RangeStatement _ _ => some false
                | .VlaRangeStatement => some true
                | .ExpressionList expressions =>
                    (match expressions with
                    | e :: _ =>
                        (match e.stmt with
                        | .RangeStatement _ _ => some false
                        | .VlaRangeStatement => some true
                        | _ => none)
                    | [] => none)
                | _ => none
              let (is_variable_length, st) :=
                match is_variable_length_opt with
                | some val => (val, st)
                | none =>
                    (false, st.accept_diagnostic
                      ((Diagnostic.new "Expected a range statement").with_error_code
                        "E008"))
              (some (DataTypeDeclaration.Definition
                (.ArrayType name range reference is_variable_length) st.scope,
                initializer), st)

/-- `parse_variable_list` (source lines 1355-1362). -/
def parse_variable_list : Nat → PSt → List Variable × PSt
  | 0, st => ([], st)
  | fuel + 1, st =>
      if st.token = Token.Identifier then
        let (line_vars, st) := parse_variable_line fuel st
        let (rest, st) := parse_variable_list fuel st
        (line_vars ++ rest, st)
      else ([], st)

/-- `parse_variable_line` (source lines 1444-1523), first half: collect the
names, then dispatch on an optional `AT` clause — a hardware address, the
alias form (which short-circuits with at most one variable built from the
first name), or a diagnosed garbage target. -/
def parse_variable_line : Nat → PSt → List Variable × PSt
  | 0, st => ([], st)
  | fuel + 1, st =>
      let (var_names, st) := parse_variable_line_names fuel st
      match st.try_consume .KeywordAt with
      | (true, st) =>
          (match st.token with
          | .HardwareAccessInput | .HardwareAccessOutput
          | .HardwareAccessMemory | .HardwareAccessGlobal =>
              let (address, st) :=
                parse_hardware_access fuel st.cur.hwDirection st.cur.hwAccess st
              parse_variable_line_tail fuel var_names address st
          | .Identifier =>
              (match parse_aliasing fuel (var_names.headD "") st with
              | (some aliased_variable, st) => ([aliased_variable], st)
              | (none, st) => ([], st))
          | _ =>
              let st := st.accept_diagnostic
                (Diagnostic.missing_token "hardware access or identifier")
              parse_variable_line_tail fuel var_names none st)
      | (false, st) => parse_variable_line_tail fuel var_names none st

/-- `parse_variable_line` (source lines 1489-1522), second half: the colon,
the shared type (a `REFERENCE TO` pointer, an address-derived alias
pointer, or a full type definition), the optional semicolon, and the
expansion of the shared type/initializer across all collected names. -/
def parse_variable_line_tail : Nat → List String → Option AstNode → PSt →
    List Variable × PSt
  | 0, _, _, st => ([], st)
  | fuel + 1, var_names, address, st =>
      let st :=
        match st.try_consume .KeywordColon with
        | (true, st) => st
        | (false, st) => st.accept_diagnostic (Diagnostic.missing_token "KeywordColon")
      parse_variable_line_def fuel var_names address st

/-- `parse_variable_line` (source lines 1498-1522), third part: the shared
type definition and the expansion across the collected names. -/
def parse_variable_line_def : Nat → List String → Option AstNode → PSt →
    List Variable × PSt
  | 0, _, _, st => ([], st)
  | fuel + 1, var_names, address, st =>
      let (parse_definition_opt, st) :=
        match st.try_consume .KeywordReferenceTo with
        | (true, st) =>
            parse_pointer_definition fuel none (some .Reference) true st
        | (false, st) =>
            if address.isSome then
              parse_pointer_definition fuel none (some .Alias) true st
            else
              parse_full_data_type_definition fuel none st
      let st := (st.try_consume .KeywordSemicolon).2
      match parse_definition_opt with
      | some (data_type, initializer) =>
          (var_names.map (fun name => Variable.mk name data_type initializer address),
            st)
      | none => ([], st)

/-- `parse_aliasing` (source lines 1413-1442): `name AT other : type` — a
single auto-dereferencing alias variable whose initializer is the aliased
reference expression. -/
def parse_aliasing : Nat → String → PSt → Option Variable × PSt
  | 0, _, st => (none, st)
  | fuel + 1, name, st =>
      let (reference, st) := parse_reference st
      let st :=
        match st.try_consume .KeywordColon with
        | (true, st) => st
        | (false, st) => st.accept_diagnostic (Diagnostic.missing_token "KeywordColon")
      let (datatype, st) := parse_pointer_definition fuel none (some .Alias) true st
      let st :=
        match st.try_consume .KeywordSemicolon with
        | (true, st) => st
        | (false, st) =>
            st.accept_diagnostic (Diagnostic.missing_token "KeywordSemicolon")
      match datatype with
      | some (data_type, _) =>
          (some (Variable.mk name data_type (some reference) none), st)
      | none => (none, st)

end

/-- Modelled from the spec: `Token::is_var` of the lexer — the `VAR*` block
keywords. -/
def Token.is_var : Token → Bool
  | .KeywordVar | .KeywordVarTemp | .KeywordVarInput | .KeywordVarOutput
  | .KeywordVarGlobal | .KeywordVarInOut | .KeywordVarExternal => true
  | _ => false

/-- Modelled from the spec: `qualified_name` of the conventions crate —
`container.name`. -/
def qualified_name (container name : String) : String :=
  container ++ "." ++ name

/-- `parse_variable_block_type` (source lines 1303-1330). -/
def parse_variable_block_type (st : PSt) : VariableBlockType × PSt :=
  let block_type := st.token
  let st := st.advance
  let (argument_property, st) :=
    match st.try_consume .PropertyByRef with
    | (true, st) =>
        let st :=
          if block_type = Token.KeywordVarInput then st
          else
            st.accept_diagnostic
              ((Diagnostic.new
                "Invalid pragma location: Only VAR_INPUT support by ref properties").with_error_code
                "E024")
        (ArgumentProperty.ByRef, st)
    | (false, st) => (ArgumentProperty.ByVal, st)
  let kind :=
    match block_type with
    | .KeywordVar => VariableBlockType.Local
    | .KeywordVarTemp => VariableBlockType.Temp
    | .KeywordVarInput => VariableBlockType.Input argument_property
    | .KeywordVarOutput => VariableBlockType.Output
    | .KeywordVarGlobal => VariableBlockType.Global
    | .KeywordVarInOut => VariableBlockType.InOut
    | .KeywordVarExternal => VariableBlockType.External
    | _ => VariableBlockType.Local
  (kind, st)

/-- The default-initializer pass of `parse_variable_block` (source lines
1345-1350): every variable without an explicit initializer receives a
synthetic default-value initializer (one fresh node id each). -/
def fill_constant_defaults : List Variable → PSt → List Variable × PSt
  | [], st => ([], st)
  | v :: rest, st =>
      let (v, st) :=
        match v.initializer with
        | none =>
            let (i, st) := st.next_id
            (v.withInitializer (some (.mk i .DefaultValue)), st)
        | some _ => (v, st)
      let (tail_vars, st) := fill_constant_defaults rest st
      (v :: tail_vars, st)

/-- `parse_variable_block` (source lines 1332-1353). -/
def parse_variable_block (fuel : Nat) (linkage : LinkageType) (st : PSt) :
    VariableBlock × PSt :=
  let (variable_block_type, st) := parse_variable_block_type st
  let (constant, st) := st.try_consume .KeywordConstant
  let (retain, st) := st.try_consume .KeywordRetain
  let st := (st.try_consume .KeywordNonRetain).2
  let (access, st) := parse_access_modifier st
  let (vars, st) := parse_any_in_region [.KeywordEndVar] (parse_variable_list fuel) st
  let (vars, st) :=
    if constant ∧ variable_block_type ≠ VariableBlockType.External then
      fill_constant_defaults vars st
    else (vars, st)
  ({ access := access, constant := constant, retain := retain, vars := vars,
     kind := variable_block_type, linkage := linkage }, st)

/-- `parse_return_type` (source lines 552-594). -/
def parse_return_type (fuel : Nat) (st : PSt) : Option DataTypeDeclaration × PSt :=
  match st.try_consume .KeywordColon with
  | (false, st) => (none, st)
  | (true, st) =>
      match parse_data_type_definition fuel none st with
      | (some (declaration, initializer), st) =>
          let st :=
            match initializer with
            | some _ =>
                st.accept_diagnostic
                  ((Diagnostic.new
                    "Return types cannot have a default value, the value will be ignored").with_error_code
                    "E016")
            | none => st
          let st :=
            match declaration with
            | .Definition data_type _ =>
                (match data_type with
                | .EnumType _ _ _ | .StructType _ _ =>
                    st.accept_diagnostic
                      ((Diagnostic.new
                        "Data Type not supported as a function return type!").with_error_code
                        "E027")
                | _ => st)
            | _ => st
          (some declaration, st)
      | (none, st) =>
          (none, st.accept_diagnostic
            (Diagnostic.unexpected_token_found "Datatype" st.slice))

/-- `parse_implementation` (source lines 777-803): the statement body plus
the qualifying metadata; `overriding` and `access` are default-initialized
and completed by `parse_method`. -/
def parse_implementation (fuel : Nat) (linkage : LinkageType) (pou_type : PouType)
    (call_name type_name : String) (generic : Bool) (st : PSt) :
    Implementation × PSt :=
  let (statements, st) := parse_body_standalone fuel st
  ({ name := call_name, type_name := type_name, linkage := linkage,
     pou_type := pou_type, statements := statements, overriding := false,
     generic := generic, access := none }, st)

/-- The variable-block loop of `parse_method` (source lines 627-635). -/
def parse_method_var_blocks : Nat → PSt → List VariableBlock × PSt
  | 0, st => ([], st)
  | fuel + 1, st =>
      if st.token = Token.KeywordVar ∨ st.token = Token.KeywordVarInput ∨
          st.token = Token.KeywordVarOutput ∨ st.token = Token.KeywordVarInOut ∨
          st.token = Token.KeywordVarTemp then
        let (b, st) := parse_variable_block fuel LinkageType.Internal st
        let (rest, st) := parse_method_var_blocks fuel st
        (b :: rest, st)
      else ([], st)

/-- The region body of `parse_method` (source lines 603-672). -/
def parse_method_inner (fuel : Nat) (parent : String)
    (declaration_kind : DeclarationKind) (linkage : LinkageType) (constant : Bool)
    (st : PSt) : Option (Pou × Implementation) × PSt :=
  let st :=
    if constant then st.accept_diagnostic Diagnostic.const_pragma_is_not_allowed
    else st
  let st := st.advance
  let (am, st) := parse_access_modifier st
  let access := some am
  let pou_kind := PouType.Method parent none declaration_kind
  let (poly_mode, st) := parse_polymorphism_mode pou_kind st
  let (overriding, st) := st.try_consume .KeywordOverride
  match parse_identifier st with
  | (none, st) => ((none : Option (Pou × Implementation)), st)
  | (some name, st) =>
      let (generics, st) := parse_generics fuel st
      let (return_type, st) := parse_return_type fuel st
      let (variable_blocks, st) := parse_method_var_blocks fuel st
      let call_name := qualified_name parent name
      let (implementation, st) :=
        parse_implementation fuel linkage pou_kind call_name call_name
          (!generics.isEmpty) st
      let implementation :=
        { implementation with overriding := overriding, access := access }
      let (i, st) := st.next_id
      (some ({ name := call_name, id := i, kind := pou_kind,
               variable_blocks := variable_blocks, return_type := return_type,
               poly_mode := poly_mode, generics := generics, linkage := linkage,
               super_class := none, interfaces := [], is_const := constant,
               properties := [] }, implementation), st)

/-- `parse_method` (source lines 596-673), the region wrapper around
`parse_method_inner`. -/
def parse_method (fuel : Nat) (parent : String) (declaration_kind : DeclarationKind)
    (linkage : LinkageType) (constant : Bool) (st : PSt) :
    Option (Pou × Implementation) × PSt :=
  parse_any_in_region [.KeywordEndMethod]
    (parse_method_inner fuel parent declaration_kind linkage constant) st

/-- The illegal direct variable-block loop of `parse_property` (source lines
697-706): blocks outside `GET`/`SET` are parsed for error quality, flagged
E007, and never attached. -/
def parse_property_var_blocks_illegal : Nat → PSt → PSt
  | 0, st => st
  | fuel + 1, st =>
      if st.token.is_var then
        let (_, st) := parse_variable_block fuel LinkageType.Internal st
        let st := st.accept_diagnostic
          ((Diagnostic.new
            "Variable blocks may only be defined within a GET or SET block in the context of properties").with_error_code
            "E007")
        parse_property_var_blocks_illegal fuel st
      else st

/-- The accessor-local variable-block loop of `parse_property` (source lines
714-717). -/
def parse_property_accessor_var_blocks : Nat → PSt → List VariableBlock × PSt
  | 0, st => ([], st)
  | fuel + 1, st =>
      if st.token.is_var then
        let (b, st) := parse_variable_block fuel LinkageType.Internal st
        let (rest, st) := parse_property_accessor_var_blocks fuel st
        (b :: rest, st)
      else ([], st)

/-- The `GET`/`SET` accessor loop of `parse_property` (source lines
709-733). -/
def parse_property_implementations : Nat → PSt → List PropertyImplementation × PSt
  | 0, st => ([], st)
  | fuel + 1, st =>
      if st.token = Token.KeywordGet ∨ st.token = Token.KeywordSet then
        let kind :=
          if st.token = Token.KeywordGet then PropertyKind.Get else PropertyKind.Set
        let st := st.advance
        let (variable_blocks, st) := parse_property_accessor_var_blocks fuel st
        let (statements, st) := parse_body_in_region fuel
          (match kind with
          | .Get => [Token.KeywordEndGet]
          | .Set => [Token.KeywordEndSet]) st
        let imp : PropertyImplementation :=
          { kind := kind, variable_blocks := variable_blocks, body := statements }
        let (rest, st) := parse_property_implementations fuel st
        (imp :: rest, st)
      else ([], st)

/-- `parse_property` (source lines 675-744): a property is discarded as a
whole (after every diagnostic has been recorded) exactly when its name or
its datatype is missing. -/
def parse_property (fuel : Nat) (st : PSt) : Option PropertyBlock × PSt :=
  let st := st.advance
  let (identifier, st) := parse_identifier st
  let (has_error, st) :=
    match identifier with
    | none =>
        (true, st.accept_diagnostic
          (Diagnostic.new "Property definition is missing a name"))
    | some _ => (false, st)
  let (datatype, st) := parse_return_type fuel st
  let (has_error, st) :=
    match datatype with
    | none =>
        (true, st.accept_diagnostic
          (Diagnostic.new "Property definition is missing a datatype"))
    | some _ => (has_error, st)
  let st := parse_property_var_blocks_illegal fuel st
  let (implementations, st) := parse_property_implementations fuel st
  let st := st.try_consume_or_report .KeywordEndProperty
  if has_error then (none, st)
  else
    match identifier, datatype with
    | some name, some datatype =>
        (some { ident := { name := name }, datatype := datatype,
                implementations := implementations }, st)
    | _, _ => (none, st)

/-- The method-entry handling of the `parse_interface` loop (source lines
219-234): a parsed method with a non-empty body is diagnosed (E113) but
retained together with its implementation. -/
def parse_interface_method_entry (res : Option (Pou × Implementation))
    (methods : List Pou) (implementations : List Implementation) (st : PSt) :
    List Pou × List Implementation × PSt :=
  match res with
  | some (method, imp) =>
      let st :=
        if imp.statements.isEmpty then st
        else
          st.accept_diagnostic
            ((Diagnostic.new
              "Interfaces can not have a default implementation").with_error_code
              "E113")
      (methods ++ [method], implementations ++ [imp], st)
  | none => (methods, implementations, st)

/-- The property-entry handling of the `parse_interface` loop (source lines
237-248): each accessor with a non-empty body is diagnosed (E113); the
property is retained. -/
def parse_interface_property_entry (res : Option PropertyBlock)
    (properties : List PropertyBlock) (st : PSt) : List PropertyBlock × PSt :=
  match res with
  | some property =>
      let st := (property.implementations.filter (fun imp => !imp.body.isEmpty)).foldl
        (fun st _ =>
          st.accept_diagnostic
            ((Diagnostic.new
              "Interfaces can not have a default implementation").with_error_code
              "E113")) st
      (properties ++ [property], st)
  | none => (properties, st)

/-- The `EXTENDS` list of `parse_interface` (source lines 210-216). -/
def parse_interface_extensions : Nat → List Identifier → PSt →
    List Identifier × PSt
  | 0, acc, st => (acc, st)
  | fuel + 1, acc, st =>
      if st.token = Token.Identifier then
        match parse_identifier st with
        | (some name, st) =>
            let st := (st.try_consume .KeywordComma).2
            parse_interface_extensions fuel (acc ++ [{ name := name }]) st
        | (none, st) => (acc, st)
      else (acc, st)

/-- The method/property loop of `parse_interface` (source lines 217-253). -/
def parse_interface_loop : Nat → String → List Pou → List Implementation →
    List PropertyBlock → PSt →
    (List Pou × List Implementation × List PropertyBlock) × PSt
  | 0, _, methods, implementations, properties, st =>
      ((methods, implementations, properties), st)
  | fuel + 1, name, methods, implementations, properties, st =>
      match st.token with
      | .KeywordMethod =>
          let (res, st) :=
            parse_method fuel name DeclarationKind.Abstract LinkageType.Internal
              false st
          let (methods, implementations, st) :=
            parse_interface_method_entry res methods implementations st
          parse_interface_loop fuel name methods implementations properties st
      | .KeywordProperty =>
          let (res, st) := parse_property fuel st
          let (properties, st) := parse_interface_property_entry res properties st
          parse_interface_loop fuel name methods implementations properties st
      | _ => ((methods, implementations, properties), st)

/-- `parse_interface` (source lines 185-269). -/
def parse_interface (fuel : Nat) (st : PSt) :
    (Interface × List Implementation) × PSt :=
  let st := st.try_consume_or_report .KeywordInterface
  let (name, st) :=
    match st.token with
    | .Identifier =>
        (match parse_identifier st with
        | (some n, st) => (n, st)
        | (none, st) => ("", st))
    | _ =>
        ("", st.accept_diagnostic
          ((Diagnostic.new
            "Expected a name for the interface definition but got nothing").with_error_code
            "E006"))
  let (extensions, st) :=
    match st.try_consume .KeywordExtends with
    | (true, st) => parse_interface_extensions fuel [] st
    | (false, st) => (([] : List Identifier), st)
  let ((methods, implementations, properties), st) :=
    parse_interface_loop fuel name [] [] [] st
  let st := st.try_consume_or_report .KeywordEndInterface
  let (i, st) := st.next_id
  (({ id := i, ident := { name := name }, methods := methods,
      extensions := extensions, properties := properties }, implementations), st)

/-- The variable-block loop of `parse_pou` (source lines 325-336). -/
def parse_pou_var_blocks : Nat → PSt → List VariableBlock × PSt
  | 0, st => ([], st)
  | fuel + 1, st =>
      if [Token.KeywordVar, Token.KeywordVarInput, Token.KeywordVarOutput,
          Token.KeywordVarInOut, Token.KeywordVarTemp,
          Token.KeywordVarExternal].contains st.token then
        let (b, st) := parse_variable_block fuel LinkageType.Internal st
        let (rest, st) := parse_pou_var_blocks fuel st
        (b :: rest, st)
      else ([], st)

/-- The method/property loop of `parse_pou` (source lines 348-372). -/
def parse_pou_methods_loop : Nat → PouType → String → LinkageType →
    (List Pou × List Implementation × List PropertyBlock) → PSt →
    (List Pou × List Implementation × List PropertyBlock) × PSt
  | 0, _, _, _, acc, st => (acc, st)
  | fuel + 1, kind, name, linkage, acc, st =>
      let (impl_pous, implementations, properties) := acc
      if st.token = Token.KeywordMethod ∨ st.token = Token.KeywordProperty ∨
          st.token = Token.PropertyConstant then
        let st :=
          if kind = PouType.FunctionBlock ∨ kind = PouType.Class ∨
              kind = PouType.Program then st
          else
            let pre :=
              if st.token = Token.KeywordProperty then "Properties" else "Methods"
            st.accept_diagnostic
              (Diagnostic.new (pre ++ " cannot be declared in a " ++ kind.kindName))
        if st.token = Token.KeywordProperty then
          let (res, st) := parse_property fuel st
          let properties :=
            match res with
            | some p => properties ++ [p]
            | none => properties
          parse_pou_methods_loop fuel kind name linkage
            (impl_pous, implementations, properties) st
        else
          let (is_const, st) := st.try_consume .PropertyConstant
          let (res, st) :=
            parse_method fuel name DeclarationKind.Concrete linkage is_const st
          let (impl_pous, implementations) :=
            match res with
            | some (pou, implementation) =>
                (impl_pous ++ [pou], implementations ++ [implementation])
            | none => (impl_pous, implementations)
          parse_pou_methods_loop fuel kind name linkage
            (impl_pous, implementations, properties) st
      else (acc, st)

/-- The scoped part of the `parse_pou` region body (source lines 314-405):
everything parsed under `with_scope` of the POU name. -/
def parse_pou_scope_body (fuel : Nat) (kind : PouType) (linkage : LinkageType)
    (constant : Bool) (name : String) (poly_mode : Option PolymorphismMode)
    (generics : List GenericBinding) (st : PSt) :
    (List Pou × List Implementation) × PSt :=
  let (super_class, st) := parse_super_class fuel st
  let (interfaces, st) := parse_interface_declarations fuel st
  let (return_type, st) := parse_return_type fuel st
  let (variable_blocks, st) := parse_pou_var_blocks fuel st
  let ((impl_pous, implementations, properties), st) :=
    parse_pou_methods_loop fuel kind name linkage ([], [], []) st
  let (implementation, st) :=
    parse_implementation fuel linkage kind name name (!generics.isEmpty) st
  let implementations := implementations ++ [implementation]
  let (i, st) := st.next_id
  let pous := ({ name := name, id := i, kind := kind,
                 variable_blocks := variable_blocks, return_type := return_type,
                 poly_mode := poly_mode, generics := generics, linkage := linkage,
                 super_class := super_class, interfaces := interfaces,
                 is_const := constant, properties := properties } : Pou) :: impl_pous
  ((pous, implementations), st)

/-- The region body of `parse_pou` (source lines 304-406): polymorphism
mode, name, generics, then the scoped body. -/
def parse_pou_inner (fuel : Nat) (kind : PouType) (linkage : LinkageType)
    (constant : Bool) (st : PSt) : (List Pou × List Implementation) × PSt :=
  let (poly_mode, st) := parse_polymorphism_mode kind st
  let (nameOpt, st) := parse_identifier st
  let name := nameOpt.getD ""
  let (generics, st) := parse_generics fuel st
  with_scope name
    (parse_pou_scope_body fuel kind linkage constant name poly_mode generics) st

/-- `parse_pou` (source lines 280-420). -/
def parse_pou (fuel : Nat) (unit : CompilationUnit) (kind : PouType)
    (linkage : LinkageType) (expected_end_token : Token) (constant : Bool)
    (st : PSt) : CompilationUnit × PSt :=
  let st :=
    if constant ∧ linkage ≠ LinkageType.BuiltIn then
      st.accept_diagnostic Diagnostic.const_pragma_is_not_allowed
    else st
  let st := st.advance
  let closing_tokens := [expected_end_token, Token.KeywordEndAction,
    Token.KeywordEndProgram, Token.KeywordEndFunction,
    Token.KeywordEndFunctionBlock, Token.KeywordEndClass]
  let (result, st) := parse_any_in_region closing_tokens
    (parse_pou_inner fuel kind linkage constant) st
  let st :=
    if closing_tokens.contains st.lastToken ∧ st.lastToken ≠ expected_end_token then
      st.accept_diagnostic
        (Diagnostic.unexpected_token_found (toString (repr expected_end_token))
          st.lastText)
    else st
  let (pous, implementations) := result
  ({ unit with
      pous := unit.pous ++ pous,
      implementations := unit.implementations ++ implementations }, st)

/-- The region body of `parse_action` (source lines 814-850). -/
def parse_action_inner (fuel : Nat) (linkage : LinkageType)
    (container : Option String) (closing_tokens : List Token) (st : PSt) :
    Option Implementation × PSt :=
  let (name_or_container, st) := st.slice_and_advance
  let (pairOpt, st) :=
    match container with
    | some c => ((some (c, name_or_container) : Option (String × String)), st)
    | none =>
        if st.token = Token.KeywordDot then
          let st := st.advance
          if st.token = Token.Identifier then
            let (name, st) := st.slice_and_advance
            (some (name_or_container, name), st)
          else
            (none, st.accept_diagnostic
              (Diagnostic.unexpected_token_found "Identifier" st.slice))
        else
          (none, st.accept_diagnostic
            (Diagnostic.unexpected_token_found "KeywordDot" st.slice))
  match pairOpt with
  | none => ((none : Option Implementation), st)
  | some (container, name) =>
      let call_name := qualified_name container name
      let (implementation, st) :=
        parse_implementation fuel linkage PouType.Action call_name container
          false st
      let st :=
        if closing_tokens.contains st.lastToken ∧
            st.lastToken ≠ Token.KeywordEndAction then
          st.accept_diagnostic
            (Diagnostic.unexpected_token_found
              (toString (repr Token.KeywordEndAction)) st.slice)
        else st
      (some implementation, st)

/-- `parse_action` (source lines 805-851). -/
def parse_action (fuel : Nat) (linkage : LinkageType) (container : Option String)
    (st : PSt) : Option Implementation × PSt :=
  let st := st.advance
  let closing_tokens := [Token.KeywordEndAction, Token.KeywordEndProgram,
    Token.KeywordEndFunction, Token.KeywordEndFunctionBlock]
  parse_any_in_region closing_tokens
    (parse_action_inner fuel linkage container closing_tokens) st

/-- The per-action loop of `parse_actions` (source lines 163-179); an
unexpected token diagnoses and exits the loop early. -/
def parse_actions_loop : Nat → LinkageType → String → List Implementation →
    PSt → List Implementation × PSt
  | 0, _, _, impls, st => (impls, st)
  | fuel + 1, linkage, container, impls, st =>
      if st.token ≠ Token.KeywordEndActions ∧ ¬ st.is_end_of_stream then
        match st.token with
        | .KeywordAction =>
            let (res, st) := parse_action fuel linkage (some container) st
            let impls :=
              match res with
              | some imp => impls ++ [imp]
              | none => impls
            parse_actions_loop fuel linkage container impls st
        | _ =>
            (impls, st.accept_diagnostic
              (Diagnostic.unexpected_token_found "KeywordAction" st.slice))
      else (impls, st)

/-- The region body of `parse_actions` (source lines 156-181). -/
def parse_actions_inner (fuel : Nat) (linkage : LinkageType)
    (default_container : String) (st : PSt) : List Implementation × PSt :=
  let st := st.advance
  let (container, st) :=
    if st.token = Token.Identifier then st.slice_and_advance
    else (default_container, st)
  parse_actions_loop fuel linkage container [] st

/-- `parse_actions` (source lines 151-182), the region wrapper. -/
def parse_actions (fuel : Nat) (linkage : LinkageType) (default_container : String)
    (st : PSt) : List Implementation × PSt :=
  parse_any_in_region [.KeywordEndActions]
    (parse_actions_inner fuel linkage default_container) st

/-- The declaration loop of `parse_type` (source lines 858-874). -/
def parse_type_loop : Nat → List UserTypeDeclaration → PSt →
    List UserTypeDeclaration × PSt
  | 0, acc, st => (acc, st)
  | fuel + 1, acc, st =>
      if st.closes_open_region st.token then (acc, st)
      else
        let (name, st) := st.slice_and_advance
        let st := st.try_consume_or_report .KeywordColon
        let (result, st) := parse_full_data_type_definition fuel (some name) st
        let acc :=
          match result with
          | some (DataTypeDeclaration.Definition data_type _, initializer) =>
              acc ++ [{ data_type := data_type, initializer := initializer,
                        scope := st.scope }]
          | _ => acc
        parse_type_loop fuel acc st

/-- `parse_type` (source lines 854-877): a `TYPE ... END_TYPE` block. -/
def parse_type (fuel : Nat) (st : PSt) : List UserTypeDeclaration × PSt :=
  let st := st.advance
  parse_any_in_region [.KeywordEndType] (parse_type_loop fuel []) st

/-- `try_parse_config_var` (source lines 1379-1411). -/
def try_parse_config_var (fuel : Nat) (st : PSt) : Option ConfigVariable × PSt :=
  let (qualified_reference, st) := parse_reference st
  let st :=
    match st.try_consume .KeywordAt with
    | (true, st) => st
    | (false, st) => st.accept_diagnostic (Diagnostic.missing_token "AT")
  match st.token with
  | .HardwareAccessInput | .HardwareAccessOutput
  | .HardwareAccessMemory | .HardwareAccessGlobal =>
      let (addrOpt, st) :=
        parse_hardware_access fuel st.cur.hwDirection st.cur.hwAccess st
      (match addrOpt with
      | none => ((none : Option ConfigVariable), st)
      | some address =>
          let st :=
            match st.try_consume .KeywordColon with
            | (true, st) => st
            | (false, st) =>
                st.accept_diagnostic (Diagnostic.missing_token "KeywordColon")
          match parse_data_type_definition fuel none st with
          | (none, st) => (none, st)
          | (some (dt, init), st) =>
              let st :=
                match init with
                | some _ =>
                    st.accept_diagnostic
                      (Diagnostic.unexpected_token_found "KeywordSemicolon"
                        "Initializer")
                | none => st
              (some { reference := qualified_reference, data_type := dt,
                      address := address }, st))
  | _ =>
      ((none : Option ConfigVariable),
        st.accept_diagnostic (Diagnostic.missing_token "hardware access"))

/-- The per-variable loop of `parse_config_variables` (source lines
1367-1374). -/
def parse_config_variables_loop : Nat → List ConfigVariable → PSt →
    List ConfigVariable × PSt
  | 0, acc, st => (acc, st)
  | fuel + 1, acc, st =>
      if st.token = Token.Identifier then
        let (res, st) :=
          parse_any_in_region [.KeywordSemicolon] (try_parse_config_var fuel) st
        let acc :=
          match res with
          | some v => acc ++ [v]
          | none => acc
        parse_config_variables_loop fuel acc st
      else (acc, st)

/-- The region body of `parse_config_variables` (source lines 1365-1376). -/
def parse_config_variables_inner (fuel : Nat) (st : PSt) :
    List ConfigVariable × PSt :=
  let st := st.advance
  parse_config_variables_loop fuel [] st

/-- `parse_config_variables` (source lines 1364-1377), the region wrapper. -/
def parse_config_variables (fuel : Nat) (st : PSt) : List ConfigVariable × PSt :=
  parse_any_in_region [.KeywordEndVar] (parse_config_variables_inner fuel) st

/-- The outcome of one iteration of the top-level dispatcher loop: stop, or
continue with the pragma state (`linkage`, `constant`) the next iteration
starts from. -/
inductive IterStep where
  | Done
  | Next (linkage : LinkageType) (constant : Bool)
  deriving DecidableEq, Repr

/-- One iteration of the top-level dispatcher loop of `parse` (source lines
73-147): dispatch on the leading token; `lnk` is the caller-supplied
default linkage restored at the bottom of the loop (the two pragma arms
`continue` past that restore). -/
def parse_iter (fuel : Nat) (lnk : LinkageType) (linkage : LinkageType)
    (constant : Bool) (unit : CompilationUnit) (st : PSt) :
    (IterStep × CompilationUnit) × PSt :=
  match st.token with
  | .PropertyExternal => ((.Next LinkageType.External constant, unit), st.advance)
  | .PropertyConstant => ((.Next linkage true, unit), st.advance)
  | .KeywordInterface =>
      let ((interface, _), st) := parse_interface fuel st
      ((.Next lnk constant,
        { unit with interfaces := unit.interfaces ++ [interface] }), st)
  | .KeywordVarGlobal =>
      let (block, st) := parse_variable_block fuel linkage st
      ((.Next lnk constant,
        { unit with global_vars := unit.global_vars ++ [block] }), st)
  | .KeywordVarConfig =>
      let (cfgs, st) := parse_config_variables fuel st
      ((.Next lnk constant,
        { unit with var_config := unit.var_config ++ cfgs }), st)
  | .KeywordProgram =>
      let (unit, st) :=
        parse_pou fuel unit PouType.Program linkage Token.KeywordEndProgram
          constant st
      ((.Next lnk false, unit), st)
  | .KeywordClass =>
      let (unit, st) :=
        parse_pou fuel unit PouType.Class linkage Token.KeywordEndClass constant st
      ((.Next lnk false, unit), st)
  | .KeywordFunction =>
      let (unit, st) :=
        parse_pou fuel unit PouType.Function linkage Token.KeywordEndFunction
          constant st
      ((.Next lnk false, unit), st)
  | .KeywordFunctionBlock =>
      let (unit, st) :=
        parse_pou fuel unit PouType.FunctionBlock linkage
          Token.KeywordEndFunctionBlock constant st
      ((.Next lnk false, unit), st)
  | .KeywordAction =>
      let (res, st) := parse_action fuel linkage none st
      let unit :=
        match res with
        | some imp =>
            { unit with implementations := unit.implementations ++ [imp] }
        | none => unit
      ((.Next lnk constant, unit), st)
  | .KeywordActions =>
      let last_pou :=
        (((unit.pous.filter (fun it =>
            it.kind = PouType.Program ∨ it.kind = PouType.Function ∨
            it.kind = PouType.FunctionBlock ∨ it.kind = PouType.Class)).getLast?).map
          (fun it => it.name)).getD "__unknown__"
      let (actions, st) := parse_actions fuel linkage last_pou st
      ((.Next lnk constant,
        { unit with implementations := unit.implementations ++ actions }), st)
  | .KeywordType =>
      let (unit_type, st) := parse_type fuel st
      ((.Next lnk constant,
        { unit with user_types := unit.user_types ++ unit_type }), st)
  | .KeywordEndActions => ((.Done, unit), st)
  | .End => ((.Done, unit), st)
  | _ =>
      let st :=
        st.accept_diagnostic
          (Diagnostic.unexpected_token_found "StartKeyword" st.slice)
      ((.Next lnk constant, unit), st.advance)

/-- The top-level dispatcher loop of `parse` (source lines 73-148), iterated
through `parse_iter`. -/
def parse_loop : Nat → LinkageType → LinkageType → Bool → CompilationUnit →
    PSt → CompilationUnit × PSt
  | 0, _, _, _, unit, st => (unit, st)
  | fuel + 1, lnk, linkage, constant, unit, st =>
      match parse_iter fuel lnk linkage constant unit st with
      | ((.Done, unit), st) => (unit, st)
      | ((.Next linkage constant, unit), st) =>
          parse_loop fuel lnk linkage constant unit st

/-- `parse` (source lines 68-150): the entry point — a fresh compilation
unit, initial linkage from the caller, constant flag initially false. -/
def parse (fuel : Nat) (lnk : LinkageType) (st : PSt) : CompilationUnit × PSt :=
  parse_loop fuel lnk lnk false {} st

/-! ## The session-evolution invariant

`Evolves st st'` relates a session state to any later state of the same
parse: the diagnostics log only grows (append-only), the region stack is
restored, and region opens and closes happen in balanced pairs. -/

/-- The state `st'` is a legal later state of the session `st`:
diagnostics are only appended, the region stack is restored, and the
open/close counters advanced by equal amounts. -/
def Evolves (st st' : PSt) : Prop :=
  st.diags <+: st'.diags ∧ st'.regions = st.regions ∧
    st'.openCount + st.closeCount = st.openCount + st'.closeCount

theorem Evolves.refl (st : PSt) : Evolves st st :=
  ⟨List.prefix_rfl, rfl, rfl⟩

theorem Evolves.trans {a b c : PSt} (h1 : Evolves a b) (h2 : Evolves b c) :
    Evolves a c := by
  obtain ⟨p1, r1, o1⟩ := h1
  obtain ⟨p2, r2, o2⟩ := h2
  exact ⟨p1.trans p2, r2.trans r1, by omega⟩

theorem evolves_advance (st : PSt) : Evolves st st.advance :=
  ⟨List.prefix_rfl, rfl, rfl⟩

theorem evolves_accept_diagnostic (st : PSt) (d : Diagnostic) :
    Evolves st (st.accept_diagnostic d) :=
  ⟨⟨[d], rfl⟩, rfl, rfl⟩

theorem evolves_next_id (st : PSt) : Evolves st st.next_id.2 :=
  ⟨List.prefix_rfl, rfl, rfl⟩

theorem evolves_try_consume (st : PSt) (k : Token) :
    Evolves st (st.try_consume k).2 := by
  unfold PSt.try_consume
  split
  · exact evolves_advance st
  · exact Evolves.refl st

theorem evolves_try_consume_or_report (st : PSt) (k : Token) :
    Evolves st (st.try_consume_or_report k) := by
  have h := evolves_try_consume st k
  unfold PSt.try_consume_or_report
  rcases heq : st.try_consume k with ⟨b, st'⟩
  rw [heq] at h
  cases b
  · exact h.trans (evolves_accept_diagnostic _ _)
  · exact h

theorem evolves_slice_and_advance (st : PSt) : Evolves st st.slice_and_advance.2 :=
  evolves_advance st

theorem recoverGo_fields : ∀ (l : List Tok) (st : PSt),
    (recoverGo l st).diags = st.diags ∧ (recoverGo l st).regions = st.regions ∧
      (recoverGo l st).openCount = st.openCount ∧
      (recoverGo l st).closeCount = st.closeCount
  | [], st => ⟨rfl, rfl, rfl, rfl⟩
  | t :: rest, st => by
      unfold recoverGo
      split
      · exact ⟨rfl, rfl, rfl, rfl⟩
      · exact recoverGo_fields rest st.advance

theorem recover_until_close_fields (st : PSt) :
    st.recover_until_close.diags = st.diags ∧
      st.recover_until_close.regions = st.regions ∧
      st.recover_until_close.openCount = st.openCount ∧
      st.recover_until_close.closeCount = st.closeCount :=
  recoverGo_fields st.toks st

theorem close_region_fields (st : PSt) (frame : List Token) (rest : List (List Token))
    (h : st.regions = frame :: rest) :
    st.close_region.diags = st.diags ∧ st.close_region.regions = rest ∧
      st.close_region.openCount = st.openCount ∧
      st.close_region.closeCount = st.closeCount + 1 := by
  obtain ⟨toks, lt, lx, dg, rg, sc, ic, oc, cc⟩ := st
  dsimp only at h
  subst h
  dsimp only [PSt.close_region]
  split
  · exact ⟨rfl, rfl, rfl, rfl⟩
  · exact ⟨rfl, rfl, rfl, rfl⟩

/-- The master lemma for the region wrapper: if the inner parser evolves the
session, so does the wrapper — and it is the wrapper alone that pairs the
one `enter_region` with the one `close_region`. -/
theorem evolves_parse_any_in_region {α : Type} (closing : List Token)
    (f : PSt → α × PSt) (hf : ∀ s, Evolves s (f s).2) (st : PSt) :
    Evolves st (parse_any_in_region closing f st).2 := by
  rcases heq : f (st.enter_region closing) with ⟨r, st2⟩
  have h : Evolves (st.enter_region closing) st2 := by
    have h0 := hf (st.enter_region closing)
    rw [heq] at h0
    exact h0
  simp only [parse_any_in_region, heq]
  obtain ⟨hd, hr, ho⟩ := h
  have hr2 : st2.regions = closing :: st.regions := hr
  obtain ⟨rd, rr, ro, rc⟩ := recover_until_close_fields st2
  have hreg : st2.recover_until_close.regions = closing :: st.regions := by
    rw [rr, hr2]
  obtain ⟨cd, cr, co, cc⟩ := close_region_fields st2.recover_until_close closing
    st.regions hreg
  refine ⟨?_, ?_, ?_⟩
  · calc st.diags <+: st2.diags := hd
      _ = st2.recover_until_close.close_region.diags := by rw [cd, rd]
  · exact cr
  · have ho2 : st2.openCount + st.closeCount = st.openCount + 1 + st2.closeCount := ho
    rw [co, ro, cc, rc]
    omega

theorem evolves_with_scope {α : Type} (scope : String) (f : PSt → α × PSt)
    (hf : ∀ s, Evolves s (f s).2) (st : PSt) :
    Evolves st (with_scope scope f st).2 := by
  rcases heq : f { st with scope := some scope } with ⟨r, st2⟩
  have h := hf { st with scope := some scope }
  rw [heq] at h
  simp only [with_scope, heq]
  exact ⟨h.1, h.2.1, h.2.2⟩

theorem evolves_of_run {α : Type} {f : PSt → α × PSt}
    (hf : ∀ s : PSt, Evolves s (f s).2) {st st' : PSt} {a : α}
    (heq : f st = (a, st')) : Evolves st st' := by
  have h := hf st
  rw [heq] at h
  exact h

theorem evolves_try_consume_eq {st st' : PSt} {k : Token} {b : Bool}
    (heq : st.try_consume k = (b, st')) : Evolves st st' :=
  evolves_of_run (fun s => evolves_try_consume s k) heq

theorem evolves_next_id_eq {st st' : PSt} {i : Nat}
    (heq : st.next_id = (i, st')) : Evolves st st' :=
  evolves_of_run (fun s => evolves_next_id s) heq

theorem evolves_foldl {β : Type} (g : PSt → β → PSt)
    (hg : ∀ s b, Evolves s (g s b)) :
    ∀ (l : List β) (st : PSt), Evolves st (l.foldl g st)
  | [], st => Evolves.refl st
  | b :: rest, st => (hg st b).trans (evolves_foldl g hg rest (g st b))

theorem evolves_parse_identifier (st : PSt) : Evolves st (parse_identifier st).2 := by
  unfold parse_identifier
  split
  · exact evolves_advance st
  · exact evolves_accept_diagnostic st _

theorem evolves_parse_access_modifier (st : PSt) :
    Evolves st (parse_access_modifier st).2 := by
  unfold parse_access_modifier
  rcases h1 : st.try_consume .KeywordAccessPublic with ⟨b1, s1⟩
  try simp only [h1]
  have e1 := evolves_try_consume_eq h1
  cases b1
  · rcases h2 : s1.try_consume .KeywordAccessPrivate with ⟨b2, s2⟩
    try simp only [h2]
    have e2 := e1.trans (evolves_try_consume_eq h2)
    cases b2
    · rcases h3 : s2.try_consume .KeywordAccessProtected with ⟨b3, s3⟩
      try simp only [h3]
      have e3 := e2.trans (evolves_try_consume_eq h3)
      cases b3
      · rcases h4 : s3.try_consume .KeywordAccessInternal with ⟨b4, s4⟩
        try simp only [h4]
        have e4 := e3.trans (evolves_try_consume_eq h4)
        cases b4 <;> exact e4
      · exact e3
    · exact e2
  · exact e1

theorem evolves_parse_type_nature (st : PSt) (nature : String) :
    Evolves st (parse_type_nature st nature).2 := by
  unfold parse_type_nature
  split <;> first
    | exact Evolves.refl st
    | exact evolves_accept_diagnostic st _

theorem evolves_poly_aux (st : PSt) :
    Evolves st (match st.try_consume Token.KeywordFinal with
      | (true, st) => (some PolymorphismMode.Final, st)
      | (false, st) =>
        match st.try_consume Token.KeywordAbstract with
        | (true, st) => (some PolymorphismMode.Abstract, st)
        | (false, st) => (some PolymorphismMode.None, st)).2 := by
  split
  · rename_i st1 heq
    exact evolves_try_consume_eq heq
  · rename_i st1 heq
    have h1 := evolves_try_consume_eq heq
    split
    · rename_i st2 heq2
      exact h1.trans (evolves_try_consume_eq heq2)
    · rename_i st2 heq2
      exact h1.trans (evolves_try_consume_eq heq2)

theorem evolves_parse_polymorphism_mode (pt : PouType) (st : PSt) :
    Evolves st (parse_polymorphism_mode pt st).2 := by
  unfold parse_polymorphism_mode
  split <;> first
    | exact evolves_poly_aux st
    | exact Evolves.refl st

theorem evolves_parse_expr_primary (st : PSt) :
    Evolves st (parse_expr_primary st).2 := by
  unfold parse_expr_primary
  split
  · exact ⟨List.prefix_rfl, rfl, rfl⟩
  · exact ⟨List.prefix_rfl, rfl, rfl⟩
  · exact ⟨⟨[_], rfl⟩, rfl, rfl⟩

theorem evolves_parse_expr_single (st : PSt) :
    Evolves st (parse_expr_single st).2 := by
  unfold parse_expr_single
  rcases heq : parse_expr_primary st with ⟨a, st1⟩
  try simp only [heq]
  have h1 := evolves_of_run evolves_parse_expr_primary heq
  rcases heq2 : st1.try_consume .KeywordDotDot with ⟨b, st2⟩
  try simp only [heq2]
  have h2 := h1.trans (evolves_try_consume_eq heq2)
  cases b
  · exact h2
  · rcases heq3 : parse_expr_primary st2 with ⟨c, st3⟩
    try simp only [heq3]
    exact (h2.trans (evolves_of_run evolves_parse_expr_primary heq3)).trans
      (evolves_next_id st3)

theorem evolves_exprListRest : ∀ (fuel : Nat) (acc : List AstNode) (st : PSt),
    Evolves st (exprListRest fuel acc st).2
  | 0, _, st => Evolves.refl st
  | fuel + 1, acc, st => by
      rcases heq : st.try_consume .KeywordComma with ⟨b, st1⟩
      have h1 := evolves_try_consume_eq heq
      simp only [exprListRest, heq]
      cases b
      · exact h1
      · rcases heq2 : parse_expr_single st1 with ⟨e, st2⟩
        try simp only [heq2]
        exact (h1.trans (evolves_of_run evolves_parse_expr_single heq2)).trans
          (evolves_exprListRest fuel (acc ++ [e]) st2)

theorem evolves_parse_expression_list (fuel : Nat) (st : PSt) :
    Evolves st (parse_expression_list fuel st).2 := by
  unfold parse_expression_list
  rcases heq : parse_expr_single st with ⟨first, st1⟩
  try simp only [heq]
  have h1 := evolves_of_run evolves_parse_expr_single heq
  rcases heq2 : exprListRest fuel [first] st1 with ⟨elems, st2⟩
  try simp only [heq2]
  have h2 := h1.trans (evolves_of_run (evolves_exprListRest fuel [first]) heq2)
  split
  · exact h2
  · exact h2.trans (evolves_next_id st2)

theorem evolves_parse_expression (fuel : Nat) (st : PSt) :
    Evolves st (parse_expression fuel st).2 :=
  evolves_parse_expression_list fuel st

theorem evolves_parse_call_statement (st : PSt) :
    Evolves st (parse_call_statement st).2 := by
  unfold parse_call_statement
  split
  · exact ⟨List.prefix_rfl, rfl, rfl⟩
  · exact Evolves.refl st

theorem evolves_parse_reference (st : PSt) : Evolves st (parse_reference st).2 := by
  unfold parse_reference
  rcases heq : parse_call_statement st with ⟨res, st1⟩
  try simp only [heq]
  have h1 := evolves_of_run evolves_parse_call_statement heq
  cases res
  · exact h1.trans (evolves_next_id st1)
  · exact h1

theorem evolves_parse_strict_literal_integer (st : PSt) :
    Evolves st (parse_strict_literal_integer st).2 := by
  unfold parse_strict_literal_integer
  split
  · exact ⟨List.prefix_rfl, rfl, rfl⟩
  · exact evolves_accept_diagnostic st _

theorem evolves_parse_control (st : PSt) : Evolves st (parse_control st).2 :=
  (evolves_advance st).trans (evolves_next_id st.advance)

theorem evolves_parse_body_standalone : ∀ (fuel : Nat) (st : PSt),
    Evolves st (parse_body_standalone fuel st).2
  | 0, st => Evolves.refl st
  | fuel + 1, st => by
      simp only [parse_body_standalone]
      split
      · exact Evolves.refl st
      · rcases heq : parse_control st with ⟨s, st1⟩
        try simp only [heq]
        have h1 := evolves_of_run evolves_parse_control heq
        rcases heq2 : parse_body_standalone fuel st1 with ⟨rest, st2⟩
        try simp only [heq2]
        exact h1.trans
          (evolves_of_run (evolves_parse_body_standalone fuel) heq2)

theorem evolves_parse_body_in_region (fuel : Nat) (ends : List Token) (st : PSt) :
    Evolves st (parse_body_in_region fuel ends st).2 :=
  evolves_parse_any_in_region ends _ (evolves_parse_body_standalone fuel) st

theorem evolves_hwAddressLoop : ∀ (fuel : Nat) (st : PSt),
    Evolves st (hwAddressLoop fuel st).2
  | 0, st => Evolves.refl st
  | fuel + 1, st => by
      rcases heq : parse_strict_literal_integer st with ⟨res, st1⟩
      have h1 := evolves_of_run evolves_parse_strict_literal_integer heq
      simp only [hwAddressLoop, heq]
      cases res
      · exact h1
      · rcases heq2 : st1.try_consume .KeywordDot with ⟨b, st2⟩
        try simp only [heq2]
        have h2 := h1.trans (evolves_try_consume_eq heq2)
        cases b
        · exact h2
        · rcases heq3 : hwAddressLoop fuel st2 with ⟨res2, st3⟩
          try simp only [heq3]
          have h3 := h2.trans (evolves_of_run (evolves_hwAddressLoop fuel) heq3)
          cases res2 <;> exact h3

theorem evolves_parse_hardware_access (fuel : Nat) (d : HardwareAccessType)
    (a : DirectAccessType) (st : PSt) :
    Evolves st (parse_hardware_access fuel d a st).2 := by
  have hbody : ∀ s : PSt, Evolves s
      ((if a = DirectAccessType.Template ∨ s.token = Token.LiteralInteger then
        (let (addrOpt, st) :=
          if s.token = Token.LiteralInteger then hwAddressLoop fuel s
          else ((some [] : Option (List AstNode)), s)
        match addrOpt with
        | none => ((none : Option AstNode), st)
        | some address =>
            let (i, st) := st.next_id
            (some (.mk i (.HardwareAccess a d address)), st))
      else
        (none, s.accept_diagnostic (Diagnostic.missing_token "LiteralInteger"))).2) := by
    intro s
    split
    · rcases heq : (if s.token = Token.LiteralInteger then hwAddressLoop fuel s
        else ((some [] : Option (List AstNode)), s)) with ⟨res, st1⟩
      have h1 : Evolves s st1 := by
        have hx : Evolves s (if s.token = Token.LiteralInteger then
            hwAddressLoop fuel s else ((some [] : Option (List AstNode)), s)).2 := by
          split
          · exact evolves_hwAddressLoop fuel s
          · exact Evolves.refl s
        rw [heq] at hx
        exact hx
      simp only [heq]
      cases res
      · exact h1
      · exact h1.trans (evolves_next_id st1)
    · exact evolves_accept_diagnostic s _
  exact (evolves_advance st).trans (hbody st.advance)

theorem evolves_parse_super_class_exts : ∀ (fuel : Nat) (st : PSt),
    Evolves st (parse_super_class_exts fuel st).2
  | 0, st => Evolves.refl st
  | fuel + 1, st => by
      rcases heq : st.try_consume .KeywordExtends with ⟨b, st1⟩
      have h1 := evolves_try_consume_eq heq
      simp only [parse_super_class_exts, heq]
      cases b
      · exact h1
      · rcases heq2 : parse_identifier st1 with ⟨res, st2⟩
        try simp only [heq2]
        have h2 := h1.trans (evolves_of_run evolves_parse_identifier heq2)
        cases res
        · exact h2
        · rcases heq3 : parse_super_class_exts fuel st2 with ⟨res2, st3⟩
          try simp only [heq3]
          have h3 := h2.trans
            (evolves_of_run (evolves_parse_super_class_exts fuel) heq3)
          cases res2 <;> exact h3

theorem evolves_parse_super_class (fuel : Nat) (st : PSt) :
    Evolves st (parse_super_class fuel st).2 := by
  unfold parse_super_class
  rcases heq : parse_super_class_exts fuel st with ⟨res, st1⟩
  try simp only [heq]
  have h1 := evolves_of_run (evolves_parse_super_class_exts fuel) heq
  cases res
  · exact h1
  · exact h1.trans (evolves_foldl _ (fun s _ => evolves_accept_diagnostic s _) _ st1)

theorem evolves_parse_generics_entry (acc : List GenericBinding) (st : PSt) :
    Evolves st (parse_generics_entry acc st).2 := by
  unfold parse_generics_entry
  rcases heq : parse_identifier st with ⟨identOpt, st1⟩
  try simp only [heq]
  have h1 := evolves_of_run evolves_parse_identifier heq
  cases identOpt
  · exact h1
  · have h2 := h1.trans (evolves_try_consume_or_report st1 Token.KeywordColon)
    rcases heq2 : parse_identifier (st1.try_consume_or_report Token.KeywordColon)
      with ⟨natIdent, st2⟩
    try simp only [heq2]
    have h3 := h2.trans (evolves_of_run evolves_parse_identifier heq2)
    cases natIdent
    · exact h3
    · rename_i it
      rcases heq3 : parse_type_nature st2 it with ⟨nature, st3⟩
      try simp only [heq3]
      exact h3.trans (evolves_of_run (fun sx => evolves_parse_type_nature sx it) heq3)

theorem evolves_parse_generics_loop : ∀ (fuel : Nat) (acc : List GenericBinding)
    (st : PSt), Evolves st (parse_generics_loop fuel acc st).2
  | 0, _, st => Evolves.refl st
  | fuel + 1, acc, st => by
      simp only [parse_generics_loop]
      rcases heq : parse_generics_entry acc st with ⟨acc2, st1⟩
      try simp only [heq]
      have h1 := evolves_of_run (evolves_parse_generics_entry acc) heq
      split
      · rename_i st2 heq2
        exact h1.trans (evolves_try_consume_eq heq2)
      · rename_i st2 heq2
        have h2 := h1.trans (evolves_try_consume_eq heq2)
        split
        · rename_i st3 heq3
          exact h2.trans (evolves_try_consume_eq heq3)
        · rename_i st3 heq3
          exact (h2.trans (evolves_try_consume_eq heq3)).trans
            (evolves_parse_generics_loop fuel acc2 st3)

theorem evolves_parse_generics (fuel : Nat) (st : PSt) :
    Evolves st (parse_generics fuel st).2 := by
  unfold parse_generics
  rcases heq : st.try_consume .OperatorLess with ⟨b, st1⟩
  try simp only [heq]
  have h1 := evolves_try_consume_eq heq
  cases b
  · exact h1
  · exact h1.trans (evolves_parse_any_in_region _ _
      (evolves_parse_generics_loop fuel []) st1)

theorem evolves_parse_interface_declarations_loop : ∀ (fuel : Nat)
    (acc : List Identifier) (st : PSt),
    Evolves st (parse_interface_declarations_loop fuel acc st).2
  | 0, _, st => Evolves.refl st
  | fuel + 1, acc, st => by
      simp only [parse_interface_declarations_loop]
      split
      · rcases heq : parse_identifier st with ⟨res, st1⟩
        try simp only [heq]
        have h1 := evolves_of_run evolves_parse_identifier heq
        cases res
        · exact h1
        · exact h1.trans
            (evolves_parse_interface_declarations_loop fuel _ st1)
      · exact (evolves_advance st).trans
          (evolves_parse_interface_declarations_loop fuel acc st.advance)
      · exact Evolves.refl st

theorem evolves_parse_interface_declarations (fuel : Nat) (st : PSt) :
    Evolves st (parse_interface_declarations fuel st).2 := by
  unfold parse_interface_declarations
  split
  · rename_i st1 heq
    exact evolves_try_consume_eq heq
  · rename_i st1 heq
    have h1 := evolves_try_consume_eq heq
    split
    · exact h1.trans (evolves_accept_diagnostic st1 _)
    · exact h1.trans (evolves_parse_interface_declarations_loop fuel [] st1)

theorem evolves_parse_type_reference_type_definition (fuel : Nat)
    (name : Option String) (st : PSt) :
    Evolves st (parse_type_reference_type_definition fuel name st).2 := by
  unfold parse_type_reference_type_definition
  rcases hb : st.advance.try_consume .KeywordParensOpen with ⟨b, st1⟩
  try simp only [PSt.slice_and_advance, hb]
  have h1 := (evolves_advance st).trans (evolves_try_consume_eq hb)
  cases b
  ·
    dsimp only
    rcases hA : st1.try_consume .KeywordAssignment with ⟨a1, s3⟩
    try simp only [hA]
    have h2 := h1.trans (evolves_try_consume_eq hA)
    cases a1
    ·
      rcases hR : s3.try_consume .KeywordReferenceAssignment with ⟨a2, s4⟩
      try simp only [hR]
      have h3 := h2.trans (evolves_try_consume_eq hR)
      cases a2
      ·
        split <;> exact h3
      ·
        rcases hE : parse_expression fuel s4 with ⟨e, s5⟩
        try simp only [hE]
        have h4 := h3.trans (evolves_of_run (evolves_parse_expression fuel) hE)
        split <;> exact h4
    ·
      rcases hE : parse_expression fuel s3 with ⟨e, s5⟩
      try simp only [hE]
      have h4 := h2.trans (evolves_of_run (evolves_parse_expression fuel) hE)
      split <;> exact h4
  ·
    rcases hE : parse_expression fuel st1 with ⟨e, st2⟩
    try simp only [hE]
    have h2 := h1.trans (evolves_of_run (evolves_parse_expression fuel) hE)
    by_cases hc : st2.token = Token.KeywordParensClose
    · rw [if_pos hc]
      dsimp only
      have h3 := h2.trans (evolves_advance st2)
      rcases hA : st2.advance.try_consume .KeywordAssignment with ⟨a1, s3⟩
      try simp only [hA]
      have h4 := h3.trans (evolves_try_consume_eq hA)
      cases a1
      ·
        rcases hR : s3.try_consume .KeywordReferenceAssignment with ⟨a2, s4⟩
        try simp only [hR]
        have h5 := h4.trans (evolves_try_consume_eq hR)
        cases a2
        ·
          split <;> exact h5
        ·
          rcases hE2 : parse_expression fuel s4 with ⟨e2, s5⟩
          try simp only [hE2]
          have h6 := h5.trans (evolves_of_run (evolves_parse_expression fuel) hE2)
          split <;> exact h6
      ·
        rcases hE2 : parse_expression fuel s3 with ⟨e2, s5⟩
        try simp only [hE2]
        have h6 := h4.trans (evolves_of_run (evolves_parse_expression fuel) hE2)
        split <;> exact h6
    · rw [if_neg hc]
      dsimp only
      exact h2.trans (evolves_accept_diagnostic st2 _)

theorem evolves_parse_enum_elements (fuel : Nat) (st : PSt) :
    Evolves st (parse_enum_elements fuel st).2 := by
  unfold parse_enum_elements
  rcases hE : parse_expression_list fuel st with ⟨e, st1⟩
  try simp only [hE]
  exact evolves_of_run (evolves_parse_expression_list fuel) hE

theorem evolves_parse_enum_type_definition (fuel : Nat) (name : Option String)
    (st : PSt) : Evolves st (parse_enum_type_definition fuel name st).2 := by
  unfold parse_enum_type_definition
  rcases hR : parse_any_in_region [Token.KeywordParensClose]
      (parse_enum_elements fuel) st with ⟨opt, st1⟩
  try simp only [hR]
  have h1 := evolves_of_run
    (evolves_parse_any_in_region _ _ (evolves_parse_enum_elements fuel)) hR
  cases opt
  · exact h1
  · rcases hA : st1.try_consume .KeywordAssignment with ⟨a1, st2⟩
    try simp only [hA]
    have h2 := h1.trans (evolves_try_consume_eq hA)
    cases a1
    · exact h2
    · rcases hE : parse_expression fuel st2 with ⟨e, st3⟩
      try simp only [hE]
      exact h2.trans (evolves_of_run (evolves_parse_expression fuel) hE)

theorem evolves_parse_string_size_inner (fuel : Nat) (opening : Token) (st : PSt) :
    Evolves st (parse_string_size_inner fuel opening st).2 := by
  unfold parse_string_size_inner
  rcases hE : parse_expression fuel st with ⟨e, st1⟩
  try simp only [hE]
  have h1 := evolves_of_run (evolves_parse_expression fuel) hE
  split
  · exact h1.trans (evolves_accept_diagnostic st1 _)
  · split
    · exact h1.trans (evolves_accept_diagnostic st1 _)
    · exact h1

theorem evolves_parse_string_size_expression (fuel : Nat) (st : PSt) :
    Evolves st (parse_string_size_expression fuel st).2 := by
  unfold parse_string_size_expression
  rcases h1 : st.try_consume .KeywordSquareParensOpen with ⟨b1, st1⟩
  try simp only [h1]
  have e1 := evolves_try_consume_eq h1
  cases b1
  case false =>
    rcases h2 : st1.try_consume .KeywordParensOpen with ⟨b2, st2⟩
    try simp only [h2]
    have e2 := e1.trans (evolves_try_consume_eq h2)
    cases b2
    case false => exact e2
    case true =>
      exact e2.trans (evolves_parse_any_in_region _ _
        (evolves_parse_string_size_inner fuel _) st2)
  case true =>
    exact e1.trans (evolves_parse_any_in_region _ _
      (evolves_parse_string_size_inner fuel _) st1)

theorem evolves_parse_string_type_definition (fuel : Nat) (name : Option String)
    (st : PSt) : Evolves st (parse_string_type_definition fuel name st).2 := by
  unfold parse_string_type_definition
  rcases hS : parse_string_size_expression fuel st.advance with ⟨size, st1⟩
  try simp only [hS]
  have h1 := (evolves_advance st).trans
    (evolves_of_run (evolves_parse_string_size_expression fuel) hS)
  rcases hA : st1.try_consume .KeywordAssignment with ⟨a1, st2⟩
  try simp only [hA]
  have h2 := h1.trans (evolves_try_consume_eq hA)
  cases a1
  case false =>
    rcases hR : st2.try_consume .KeywordReferenceAssignment with ⟨a2, st3⟩
    try simp only [hR]
    have h3 := h2.trans (evolves_try_consume_eq hR)
    cases a2
    case false => exact h3
    case true =>
      rcases hE : parse_expression fuel st3 with ⟨e, st4⟩
      try simp only [hE]
      exact h3.trans (evolves_of_run (evolves_parse_expression fuel) hE)
  case true =>
    rcases hE : parse_expression fuel st2 with ⟨e, st3⟩
    try simp only [hE]
    exact h2.trans (evolves_of_run (evolves_parse_expression fuel) hE)

theorem evolves_parse_array_range_inner (fuel : Nat) (st : PSt) :
    Evolves st (parse_array_range_inner fuel st).2 := by
  unfold parse_array_range_inner
  split
  · rcases hE : parse_expression fuel st.advance with ⟨e, st1⟩
    try simp only [hE]
    have h1 := (evolves_advance st).trans
      (evolves_of_run (evolves_parse_expression fuel) hE)
    split
    · exact h1.trans (evolves_advance st1)
    · exact h1.trans (evolves_accept_diagnostic st1 _)
  · exact evolves_accept_diagnostic st _

theorem evolves_parse_variable_line_names : ∀ (fuel : Nat) (st : PSt),
    Evolves st (parse_variable_line_names fuel st).2
  | 0, st => Evolves.refl st
  | fuel + 1, st => by
      simp only [parse_variable_line_names]
      split
      · have h0 := evolves_advance st
        split
        · exact h0
        · split
          · rename_i st1 heq
            rcases hrec : parse_variable_line_names fuel st1 with ⟨rest, st2⟩
            try simp only [hrec]
            exact ((h0.trans (evolves_try_consume_eq heq)).trans
              (evolves_of_run (evolves_parse_variable_line_names fuel) hrec))
          · rename_i st1 heq
            rcases hrec : parse_variable_line_names fuel
                (st1.accept_diagnostic
                  (Diagnostic.missing_token "KeywordColon or KeywordComma"))
              with ⟨rest, st2⟩
            try simp only [hrec]
            exact (((h0.trans (evolves_try_consume_eq heq)).trans
              (evolves_accept_diagnostic st1 _)).trans
              (evolves_of_run (evolves_parse_variable_line_names fuel) hrec))
      · exact Evolves.refl st

/-- Every member of the mutually recursive type-definition/variable family
evolves the session: diagnostics are append-only, the region stack is
restored, and region opens/closes stay balanced. -/
theorem family_evolves : ∀ fuel : Nat,
    (∀ name st, Evolves st (parse_full_data_type_inner fuel name st).2) ∧
    (∀ name st, Evolves st (parse_full_data_type_definition fuel name st).2) ∧
    (∀ name st, Evolves st (parse_data_type_definition fuel name st).2) ∧
    (∀ name ad ts st, Evolves st (parse_pointer_definition fuel name ad ts st).2) ∧
    (∀ name st, Evolves st (parse_array_type_definition fuel name st).2) ∧
    (∀ st, Evolves st (parse_variable_list fuel st).2) ∧
    (∀ st, Evolves st (parse_variable_line fuel st).2) ∧
    (∀ names addr st, Evolves st (parse_variable_line_tail fuel names addr st).2) ∧
    (∀ names addr st, Evolves st (parse_variable_line_def fuel names addr st).2) ∧
    (∀ name st, Evolves st (parse_aliasing fuel name st).2) := by
  intro fuel
  induction fuel with
  | zero =>
      refine ⟨?_, ?_, ?_, ?_, ?_, ?_, ?_, ?_, ?_, ?_⟩ <;> intros <;> exact Evolves.refl _
  | succ n ih =>
      obtain ⟨ihFullInner, ihFull, ihData, ihPtr, ihArr, ihVL, ihLine, ihTail,
        ihDef, ihAlias⟩ := ih
      refine ⟨?_, ?_, ?_, ?_, ?_, ?_, ?_, ?_, ?_, ?_⟩
      -- parse_full_data_type_inner
      · intro name st
        simp only [parse_full_data_type_inner]
        rcases h1 : st.try_consume .PropertySized with ⟨sized, st1⟩
        try simp only [h1]
        have e1 := evolves_try_consume_eq h1
        split
        · rename_i st2 heq2
          exact e1.trans (evolves_try_consume_eq heq2)
        · rename_i st2 heq2
          have e2 := e1.trans (evolves_try_consume_eq heq2)
          rcases h3 : parse_data_type_definition n name st2 with ⟨res, st3⟩
          try simp only [h3]
          have e3 := e2.trans (evolves_of_run (fun s => ihData name s) h3)
          cases res
          · exact e3
          · rename_i p
            obtain ⟨td, init⟩ := p
            dsimp only
            split
            · rename_i st4 heq4
              exact e3.trans (evolves_try_consume_eq heq4)
            · rename_i st4 heq4
              exact e3.trans (evolves_try_consume_eq heq4)
      -- parse_full_data_type_definition
      · intro name st
        simp only [parse_full_data_type_definition]
        by_cases hk : st.token = Token.KeywordStruct
        · rw [if_pos hk]
          rcases hR : parse_any_in_region [Token.KeywordEndStruct]
              (parse_full_data_type_inner n name) st with ⟨pd, st1⟩
          try simp only [hR]
          have e1 := evolves_of_run
            (evolves_parse_any_in_region _ _ (fun s => ihFullInner name s)) hR
          exact e1.trans (evolves_try_consume st1 Token.KeywordSemicolon)
        · rw [if_neg hk]
          rcases hR : parse_any_in_region [Token.KeywordSemicolon]
              (parse_full_data_type_inner n name) st with ⟨pd, st1⟩
          try simp only [hR]
          exact evolves_of_run
            (evolves_parse_any_in_region _ _ (fun s => ihFullInner name s)) hR
      -- parse_data_type_definition
      · intro name st
        simp only [parse_data_type_definition]
        split
        · rename_i st1 h1
          rcases hV : parse_variable_list n st1 with ⟨vars, st2⟩
          try simp only [hV]
          exact (evolves_try_consume_eq h1).trans (evolves_of_run (fun s => ihVL s) hV)
        · rename_i st1 h1
          have e1 := evolves_try_consume_eq h1
          split
          · rename_i st2 h2
            exact (e1.trans (evolves_try_consume_eq h2)).trans (ihArr name _)
          · rename_i st2 h2
            have e2 := e1.trans (evolves_try_consume_eq h2)
            split
            · rename_i st3 h3
              have e3 := e2.trans (evolves_try_consume_eq h3)
              have e4 := e3.trans (evolves_accept_diagnostic st3
                ((Diagnostic.new
                  "`POINTER TO` is type-unsafe, consider using `REF_TO` instead").with_error_code
                  "E015"))
              split
              · exact (e4.trans (evolves_advance _)).trans (ihPtr name none false _)
              · exact (e4.trans (evolves_accept_diagnostic _ _)).trans
                  (ihPtr name none false _)
            · rename_i st3 h3
              have e3 := e2.trans (evolves_try_consume_eq h3)
              split
              · rename_i st4 h4
                exact (e3.trans (evolves_try_consume_eq h4)).trans
                  (ihPtr name none true _)
              · rename_i st4 h4
                have e4 := e3.trans (evolves_try_consume_eq h4)
                split
                · rename_i st5 h5
                  exact (e4.trans (evolves_try_consume_eq h5)).trans
                    (evolves_parse_enum_type_definition n name _)
                · rename_i st5 h5
                  have e5 := e4.trans (evolves_try_consume_eq h5)
                  split
                  · exact e5.trans (evolves_parse_string_type_definition n name _)
                  · split
                    · exact e5.trans
                        (evolves_parse_type_reference_type_definition n name _)
                    · exact e5.trans (evolves_accept_diagnostic _ _)
      -- parse_pointer_definition
      · intro name ad ts st
        simp only [parse_pointer_definition]
        rcases h1 : parse_data_type_definition n none st with ⟨res, st1⟩
        try simp only [h1]
        have e1 := evolves_of_run (fun s => ihData none s) h1
        cases res
        · exact e1
        · rename_i p
          obtain ⟨decl, init⟩ := p
          exact e1
      -- parse_array_type_definition
      · intro name st
        simp only [parse_array_type_definition]
        rcases hR : parse_any_in_region [Token.KeywordOf]
            (parse_array_range_inner n) st with ⟨ro, st1⟩
        try simp only [hR]
        have e1 := evolves_of_run
          (evolves_parse_any_in_region _ _ (evolves_parse_array_range_inner n)) hR
        cases ro
        · exact e1
        · rename_i range
          rcases h2 : parse_data_type_definition n none st1 with ⟨res, st2⟩
          try simp only [h2]
          have e2 := e1.trans (evolves_of_run (fun s => ihData none s) h2)
          cases res
          · exact e2
          · rename_i p
            obtain ⟨reference, init⟩ := p
            dsimp only
            first
              | (split <;> first
                  | exact e2
                  | exact e2.trans (evolves_accept_diagnostic st2 _))
              | exact e2
      -- parse_variable_list
      · intro st
        simp only [parse_variable_list]
        split
        · rcases h1 : parse_variable_line n st with ⟨lv, st1⟩
          try simp only [h1]
          have e1 := evolves_of_run (fun s => ihLine s) h1
          rcases h2 : parse_variable_list n st1 with ⟨rest, st2⟩
          try simp only [h2]
          exact e1.trans (evolves_of_run (fun s => ihVL s) h2)
        · exact Evolves.refl st
      -- parse_variable_line
      · intro st
        simp only [parse_variable_line]
        rcases h1 : parse_variable_line_names n st with ⟨names, st1⟩
        try simp only [h1]
        have e1 := evolves_of_run (evolves_parse_variable_line_names n) h1
        split
        · rename_i st2 h2
          have e2 := e1.trans (evolves_try_consume_eq h2)
          split
          all_goals first
            | (rcases h3 : parse_hardware_access n st2.cur.hwDirection
                  st2.cur.hwAccess st2 with ⟨addr, st3⟩
               try simp only [h3]
               exact (e2.trans (evolves_of_run (fun s =>
                 evolves_parse_hardware_access n st2.cur.hwDirection
                   st2.cur.hwAccess s) h3)).trans (ihTail names addr st3))
            | (rcases h3 : parse_aliasing n (names.headD "") st2 with ⟨opt, st3⟩
               try simp only [h3]
               have e3 := e2.trans
                 (evolves_of_run (fun s => ihAlias (names.headD "") s) h3)
               cases opt <;> exact e3)
            | exact (e2.trans (evolves_accept_diagnostic st2 _)).trans
                (ihTail names none _)
        · rename_i st2 h2
          exact (e1.trans (evolves_try_consume_eq h2)).trans (ihTail names none st2)
      -- parse_variable_line_tail
      · intro names addr st
        simp only [parse_variable_line_tail]
        split
        · rename_i st1 h1
          exact (evolves_try_consume_eq h1).trans (ihDef names addr st1)
        · rename_i st1 h1
          exact ((evolves_try_consume_eq h1).trans
            (evolves_accept_diagnostic st1 _)).trans (ihDef names addr _)
      -- parse_variable_line_def
      · intro names addr st
        simp only [parse_variable_line_def]
        rcases hc : st.try_consume .KeywordReferenceTo with ⟨b, st1⟩
        try simp only [hc]
        have ec := evolves_try_consume_eq hc
        cases b
        · dsimp only
          by_cases ha : addr.isSome = true
          · rw [if_pos ha]
            rcases h3 : parse_pointer_definition n none (some .Alias) true st1
              with ⟨dopt, st3⟩
            try simp only [h3]
            have e4 := (ec.trans (evolves_of_run
              (fun s => ihPtr none (some .Alias) true s) h3)).trans
              (evolves_try_consume st3 Token.KeywordSemicolon)
            cases dopt
            · exact e4
            · rename_i p
              obtain ⟨dt, i2⟩ := p
              exact e4
          · rw [if_neg ha]
            rcases h3 : parse_full_data_type_definition n none st1 with ⟨dopt, st3⟩
            try simp only [h3]
            have e4 := (ec.trans (evolves_of_run (fun s => ihFull none s) h3)).trans
              (evolves_try_consume st3 Token.KeywordSemicolon)
            cases dopt
            · exact e4
            · rename_i p
              obtain ⟨dt, i2⟩ := p
              exact e4
        · dsimp only
          rcases h3 : parse_pointer_definition n none (some .Reference) true st1
            with ⟨dopt, st3⟩
          try simp only [h3]
          have e4 := (ec.trans (evolves_of_run
            (fun s => ihPtr none (some .Reference) true s) h3)).trans
            (evolves_try_consume st3 Token.KeywordSemicolon)
          cases dopt
          · exact e4
          · rename_i p
            obtain ⟨dt, i2⟩ := p
            exact e4
      -- parse_aliasing
      · intro name st
        simp only [parse_aliasing]
        rcases h1 : parse_reference st with ⟨ref, st1⟩
        try simp only [h1]
        have e1 := evolves_of_run evolves_parse_reference h1
        rcases h2 : st1.try_consume .KeywordColon with ⟨b2, st2⟩
        try simp only [h2]
        have e2 := e1.trans (evolves_try_consume_eq h2)
        cases b2
        · dsimp only
          rcases h3 : parse_pointer_definition n none (some .Alias) true
              (st2.accept_diagnostic (Diagnostic.missing_token "KeywordColon"))
            with ⟨dopt, st3⟩
          try simp only [h3]
          have e3 := (e2.trans (evolves_accept_diagnostic st2 _)).trans
            (evolves_of_run (fun s => ihPtr none (some .Alias) true s) h3)
          rcases h4 : st3.try_consume .KeywordSemicolon with ⟨b4, st4⟩
          try simp only [h4]
          have e4 := e3.trans (evolves_try_consume_eq h4)
          cases b4
          all_goals dsimp only
          · have e5 := e4.trans (evolves_accept_diagnostic st4
              (Diagnostic.missing_token "KeywordSemicolon"))
            cases dopt
            · exact e5
            · rename_i p
              obtain ⟨dt, i2⟩ := p
              exact e5
          · cases dopt
            · exact e4
            · rename_i p
              obtain ⟨dt, i2⟩ := p
              exact e4
        · dsimp only
          rcases h3 : parse_pointer_definition n none (some .Alias) true st2
            with ⟨dopt, st3⟩
          try simp only [h3]
          have e3 := e2.trans
            (evolves_of_run (fun s => ihPtr none (some .Alias) true s) h3)
          rcases h4 : st3.try_consume .KeywordSemicolon with ⟨b4, st4⟩
          try simp only [h4]
          have e4 := e3.trans (evolves_try_consume_eq h4)
          cases b4
          all_goals dsimp only
          · have e5 := e4.trans (evolves_accept_diagnostic st4
              (Diagnostic.missing_token "KeywordSemicolon"))
            cases dopt
            · exact e5
            · rename_i p
              obtain ⟨dt, i2⟩ := p
              exact e5
          · cases dopt
            · exact e4
            · rename_i p
              obtain ⟨dt, i2⟩ := p
              exact e4

theorem evolves_parse_full_data_type_definition (fuel : Nat) (name : Option String)
    (st : PSt) : Evolves st (parse_full_data_type_definition fuel name st).2 :=
  (family_evolves fuel).2.1 name st

theorem evolves_parse_data_type_definition (fuel : Nat) (name : Option String)
    (st : PSt) : Evolves st (parse_data_type_definition fuel name st).2 :=
  (family_evolves fuel).2.2.1 name st

theorem evolves_parse_pointer_definition (fuel : Nat) (name : Option String)
    (ad : Option AutoDerefType) (ts : Bool) (st : PSt) :
    Evolves st (parse_pointer_definition fuel name ad ts st).2 :=
  (family_evolves fuel).2.2.2.1 name ad ts st

theorem evolves_parse_variable_list (fuel : Nat) (st : PSt) :
    Evolves st (parse_variable_list fuel st).2 :=
  (family_evolves fuel).2.2.2.2.2.1 st

theorem evolves_parse_variable_line (fuel : Nat) (st : PSt) :
    Evolves st (parse_variable_line fuel st).2 :=
  (family_evolves fuel).2.2.2.2.2.2.1 st

theorem evolves_parse_aliasing (fuel : Nat) (name : String) (st : PSt) :
    Evolves st (parse_aliasing fuel name st).2 :=
  (family_evolves fuel).2.2.2.2.2.2.2.2.2 name st

theorem evolves_fill_constant_defaults : ∀ (l : List Variable) (st : PSt),
    Evolves st (fill_constant_defaults l st).2
  | [], st => Evolves.refl st
  | v :: rest, st => by
      simp only [fill_constant_defaults]
      rcases hi : v.initializer with _ | x
      · exact (evolves_next_id st).trans
          (evolves_fill_constant_defaults rest st.next_id.2)
      · exact evolves_fill_constant_defaults rest st

theorem evolves_parse_variable_block_type (st : PSt) :
    Evolves st (parse_variable_block_type st).2 := by
  unfold parse_variable_block_type
  rcases h1 : st.advance.try_consume .PropertyByRef with ⟨b, st1⟩
  try simp only [h1]
  have e1 := (evolves_advance st).trans (evolves_try_consume_eq h1)
  cases b
  · exact e1
  · dsimp only
    split
    · exact e1
    · exact e1.trans (evolves_accept_diagnostic st1 _)

theorem evolves_parse_variable_block (fuel : Nat) (lnk : LinkageType) (st : PSt) :
    Evolves st (parse_variable_block fuel lnk st).2 := by
  unfold parse_variable_block
  rcases h1 : parse_variable_block_type st with ⟨kind, st1⟩
  try simp only [h1]
  have e1 := evolves_of_run evolves_parse_variable_block_type h1
  rcases h2 : st1.try_consume .KeywordConstant with ⟨constant, st2⟩
  try simp only [h2]
  have e2 := e1.trans (evolves_try_consume_eq h2)
  rcases h3 : st2.try_consume .KeywordRetain with ⟨retain, st3⟩
  try simp only [h3]
  have e3 := e2.trans (evolves_try_consume_eq h3)
  have e4 := e3.trans (evolves_try_consume st3 Token.KeywordNonRetain)
  rcases h5 : parse_access_modifier (st3.try_consume Token.KeywordNonRetain).2
    with ⟨access, st5⟩
  try simp only [h5]
  have e5 := e4.trans (evolves_of_run evolves_parse_access_modifier h5)
  rcases h6 : parse_any_in_region [Token.KeywordEndVar] (parse_variable_list fuel)
    st5 with ⟨vars, st6⟩
  try simp only [h6]
  have e6 := e5.trans (evolves_of_run
    (evolves_parse_any_in_region _ _ (evolves_parse_variable_list fuel)) h6)
  split
  · rcases h7 : fill_constant_defaults vars st6 with ⟨vars2, st7⟩
    try simp only [h7]
    exact e6.trans (evolves_of_run (evolves_fill_constant_defaults vars) h7)
  · exact e6

theorem evolves_parse_return_type (fuel : Nat) (st : PSt) :
    Evolves st (parse_return_type fuel st).2 := by
  unfold parse_return_type
  split
  · rename_i st1 h1
    exact evolves_try_consume_eq h1
  · rename_i st1 h1
    have e1 := evolves_try_consume_eq h1
    rcases hD : parse_data_type_definition fuel none st1 with ⟨res, st2⟩
    try simp only [hD]
    have e2 := e1.trans (evolves_of_run
      (fun s => evolves_parse_data_type_definition fuel none s) hD)
    cases res
    · exact e2.trans (evolves_accept_diagnostic st2 _)
    · rename_i p
      obtain ⟨decl, init⟩ := p
      dsimp only
      cases init
      · cases decl
        · exact e2
        · rename_i dt sc
          dsimp only
          cases dt <;> first
            | exact e2
            | exact e2.trans (evolves_accept_diagnostic st2 _)
      · rename_i x
        have e3 := e2.trans (evolves_accept_diagnostic st2
          ((Diagnostic.new
            "Return types cannot have a default value, the value will be ignored").with_error_code
            "E016"))
        cases decl
        · exact e3
        · rename_i dt sc
          dsimp only
          cases dt <;> first
            | exact e3
            | exact e3.trans (evolves_accept_diagnostic _ _)

theorem evolves_parse_implementation (fuel : Nat) (lnk : LinkageType)
    (pt : PouType) (cn tn : String) (g : Bool) (st : PSt) :
    Evolves st (parse_implementation fuel lnk pt cn tn g st).2 := by
  unfold parse_implementation
  rcases hB : parse_body_standalone fuel st with ⟨stm, st1⟩
  try simp only [hB]
  exact evolves_of_run (evolves_parse_body_standalone fuel) hB

theorem evolves_parse_method_var_blocks : ∀ (fuel : Nat) (st : PSt),
    Evolves st (parse_method_var_blocks fuel st).2
  | 0, st => Evolves.refl st
  | fuel + 1, st => by
      simp only [parse_method_var_blocks]
      split
      · rcases h1 : parse_variable_block fuel LinkageType.Internal st with ⟨b, st1⟩
        try simp only [h1]
        rcases h2 : parse_method_var_blocks fuel st1 with ⟨rest, st2⟩
        try simp only [h2]
        exact (evolves_of_run (fun s => evolves_parse_variable_block fuel _ s)
          h1).trans (evolves_of_run (evolves_parse_method_var_blocks fuel) h2)
      · exact Evolves.refl st

theorem evolves_parse_method_inner (fuel : Nat) (parent : String)
    (dk : DeclarationKind) (lnk : LinkageType) (c : Bool) (st : PSt) :
    Evolves st (parse_method_inner fuel parent dk lnk c st).2 := by
  unfold parse_method_inner
  have e0 : Evolves st (if c then
      st.accept_diagnostic Diagnostic.const_pragma_is_not_allowed else st) := by
    split
    · exact evolves_accept_diagnostic st _
    · exact Evolves.refl st
  generalize h0 : (if c then
      st.accept_diagnostic Diagnostic.const_pragma_is_not_allowed else st) = st0
    at e0 ⊢
  have e1 := e0.trans (evolves_advance st0)
  rcases hA : parse_access_modifier st0.advance with ⟨am, st1⟩
  try simp only [hA]
  have e2 := e1.trans (evolves_of_run evolves_parse_access_modifier hA)
  rcases hP : parse_polymorphism_mode (PouType.Method parent none dk) st1
    with ⟨pm, st2⟩
  try simp only [hP]
  have e3 := e2.trans
    (evolves_of_run (evolves_parse_polymorphism_mode (PouType.Method parent none dk)) hP)
  rcases hO : st2.try_consume .KeywordOverride with ⟨ov, st3⟩
  try simp only [hO]
  have e4 := e3.trans (evolves_try_consume_eq hO)
  rcases hI : parse_identifier st3 with ⟨identOpt, st4⟩
  try simp only [hI]
  have e5 := e4.trans (evolves_of_run evolves_parse_identifier hI)
  cases identOpt
  · exact e5
  · rename_i nm
    dsimp only
    rcases hG : parse_generics fuel st4 with ⟨gen, st5⟩
    try simp only [hG]
    have e6 := e5.trans (evolves_of_run (evolves_parse_generics fuel) hG)
    rcases hR : parse_return_type fuel st5 with ⟨rt, st6⟩
    try simp only [hR]
    have e7 := e6.trans (evolves_of_run (evolves_parse_return_type fuel) hR)
    rcases hV : parse_method_var_blocks fuel st6 with ⟨vb, st7⟩
    try simp only [hV]
    have e8 := e7.trans (evolves_of_run (evolves_parse_method_var_blocks fuel) hV)
    rcases hM : parse_implementation fuel lnk (PouType.Method parent none dk)
        (qualified_name parent nm) (qualified_name parent nm) (!gen.isEmpty) st7
      with ⟨imp, st8⟩
    try simp only [hM]
    have e9 := e8.trans (evolves_of_run
      (fun s => evolves_parse_implementation fuel lnk (PouType.Method parent none dk)
        (qualified_name parent nm) (qualified_name parent nm) (!gen.isEmpty) s) hM)
    exact e9.trans (evolves_next_id st8)

theorem evolves_parse_method (fuel : Nat) (parent : String) (dk : DeclarationKind)
    (lnk : LinkageType) (c : Bool) (st : PSt) :
    Evolves st (parse_method fuel parent dk lnk c st).2 :=
  evolves_parse_any_in_region _ _
    (evolves_parse_method_inner fuel parent dk lnk c) st

theorem evolves_parse_property_var_blocks_illegal : ∀ (fuel : Nat) (st : PSt),
    Evolves st (parse_property_var_blocks_illegal fuel st)
  | 0, st => Evolves.refl st
  | fuel + 1, st => by
      simp only [parse_property_var_blocks_illegal]
      split
      · rcases h1 : parse_variable_block fuel LinkageType.Internal st with ⟨b, st1⟩
        try simp only [h1]
        exact ((evolves_of_run (fun s => evolves_parse_variable_block fuel _ s)
          h1).trans (evolves_accept_diagnostic st1 _)).trans
          (evolves_parse_property_var_blocks_illegal fuel _)
      · exact Evolves.refl st

theorem evolves_parse_property_accessor_var_blocks : ∀ (fuel : Nat) (st : PSt),
    Evolves st (parse_property_accessor_var_blocks fuel st).2
  | 0, st => Evolves.refl st
  | fuel + 1, st => by
      simp only [parse_property_accessor_var_blocks]
      split
      · rcases h1 : parse_variable_block fuel LinkageType.Internal st with ⟨b, st1⟩
        try simp only [h1]
        rcases h2 : parse_property_accessor_var_blocks fuel st1 with ⟨rest, st2⟩
        try simp only [h2]
        exact (evolves_of_run (fun s => evolves_parse_variable_block fuel _ s)
          h1).trans
          (evolves_of_run (evolves_parse_property_accessor_var_blocks fuel) h2)
      · exact Evolves.refl st

theorem evolves_parse_property_implementations : ∀ (fuel : Nat) (st : PSt),
    Evolves st (parse_property_implementations fuel st).2
  | 0, st => Evolves.refl st
  | fuel + 1, st => by
      simp only [parse_property_implementations]
      split
      · by_cases hk : st.token = Token.KeywordGet
        · rw [if_pos hk]
          rcases hV : parse_property_accessor_var_blocks fuel st.advance
            with ⟨vb, st1⟩
          try simp only [hV]
          have e1 := (evolves_advance st).trans
            (evolves_of_run (evolves_parse_property_accessor_var_blocks fuel) hV)
          rcases hB : parse_body_in_region fuel [Token.KeywordEndGet] st1
            with ⟨stm, st2⟩
          try simp only [hB]
          have e2 := e1.trans (evolves_of_run
            (fun s => evolves_parse_body_in_region fuel [Token.KeywordEndGet] s) hB)
          rcases hR : parse_property_implementations fuel st2 with ⟨rest, st3⟩
          try simp only [hR]
          exact e2.trans
            (evolves_of_run (evolves_parse_property_implementations fuel) hR)
        · rw [if_neg hk]
          rcases hV : parse_property_accessor_var_blocks fuel st.advance
            with ⟨vb, st1⟩
          try simp only [hV]
          have e1 := (evolves_advance st).trans
            (evolves_of_run (evolves_parse_property_accessor_var_blocks fuel) hV)
          rcases hB : parse_body_in_region fuel [Token.KeywordEndSet] st1
            with ⟨stm, st2⟩
          try simp only [hB]
          have e2 := e1.trans (evolves_of_run
            (fun s => evolves_parse_body_in_region fuel [Token.KeywordEndSet] s) hB)
          rcases hR : parse_property_implementations fuel st2 with ⟨rest, st3⟩
          try simp only [hR]
          exact e2.trans
            (evolves_of_run (evolves_parse_property_implementations fuel) hR)
      · exact Evolves.refl st

theorem evolves_parse_property (fuel : Nat) (st : PSt) :
    Evolves st (parse_property fuel st).2 := by
  unfold parse_property
  rcases hI : parse_identifier st.advance with ⟨identOpt, st1⟩
  try simp only [hI]
  have e1 := (evolves_advance st).trans (evolves_of_run evolves_parse_identifier hI)
  have e2 : Evolves st (match identOpt with
      | none =>
          (true, st1.accept_diagnostic
            (Diagnostic.new "Property definition is missing a name"))
      | some _ => (false, st1)).2 := by
    cases identOpt
    · exact e1.trans (evolves_accept_diagnostic st1 _)
    · exact e1
  rcases hE : (match identOpt with
      | none =>
          (true, st1.accept_diagnostic
            (Diagnostic.new "Property definition is missing a name"))
      | some _ => (false, st1)) with ⟨hasErr, st2⟩
  rw [hE] at e2
  try simp only [hE]
  rcases hR : parse_return_type fuel st2 with ⟨dtOpt, st3⟩
  try simp only [hR]
  have e3 := e2.trans (evolves_of_run (evolves_parse_return_type fuel) hR)
  have e4 : Evolves st (match dtOpt with
      | none =>
          (true, st3.accept_diagnostic
            (Diagnostic.new "Property definition is missing a datatype"))
      | some _ => (hasErr, st3)).2 := by
    cases dtOpt
    · exact e3.trans (evolves_accept_diagnostic st3 _)
    · exact e3
  rcases hE2 : (match dtOpt with
      | none =>
          (true, st3.accept_diagnostic
            (Diagnostic.new "Property definition is missing a datatype"))
      | some _ => (hasErr, st3)) with ⟨hasErr2, st4⟩
  rw [hE2] at e4
  try simp only [hE2]
  have e5 := e4.trans (evolves_parse_property_var_blocks_illegal fuel st4)
  rcases hPI : parse_property_implementations fuel
      (parse_property_var_blocks_illegal fuel st4) with ⟨impls, st5⟩
  try simp only [hPI]
  have e6 := e5.trans
    (evolves_of_run (evolves_parse_property_implementations fuel) hPI)
  have e7 := e6.trans (evolves_try_consume_or_report st5 Token.KeywordEndProperty)
  split
  · exact e7
  · split
    · exact e7
    · exact e7

theorem evolves_parse_interface_method_entry (res : Option (Pou × Implementation))
    (methods : List Pou) (impls : List Implementation) (st : PSt) :
    Evolves st (parse_interface_method_entry res methods impls st).2.2 := by
  unfold parse_interface_method_entry
  cases res
  · exact Evolves.refl st
  · rename_i p
    obtain ⟨m, imp⟩ := p
    dsimp only
    split
    · exact Evolves.refl st
    · exact evolves_accept_diagnostic st _

theorem evolves_parse_interface_property_entry (res : Option PropertyBlock)
    (props : List PropertyBlock) (st : PSt) :
    Evolves st (parse_interface_property_entry res props st).2 := by
  unfold parse_interface_property_entry
  cases res
  · exact Evolves.refl st
  · rename_i p
    dsimp only
    exact evolves_foldl _ (fun s b => evolves_accept_diagnostic s _) _ st

theorem evolves_parse_interface_extensions : ∀ (fuel : Nat) (acc : List Identifier)
    (st : PSt), Evolves st (parse_interface_extensions fuel acc st).2
  | 0, _, st => Evolves.refl st
  | fuel + 1, acc, st => by
      simp only [parse_interface_extensions]
      split
      · rcases hI : parse_identifier st with ⟨identOpt, st1⟩
        try simp only [hI]
        have e1 := evolves_of_run evolves_parse_identifier hI
        cases identOpt
        · exact e1
        · dsimp only
          have e2 := e1.trans (evolves_try_consume st1 Token.KeywordComma)
          exact e2.trans (evolves_parse_interface_extensions fuel _ _)
      · exact Evolves.refl st

theorem evolves_parse_interface_loop : ∀ (fuel : Nat) (name : String)
    (methods : List Pou) (impls : List Implementation)
    (props : List PropertyBlock) (st : PSt),
    Evolves st (parse_interface_loop fuel name methods impls props st).2
  | 0, _, _, _, _, st => Evolves.refl st
  | fuel + 1, name, methods, impls, props, st => by
      simp only [parse_interface_loop]
      split
      · rcases hM : parse_method fuel name DeclarationKind.Abstract
            LinkageType.Internal false st with ⟨res, st1⟩
        try simp only [hM]
        have e1 := evolves_of_run
          (fun s => evolves_parse_method fuel name DeclarationKind.Abstract
            LinkageType.Internal false s) hM
        rcases hE : parse_interface_method_entry res methods impls st1
          with ⟨m2, i2, st2⟩
        try simp only [hE]
        have e2 : Evolves st1 st2 := by
          have h := evolves_parse_interface_method_entry res methods impls st1
          rw [hE] at h
          exact h
        exact (e1.trans e2).trans
          (evolves_parse_interface_loop fuel name m2 i2 props st2)
      · rcases hP : parse_property fuel st with ⟨res, st1⟩
        try simp only [hP]
        have e1 := evolves_of_run (evolves_parse_property fuel) hP
        rcases hE : parse_interface_property_entry res props st1 with ⟨p2, st2⟩
        try simp only [hE]
        have e2 : Evolves st1 st2 := by
          have h := evolves_parse_interface_property_entry res props st1
          rw [hE] at h
          exact h
        exact (e1.trans e2).trans
          (evolves_parse_interface_loop fuel name methods impls p2 st2)
      · exact Evolves.refl st

theorem evolves_parse_interface (fuel : Nat) (st : PSt) :
    Evolves st (parse_interface fuel st).2 := by
  unfold parse_interface
  have e0 := evolves_try_consume_or_report st Token.KeywordInterface
  generalize h0 : st.try_consume_or_report Token.KeywordInterface = st0 at e0 ⊢
  have e1 : Evolves st (match st0.token with
      | Token.Identifier =>
          (match parse_identifier st0 with
          | (some n, st) => (n, st)
          | (none, st) => ("", st))
      | _ =>
          ("", st0.accept_diagnostic
            ((Diagnostic.new
              "Expected a name for the interface definition but got nothing").with_error_code
              "E006"))).2 := by
    split
    · rcases hI : parse_identifier st0 with ⟨identOpt, st1⟩
      try simp only [hI]
      have h := e0.trans (evolves_of_run evolves_parse_identifier hI)
      cases identOpt
      · exact h
      · exact h
    · exact e0.trans (evolves_accept_diagnostic st0 _)
  rcases hN : (match st0.token with
      | Token.Identifier =>
          (match parse_identifier st0 with
          | (some n, st) => (n, st)
          | (none, st) => ("", st))
      | _ =>
          ("", st0.accept_diagnostic
            ((Diagnostic.new
              "Expected a name for the interface definition but got nothing").with_error_code
              "E006"))) with ⟨name, st1⟩
  rw [hN] at e1
  try simp only [hN]
  rcases hX : st1.try_consume .KeywordExtends with ⟨bx, st2⟩
  try simp only [hX]
  have e2 := e1.trans (evolves_try_consume_eq hX)
  cases bx
  · rcases hL : parse_interface_loop fuel name [] [] [] st2 with ⟨⟨ms, is2, ps⟩, st4⟩
    try simp only [hL]
    have e4 := e2.trans (evolves_of_run
      (fun sx => evolves_parse_interface_loop fuel name [] [] [] sx) hL)
    exact (e4.trans (evolves_try_consume_or_report st4 Token.KeywordEndInterface)).trans
      (evolves_next_id _)
  · rcases hEx : parse_interface_extensions fuel [] st2 with ⟨exts, st3⟩
    try simp only [hEx]
    have e3 := e2.trans (evolves_of_run
      (fun sx => evolves_parse_interface_extensions fuel [] sx) hEx)
    rcases hL : parse_interface_loop fuel name [] [] [] st3 with ⟨⟨ms, is2, ps⟩, st4⟩
    try simp only [hL]
    have e4 := e3.trans (evolves_of_run
      (fun sx => evolves_parse_interface_loop fuel name [] [] [] sx) hL)
    exact (e4.trans (evolves_try_consume_or_report st4 Token.KeywordEndInterface)).trans
      (evolves_next_id _)

theorem evolves_parse_pou_var_blocks : ∀ (fuel : Nat) (st : PSt),
    Evolves st (parse_pou_var_blocks fuel st).2
  | 0, st => Evolves.refl st
  | fuel + 1, st => by
      simp only [parse_pou_var_blocks]
      split
      · rcases h1 : parse_variable_block fuel LinkageType.Internal st with ⟨b, st1⟩
        try simp only [h1]
        rcases h2 : parse_pou_var_blocks fuel st1 with ⟨rest, st2⟩
        try simp only [h2]
        exact (evolves_of_run (fun s => evolves_parse_variable_block fuel _ s)
          h1).trans (evolves_of_run (evolves_parse_pou_var_blocks fuel) h2)
      · exact Evolves.refl st

theorem evolves_parse_pou_methods_loop : ∀ (fuel : Nat) (kind : PouType)
    (name : String) (lnk : LinkageType)
    (acc : List Pou × List Implementation × List PropertyBlock) (st : PSt),
    Evolves st (parse_pou_methods_loop fuel kind name lnk acc st).2
  | 0, _, _, _, _, st => Evolves.refl st
  | fuel + 1, kind, name, lnk, acc, st => by
      simp only [parse_pou_methods_loop]
      split
      · have e0 : Evolves st (if kind = PouType.FunctionBlock ∨
            kind = PouType.Class ∨ kind = PouType.Program then st
          else
            st.accept_diagnostic
              (Diagnostic.new
                ((if st.token = Token.KeywordProperty then "Properties"
                  else "Methods") ++ " cannot be declared in a " ++ kind.kindName))) := by
          split
          · exact Evolves.refl st
          · exact evolves_accept_diagnostic st _
        generalize hmid : (if kind = PouType.FunctionBlock ∨
            kind = PouType.Class ∨ kind = PouType.Program then st
          else
            st.accept_diagnostic
              (Diagnostic.new
                ((if st.token = Token.KeywordProperty then "Properties"
                  else "Methods") ++ " cannot be declared in a " ++ kind.kindName))) =
          st0 at e0 ⊢
        split
        · rcases hP : parse_property fuel st0 with ⟨res, st1⟩
          try simp only [hP]
          have e1 := e0.trans (evolves_of_run (evolves_parse_property fuel) hP)
          rcases hR : parse_pou_methods_loop fuel kind name lnk
              (acc.1, acc.2.1,
                match res with
                | some p => acc.2.2 ++ [p]
                | none => acc.2.2) st1 with ⟨acc2, st2⟩
          cases res <;>
            exact e1.trans (evolves_parse_pou_methods_loop fuel kind name lnk _ st1)
        · rcases hC : st0.try_consume .PropertyConstant with ⟨isc, st1⟩
          try simp only [hC]
          have e1 := e0.trans (evolves_try_consume_eq hC)
          rcases hM : parse_method fuel name DeclarationKind.Concrete lnk isc st1
            with ⟨res, st2⟩
          try simp only [hM]
          have e2 := e1.trans (evolves_of_run
            (fun s => evolves_parse_method fuel name DeclarationKind.Concrete lnk
              isc s) hM)
          cases res
          · exact e2.trans
              (evolves_parse_pou_methods_loop fuel kind name lnk _ st2)
          · rename_i p
            obtain ⟨pou, imp⟩ := p
            exact e2.trans
              (evolves_parse_pou_methods_loop fuel kind name lnk _ st2)
      · exact Evolves.refl st

theorem evolves_parse_pou_scope_body (fuel : Nat) (kind : PouType)
    (lnk : LinkageType) (c : Bool) (name : String)
    (pm : Option PolymorphismMode) (gens : List GenericBinding) (st : PSt) :
    Evolves st (parse_pou_scope_body fuel kind lnk c name pm gens st).2 := by
  unfold parse_pou_scope_body
  rcases h1 : parse_super_class fuel st with ⟨sc, st1⟩
  try simp only [h1]
  have e1 := evolves_of_run (evolves_parse_super_class fuel) h1
  rcases h2 : parse_interface_declarations fuel st1 with ⟨ifs, st2⟩
  try simp only [h2]
  have e2 := e1.trans
    (evolves_of_run (evolves_parse_interface_declarations fuel) h2)
  rcases h3 : parse_return_type fuel st2 with ⟨rt, st3⟩
  try simp only [h3]
  have e3 := e2.trans (evolves_of_run (evolves_parse_return_type fuel) h3)
  rcases h4 : parse_pou_var_blocks fuel st3 with ⟨vbs, st4⟩
  try simp only [h4]
  have e4 := e3.trans (evolves_of_run (evolves_parse_pou_var_blocks fuel) h4)
  rcases h5 : parse_pou_methods_loop fuel kind name lnk ([], [], []) st4
    with ⟨⟨ips, imps, props⟩, st5⟩
  try simp only [h5]
  have e5 := e4.trans (evolves_of_run
    (fun s => evolves_parse_pou_methods_loop fuel kind name lnk ([], [], []) s) h5)
  rcases h6 : parse_implementation fuel lnk kind name name (!gens.isEmpty) st5
    with ⟨imp, st6⟩
  try simp only [h6]
  have e6 := e5.trans (evolves_of_run
    (fun s => evolves_parse_implementation fuel lnk kind name name
      (!gens.isEmpty) s) h6)
  exact e6.trans (evolves_next_id st6)

theorem evolves_parse_pou_inner (fuel : Nat) (kind : PouType) (lnk : LinkageType)
    (c : Bool) (st : PSt) : Evolves st (parse_pou_inner fuel kind lnk c st).2 := by
  unfold parse_pou_inner
  rcases h1 : parse_polymorphism_mode kind st with ⟨pm, st1⟩
  try simp only [h1]
  have e1 := evolves_of_run (evolves_parse_polymorphism_mode kind) h1
  rcases h2 : parse_identifier st1 with ⟨no, st2⟩
  try simp only [h2]
  have e2 := e1.trans (evolves_of_run evolves_parse_identifier h2)
  rcases h3 : parse_generics fuel st2 with ⟨gens, st3⟩
  try simp only [h3]
  have e3 := e2.trans (evolves_of_run (evolves_parse_generics fuel) h3)
  exact e3.trans (evolves_with_scope _ _
    (evolves_parse_pou_scope_body fuel kind lnk c (no.getD "") pm gens) st3)

theorem evolves_parse_pou (fuel : Nat) (unit : CompilationUnit) (kind : PouType)
    (lnk : LinkageType) (endTok : Token) (c : Bool) (st : PSt) :
    Evolves st (parse_pou fuel unit kind lnk endTok c st).2 := by
  unfold parse_pou
  have e0 : Evolves st (if c ∧ lnk ≠ LinkageType.BuiltIn then
      st.accept_diagnostic Diagnostic.const_pragma_is_not_allowed else st) := by
    split
    · exact evolves_accept_diagnostic st _
    · exact Evolves.refl st
  generalize h0 : (if c ∧ lnk ≠ LinkageType.BuiltIn then
      st.accept_diagnostic Diagnostic.const_pragma_is_not_allowed else st) = st0
    at e0 ⊢
  have e1 := e0.trans (evolves_advance st0)
  rcases hR : parse_any_in_region [endTok, Token.KeywordEndAction,
      Token.KeywordEndProgram, Token.KeywordEndFunction,
      Token.KeywordEndFunctionBlock, Token.KeywordEndClass]
      (parse_pou_inner fuel kind lnk c) st0.advance with ⟨res, st1⟩
  try simp only [hR]
  have e2 := e1.trans (evolves_of_run
    (evolves_parse_any_in_region _ _ (evolves_parse_pou_inner fuel kind lnk c)) hR)
  have e3 : Evolves st (if [endTok, Token.KeywordEndAction, Token.KeywordEndProgram,
      Token.KeywordEndFunction, Token.KeywordEndFunctionBlock,
      Token.KeywordEndClass].contains st1.lastToken ∧ st1.lastToken ≠ endTok then
      st1.accept_diagnostic
        (Diagnostic.unexpected_token_found (toString (repr endTok)) st1.lastText)
    else st1) := by
    split
    · exact e2.trans (evolves_accept_diagnostic st1 _)
    · exact e2
  generalize hmid : (if [endTok, Token.KeywordEndAction, Token.KeywordEndProgram,
      Token.KeywordEndFunction, Token.KeywordEndFunctionBlock,
      Token.KeywordEndClass].contains st1.lastToken ∧ st1.lastToken ≠ endTok then
      st1.accept_diagnostic
        (Diagnostic.unexpected_token_found (toString (repr endTok)) st1.lastText)
    else st1) = st2 at e3 ⊢
  rcases res with ⟨pous, imps⟩
  exact e3

theorem evolves_parse_action_inner (fuel : Nat) (lnk : LinkageType)
    (container : Option String) (closing : List Token) (st : PSt) :
    Evolves st (parse_action_inner fuel lnk container closing st).2 := by
  unfold parse_action_inner
  simp only [PSt.slice_and_advance]
  have e1 := evolves_advance st
  cases container
  · dsimp only
    by_cases hd : st.advance.token = Token.KeywordDot
    · rw [if_pos hd]
      have e2 := e1.trans (evolves_advance st.advance)
      by_cases hi : st.advance.advance.token = Token.Identifier
      · rw [if_pos hi]
        dsimp only
        have e3 := e2.trans (evolves_advance st.advance.advance)
        rcases hM : parse_implementation fuel lnk PouType.Action
            (qualified_name st.slice st.advance.advance.slice)
            st.slice false st.advance.advance.advance with ⟨imp, st4⟩
        try simp only [hM]
        have e4 := e3.trans (evolves_of_run
          (fun s => evolves_parse_implementation fuel lnk PouType.Action
            (qualified_name st.slice st.advance.advance.slice)
            st.slice false s) hM)
        split
        · exact e4.trans (evolves_accept_diagnostic st4 _)
        · exact e4
      · rw [if_neg hi]
        exact e2.trans (evolves_accept_diagnostic st.advance.advance _)
    · rw [if_neg hd]
      exact e1.trans (evolves_accept_diagnostic st.advance _)
  · rename_i c
    dsimp only
    rcases hM : parse_implementation fuel lnk PouType.Action
        (qualified_name c st.slice) c false st.advance with ⟨imp, st4⟩
    try simp only [hM]
    have e4 := e1.trans (evolves_of_run
      (fun s => evolves_parse_implementation fuel lnk PouType.Action
        (qualified_name c st.slice) c false s) hM)
    split
    · exact e4.trans (evolves_accept_diagnostic st4 _)
    · exact e4

theorem evolves_parse_action (fuel : Nat) (lnk : LinkageType)
    (container : Option String) (st : PSt) :
    Evolves st (parse_action fuel lnk container st).2 :=
  (evolves_advance st).trans
    (evolves_parse_any_in_region _ _
      (evolves_parse_action_inner fuel lnk container _) st.advance)

theorem evolves_parse_actions_loop : ∀ (fuel : Nat) (lnk : LinkageType)
    (container : String) (impls : List Implementation) (st : PSt),
    Evolves st (parse_actions_loop fuel lnk container impls st).2
  | 0, _, _, _, st => Evolves.refl st
  | fuel + 1, lnk, container, impls, st => by
      simp only [parse_actions_loop]
      split
      · split
        · rcases hA : parse_action fuel lnk (some container) st with ⟨res, st1⟩
          try simp only [hA]
          have e1 := evolves_of_run
            (fun s => evolves_parse_action fuel lnk (some container) s) hA
          cases res <;>
            exact e1.trans (evolves_parse_actions_loop fuel lnk container _ st1)
        · exact evolves_accept_diagnostic st _
      · exact Evolves.refl st

theorem evolves_parse_actions_inner (fuel : Nat) (lnk : LinkageType)
    (dc : String) (st : PSt) :
    Evolves st (parse_actions_inner fuel lnk dc st).2 := by
  unfold parse_actions_inner
  simp only [PSt.slice_and_advance]
  have e1 := evolves_advance st
  by_cases hi : st.advance.token = Token.Identifier
  · rw [if_pos hi]
    exact (e1.trans (evolves_advance st.advance)).trans
      (evolves_parse_actions_loop fuel lnk _ [] _)
  · rw [if_neg hi]
    exact e1.trans (evolves_parse_actions_loop fuel lnk _ [] _)

theorem evolves_parse_actions (fuel : Nat) (lnk : LinkageType) (dc : String)
    (st : PSt) : Evolves st (parse_actions fuel lnk dc st).2 :=
  evolves_parse_any_in_region _ _ (evolves_parse_actions_inner fuel lnk dc) st

theorem evolves_parse_type_loop : ∀ (fuel : Nat) (acc : List UserTypeDeclaration)
    (st : PSt), Evolves st (parse_type_loop fuel acc st).2
  | 0, _, st => Evolves.refl st
  | fuel + 1, acc, st => by
      simp only [parse_type_loop, PSt.slice_and_advance]
      split
      · exact Evolves.refl st
      · have e1 := (evolves_advance st).trans
          (evolves_try_consume_or_report st.advance Token.KeywordColon)
        rcases hF : parse_full_data_type_definition fuel (some st.slice)
            (st.advance.try_consume_or_report Token.KeywordColon) with ⟨res, st1⟩
        try simp only [hF]
        have e2 := e1.trans (evolves_of_run
          (fun s => evolves_parse_full_data_type_definition fuel (some st.slice) s)
          hF)
        rcases res with _ | ⟨dtd, init⟩
        · exact e2.trans (evolves_parse_type_loop fuel _ st1)
        · rcases dtd with r | ⟨dt, sc⟩
          · exact e2.trans (evolves_parse_type_loop fuel _ st1)
          · exact e2.trans (evolves_parse_type_loop fuel _ st1)

theorem evolves_parse_type (fuel : Nat) (st : PSt) :
    Evolves st (parse_type fuel st).2 :=
  (evolves_advance st).trans
    (evolves_parse_any_in_region _ _ (evolves_parse_type_loop fuel []) st.advance)

theorem evolves_try_parse_config_var (fuel : Nat) (st : PSt) :
    Evolves st (try_parse_config_var fuel st).2 := by
  unfold try_parse_config_var
  rcases h1 : parse_reference st with ⟨ref, st1⟩
  try simp only [h1]
  have e1 := evolves_of_run evolves_parse_reference h1
  rcases h2 : st1.try_consume .KeywordAt with ⟨b2, st2⟩
  try simp only [h2]
  have e2 := e1.trans (evolves_try_consume_eq h2)
  cases b2
  all_goals dsimp only
  case false =>
    have e3 := e2.trans (evolves_accept_diagnostic st2 (Diagnostic.missing_token "AT"))
    generalize hmid : st2.accept_diagnostic (Diagnostic.missing_token "AT") = st3
      at e3 ⊢
    split
    all_goals try exact e3.trans (evolves_accept_diagnostic st3 _)
    all_goals
      rcases hH : parse_hardware_access fuel st3.cur.hwDirection st3.cur.hwAccess
        st3 with ⟨ao, st4⟩
    all_goals try simp only [hH]
    all_goals have e4 := e3.trans (evolves_of_run (fun s =>
      evolves_parse_hardware_access fuel st3.cur.hwDirection st3.cur.hwAccess s) hH)
    all_goals cases ao
    all_goals try exact e4
    all_goals rename_i addr
    all_goals dsimp only
    all_goals rcases h5 : st4.try_consume .KeywordColon with ⟨b5, st5⟩
    all_goals try simp only [h5]
    all_goals have e5 := e4.trans (evolves_try_consume_eq h5)
    all_goals cases b5
    all_goals dsimp only
    all_goals first
      | (have e6 := e5.trans (evolves_accept_diagnostic st5
           (Diagnostic.missing_token "KeywordColon"))
         rcases h7 : parse_data_type_definition fuel none
             (st5.accept_diagnostic (Diagnostic.missing_token "KeywordColon"))
           with ⟨res, st7⟩
         try simp only [h7]
         have e7 := e6.trans (evolves_of_run
           (fun s => evolves_parse_data_type_definition fuel none s) h7)
         rcases res with _ | ⟨dt, init⟩
         · exact e7
         · cases init
           · exact e7
           · exact e7.trans (evolves_accept_diagnostic st7 _))
      | (rcases h7 : parse_data_type_definition fuel none st5 with ⟨res, st7⟩
         try simp only [h7]
         have e7 := e5.trans (evolves_of_run
           (fun s => evolves_parse_data_type_definition fuel none s) h7)
         rcases res with _ | ⟨dt, init⟩
         · exact e7
         · cases init
           · exact e7
           · exact e7.trans (evolves_accept_diagnostic st7 _))
  case true =>
    split
    all_goals try exact e2.trans (evolves_accept_diagnostic st2 _)
    all_goals
      rcases hH : parse_hardware_access fuel st2.cur.hwDirection st2.cur.hwAccess
        st2 with ⟨ao, st4⟩
    all_goals try simp only [hH]
    all_goals have e4 := e2.trans (evolves_of_run (fun s =>
      evolves_parse_hardware_access fuel st2.cur.hwDirection st2.cur.hwAccess s) hH)
    all_goals cases ao
    all_goals try exact e4
    all_goals rename_i addr
    all_goals dsimp only
    all_goals rcases h5 : st4.try_consume .KeywordColon with ⟨b5, st5⟩
    all_goals try simp only [h5]
    all_goals have e5 := e4.trans (evolves_try_consume_eq h5)
    all_goals cases b5
    all_goals dsimp only
    all_goals first
      | (have e6 := e5.trans (evolves_accept_diagnostic st5
           (Diagnostic.missing_token "KeywordColon"))
         rcases h7 : parse_data_type_definition fuel none
             (st5.accept_diagnostic (Diagnostic.missing_token "KeywordColon"))
           with ⟨res, st7⟩
         try simp only [h7]
         have e7 := e6.trans (evolves_of_run
           (fun s => evolves_parse_data_type_definition fuel none s) h7)
         rcases res with _ | ⟨dt, init⟩
         · exact e7
         · cases init
           · exact e7
           · exact e7.trans (evolves_accept_diagnostic st7 _))
      | (rcases h7 : parse_data_type_definition fuel none st5 with ⟨res, st7⟩
         try simp only [h7]
         have e7 := e5.trans (evolves_of_run
           (fun s => evolves_parse_data_type_definition fuel none s) h7)
         rcases res with _ | ⟨dt, init⟩
         · exact e7
         · cases init
           · exact e7
           · exact e7.trans (evolves_accept_diagnostic st7 _))

theorem evolves_parse_config_variables_loop : ∀ (fuel : Nat)
    (acc : List ConfigVariable) (st : PSt),
    Evolves st (parse_config_variables_loop fuel acc st).2
  | 0, _, st => Evolves.refl st
  | fuel + 1, acc, st => by
      simp only [parse_config_variables_loop]
      split
      · rcases h1 : parse_any_in_region [Token.KeywordSemicolon]
            (try_parse_config_var fuel) st with ⟨res, st1⟩
        try simp only [h1]
        have e1 := evolves_of_run (evolves_parse_any_in_region _ _
          (evolves_try_parse_config_var fuel)) h1
        cases res <;>
          exact e1.trans (evolves_parse_config_variables_loop fuel _ st1)
      · exact Evolves.refl st

theorem evolves_parse_config_variables_inner (fuel : Nat) (st : PSt) :
    Evolves st (parse_config_variables_inner fuel st).2 :=
  (evolves_advance st).trans
    (evolves_parse_config_variables_loop fuel [] st.advance)

theorem evolves_parse_config_variables (fuel : Nat) (st : PSt) :
    Evolves st (parse_config_variables fuel st).2 :=
  evolves_parse_any_in_region _ _ (evolves_parse_config_variables_inner fuel) st

theorem evolves_parse_iter (fuel : Nat) (lnk linkage : LinkageType)
    (constant : Bool) (unit : CompilationUnit) (st : PSt) :
    Evolves st (parse_iter fuel lnk linkage constant unit st).2 := by
  unfold parse_iter
  split
  · exact evolves_advance st
  · exact evolves_advance st
  · rcases hI : parse_interface fuel st with ⟨⟨itf, impls⟩, st1⟩
    try simp only [hI]
    exact evolves_of_run (fun s => evolves_parse_interface fuel s) hI
  · rcases hB : parse_variable_block fuel linkage st with ⟨b, st1⟩
    try simp only [hB]
    exact evolves_of_run (fun s => evolves_parse_variable_block fuel linkage s) hB
  · rcases hC : parse_config_variables fuel st with ⟨cs, st1⟩
    try simp only [hC]
    exact evolves_of_run (fun s => evolves_parse_config_variables fuel s) hC
  · rcases hP : parse_pou fuel unit PouType.Program linkage
        Token.KeywordEndProgram constant st with ⟨u2, st1⟩
    try simp only [hP]
    exact evolves_of_run (fun s => evolves_parse_pou fuel unit PouType.Program
      linkage Token.KeywordEndProgram constant s) hP
  · rcases hP : parse_pou fuel unit PouType.Class linkage
        Token.KeywordEndClass constant st with ⟨u2, st1⟩
    try simp only [hP]
    exact evolves_of_run (fun s => evolves_parse_pou fuel unit PouType.Class
      linkage Token.KeywordEndClass constant s) hP
  · rcases hP : parse_pou fuel unit PouType.Function linkage
        Token.KeywordEndFunction constant st with ⟨u2, st1⟩
    try simp only [hP]
    exact evolves_of_run (fun s => evolves_parse_pou fuel unit PouType.Function
      linkage Token.KeywordEndFunction constant s) hP
  · rcases hP : parse_pou fuel unit PouType.FunctionBlock linkage
        Token.KeywordEndFunctionBlock constant st with ⟨u2, st1⟩
    try simp only [hP]
    exact evolves_of_run (fun s => evolves_parse_pou fuel unit
      PouType.FunctionBlock linkage Token.KeywordEndFunctionBlock constant s) hP
  · rcases hA : parse_action fuel linkage none st with ⟨res, st1⟩
    try simp only [hA]
    have e1 := evolves_of_run (fun s => evolves_parse_action fuel linkage none s) hA
    cases res <;> exact e1
  · rcases hA : parse_actions fuel linkage
        (((unit.pous.filter (fun it =>
            it.kind = PouType.Program ∨ it.kind = PouType.Function ∨
            it.kind = PouType.FunctionBlock ∨ it.kind = PouType.Class)).getLast?.map
          (fun it => it.name)).getD "__unknown__") st with ⟨acts, st1⟩
    try simp only [hA]
    exact evolves_of_run (fun s => evolves_parse_actions fuel linkage _ s) hA
  · rcases hT : parse_type fuel st with ⟨uts, st1⟩
    try simp only [hT]
    exact evolves_of_run (fun s => evolves_parse_type fuel s) hT
  · exact Evolves.refl st
  · exact Evolves.refl st
  · exact (evolves_accept_diagnostic st _).trans (evolves_advance _)

theorem evolves_parse_loop : ∀ (fuel : Nat) (lnk linkage : LinkageType)
    (constant : Bool) (unit : CompilationUnit) (st : PSt),
    Evolves st (parse_loop fuel lnk linkage constant unit st).2
  | 0, _, _, _, _, st => Evolves.refl st
  | fuel + 1, lnk, linkage, constant, unit, st => by
      simp only [parse_loop]
      rcases hI : parse_iter fuel lnk linkage constant unit st
        with ⟨⟨step, u2⟩, st1⟩
      try simp only [hI]
      have e1 := evolves_of_run
        (fun s => evolves_parse_iter fuel lnk linkage constant unit s) hI
      cases step
      · exact e1
      · rename_i l c
        exact e1.trans (evolves_parse_loop fuel lnk l c u2 st1)

theorem evolves_parse (fuel : Nat) (lnk : LinkageType) (st : PSt) :
    Evolves st (parse fuel lnk st).2 :=
  evolves_parse_loop fuel lnk lnk false {} st

/-! ## The claims -/

/-- C4: parsing `POINTER TO INT` as a type definition succeeds, yielding a
pointer data type over the type reference `INT` with no auto-deref tag and
`type_safe = false`, and recording exactly one diagnostic, which carries
code E015; the node is produced despite the diagnostic. -/
theorem C4_pointer_to_int_is_diagnosed_but_parsed :
    (parse_data_type_definition 10 none
      { toks := [{ kind := Token.KeywordPointer }, { kind := Token.KeywordTo },
                 { kind := Token.Identifier, text := "INT" }] }).1 =
      some (DataTypeDeclaration.Definition
        (DataType.PointerType none (DataTypeDeclaration.Reference "INT") none false)
        none, none) ∧
    (parse_data_type_definition 10 none
      { toks := [{ kind := Token.KeywordPointer }, { kind := Token.KeywordTo },
                 { kind := Token.Identifier, text := "INT" }] }).2.diags =
      [{ message := "`POINTER TO` is type-unsafe, consider using `REF_TO` instead",
         code := some "E015" }] := by
  constructor <;> rfl

/-- C9: parsing `TYPE myEnum : (RED, GREEN, BLUE); END_TYPE` produces exactly
one user type declaration whose data type is an enum with backing numeric
type `DINT` and a three-element expression list `RED, GREEN, BLUE`, and
records no diagnostics. -/
theorem C9_enum_scenario :
    (parse 30 LinkageType.Internal
      { toks := [{ kind := Token.KeywordType },
                 { kind := Token.Identifier, text := "myEnum" },
                 { kind := Token.KeywordColon }, { kind := Token.KeywordParensOpen },
                 { kind := Token.Identifier, text := "RED" },
                 { kind := Token.KeywordComma },
                 { kind := Token.Identifier, text := "GREEN" },
                 { kind := Token.KeywordComma },
                 { kind := Token.Identifier, text := "BLUE" },
                 { kind := Token.KeywordParensClose }, { kind := Token.KeywordSemicolon },
                 { kind := Token.KeywordEndType }] }).1.user_types =
      [{ data_type := DataType.EnumType (some "myEnum") "DINT"
          (AstNode.mk 6 (AstStmt.ExpressionList
            [AstNode.mk 1 (AstStmt.ReferenceExpr
              (RefAccess.Member (AstNode.mk 0 (AstStmt.Identifier "RED"))) none),
             AstNode.mk 3 (AstStmt.ReferenceExpr
              (RefAccess.Member (AstNode.mk 2 (AstStmt.Identifier "GREEN"))) none),
             AstNode.mk 5 (AstStmt.ReferenceExpr
              (RefAccess.Member (AstNode.mk 4 (AstStmt.Identifier "BLUE"))) none)])),
         initializer := none, scope := none }] ∧
    (parse 30 LinkageType.Internal
      { toks := [{ kind := Token.KeywordType },
                 { kind := Token.Identifier, text := "myEnum" },
                 { kind := Token.KeywordColon }, { kind := Token.KeywordParensOpen },
                 { kind := Token.Identifier, text := "RED" },
                 { kind := Token.KeywordComma },
                 { kind := Token.Identifier, text := "GREEN" },
                 { kind := Token.KeywordComma },
                 { kind := Token.Identifier, text := "BLUE" },
                 { kind := Token.KeywordParensClose }, { kind := Token.KeywordSemicolon },
                 { kind := Token.KeywordEndType }] }).2.diags = [] := by
  constructor <;> rfl

/-- C3 counterexample: the claim says the `constant` pragma flag is reset to
false exactly once per dispatcher iteration regardless of which branch
executed. But a `TYPE ... END_TYPE` item is dispatched through a branch that
does not reset the flag: starting an iteration with `constant = true` on a
leading `TYPE` token yields a `Next` step that still carries
`constant = true` into the following iteration, so the pragma leaks past the
type declaration. -/
theorem C3_counterexample_constant_flag_leaks_past_type_item :
    ((parse_iter 30 LinkageType.Internal LinkageType.Internal true {}
      { toks := [{ kind := Token.KeywordType },
                 { kind := Token.KeywordEndType }] }).1).1 =
      IterStep.Next LinkageType.Internal true := by
  rfl

/-- C3 (amended): in the top-level dispatcher loop, whenever an iteration
continues with a `Next` step, the `constant` flag it carries forward is
`true` if the iteration consumed a constant-pragma token, is reset to
`false` exactly when the iteration dispatched a POU declaration
(`PROGRAM`, `CLASS`, `FUNCTION` or `FUNCTION_BLOCK`), and is otherwise
carried over unchanged — so the flag is not reset by the branches for
interfaces, global/config variable blocks, actions, type declarations or
unexpected tokens, and a pending constant pragma can leak past such items. -/
theorem C3_amended_constant_flag_reset_only_on_pou_dispatch
    (fuel : Nat) (lnk linkage : LinkageType) (constant : Bool)
    (unit : CompilationUnit) (st : PSt) (l : LinkageType) (c : Bool)
    (h : ((parse_iter fuel lnk linkage constant unit st).1).1 =
          IterStep.Next l c) :
    c = if st.token = Token.PropertyConstant then true
        else if st.token = Token.KeywordProgram ∨ st.token = Token.KeywordClass ∨
                st.token = Token.KeywordFunction ∨
                st.token = Token.KeywordFunctionBlock
             then false else constant := by
  unfold parse_iter at h
  split at h
  · rename_i heq
    injection h with h1 h2
    subst h2
    simp [heq]
  · rename_i heq
    injection h with h1 h2
    subst h2
    simp [heq]
  · rename_i heq
    rcases hI : parse_interface fuel st with ⟨⟨i, b⟩, s2⟩
    rw [hI] at h
    injection h with h1 h2
    subst h2
    simp [heq]
  · rename_i heq
    rcases hB : parse_variable_block fuel linkage st with ⟨blk, s2⟩
    rw [hB] at h
    injection h with h1 h2
    subst h2
    simp [heq]
  · rename_i heq
    rcases hC : parse_config_variables fuel st with ⟨cfgs, s2⟩
    rw [hC] at h
    injection h with h1 h2
    subst h2
    simp [heq]
  · rename_i heq
    rcases hP : parse_pou fuel unit PouType.Program linkage
        Token.KeywordEndProgram constant st with ⟨u2, s2⟩
    rw [hP] at h
    injection h with h1 h2
    subst h2
    simp [heq]
  · rename_i heq
    rcases hP : parse_pou fuel unit PouType.Class linkage
        Token.KeywordEndClass constant st with ⟨u2, s2⟩
    rw [hP] at h
    injection h with h1 h2
    subst h2
    simp [heq]
  · rename_i heq
    rcases hP : parse_pou fuel unit PouType.Function linkage
        Token.KeywordEndFunction constant st with ⟨u2, s2⟩
    rw [hP] at h
    injection h with h1 h2
    subst h2
    simp [heq]
  · rename_i heq
    rcases hP : parse_pou fuel unit PouType.FunctionBlock linkage
        Token.KeywordEndFunctionBlock constant st with ⟨u2, s2⟩
    rw [hP] at h
    injection h with h1 h2
    subst h2
    simp [heq]
  · rename_i heq
    rcases hA : parse_action fuel linkage none st with ⟨res, s2⟩
    rw [hA] at h
    injection h with h1 h2
    subst h2
    simp [heq]
  · rename_i heq
    rcases hA : parse_actions fuel linkage
        ((((unit.pous.filter (fun it =>
            it.kind = PouType.Program ∨ it.kind = PouType.Function ∨
            it.kind = PouType.FunctionBlock ∨
            it.kind = PouType.Class)).getLast?).map
          (fun it => it.name)).getD "__unknown__") st with ⟨acts, s2⟩
    simp only [hA] at h
    injection h with h1 h2
    subst h2
    simp [heq]
  · rename_i heq
    rcases hT : parse_type fuel st with ⟨uts, s2⟩
    rw [hT] at h
    injection h with h1 h2
    subst h2
    simp [heq]
  · simp at h
  · simp at h
  · rename_i hn1 hn2 hn3 hn4 hn5 hn6 hn7 hn8 hn9 hn10 hn11 hn12 hn13 hn14
    injection h with h1 h2
    subst h2
    rw [if_neg hn2,
      if_neg (by rintro (h | h | h | h); exacts [hn6 h, hn7 h, hn8 h, hn9 h])]

/-- Witness for the amended C3 theorem: a concrete iteration on a leading
`TYPE` item entered with the flag set keeps the flag set. -/
theorem C3_amended_witness :
    (((parse_iter 30 LinkageType.Internal LinkageType.Internal true {}
      { toks := [{ kind := Token.KeywordType },
                 { kind := Token.KeywordEndType },
                 { kind := Token.KeywordFunction }] }).1).1 =
      IterStep.Next LinkageType.Internal true) ∧
    (true : Bool) =
      (if ({ toks := [{ kind := Token.KeywordType },
                 { kind := Token.KeywordEndType },
                 { kind := Token.KeywordFunction }] } : PSt).token =
            Token.PropertyConstant then true
       else if ({ toks := [{ kind := Token.KeywordType },
                 { kind := Token.KeywordEndType },
                 { kind := Token.KeywordFunction }] } : PSt).token =
            Token.KeywordProgram ∨
          ({ toks := [{ kind := Token.KeywordType },
                 { kind := Token.KeywordEndType },
                 { kind := Token.KeywordFunction }] } : PSt).token =
            Token.KeywordClass ∨
          ({ toks := [{ kind := Token.KeywordType },
                 { kind := Token.KeywordEndType },
                 { kind := Token.KeywordFunction }] } : PSt).token =
            Token.KeywordFunction ∨
          ({ toks := [{ kind := Token.KeywordType },
                 { kind := Token.KeywordEndType },
                 { kind := Token.KeywordFunction }] } : PSt).token =
            Token.KeywordFunctionBlock
       then false else true) :=
  ⟨rfl, C3_amended_constant_flag_reset_only_on_pou_dispatch 30
    LinkageType.Internal LinkageType.Internal true {}
    { toks := [{ kind := Token.KeywordType },
               { kind := Token.KeywordEndType },
               { kind := Token.KeywordFunction }] }
    LinkageType.Internal true rfl⟩

/-- C2: the region wrapper `parse_any_in_region` pairs exactly one
region-open with exactly one region-close, regardless of how the inner
parser exits: entering the region increments the open count by one, the
wrapper's result performs exactly one close beyond whatever the inner
parser did, and for a session-evolving inner parser the wrapper leaves the
open/close delta and the region stack exactly as it found them.
Consequently, a complete top-level parse from a fresh session (where both
counters start at zero) ends with the total number of region-open calls
equal to the total number of region-close calls, for every input token
stream. -/
theorem C2_region_open_close_balance :
    (∀ (α : Type) (closing : List Token) (f : PSt → α × PSt) (st : PSt),
      (∀ s, Evolves s (f s).2) →
        ((parse_any_in_region closing f st).2.openCount =
            (f (st.enter_region closing)).2.openCount ∧
          (parse_any_in_region closing f st).2.closeCount =
            (f (st.enter_region closing)).2.closeCount + 1 ∧
          (st.enter_region closing).openCount = st.openCount + 1 ∧
          (st.enter_region closing).closeCount = st.closeCount ∧
          (parse_any_in_region closing f st).2.openCount + st.closeCount =
            st.openCount + (parse_any_in_region closing f st).2.closeCount ∧
          (parse_any_in_region closing f st).2.regions = st.regions)) ∧
    (∀ (fuel : Nat) (lnk : LinkageType) (toks : List Tok),
      (parse fuel lnk { toks := toks }).2.openCount =
        (parse fuel lnk { toks := toks }).2.closeCount) := by
  constructor
  · intro α closing f st hf
    rcases heq : f (st.enter_region closing) with ⟨r, st2⟩
    have hev : Evolves (st.enter_region closing) st2 := by
      have h0 := hf (st.enter_region closing)
      rw [heq] at h0
      exact h0
    have hr2 : st2.regions = closing :: st.regions := hev.2.1
    obtain ⟨rd, rr, ro, rc⟩ := recover_until_close_fields st2
    have hreg : st2.recover_until_close.regions = closing :: st.regions := by
      rw [rr, hr2]
    obtain ⟨cd, cr, co, cc⟩ := close_region_fields st2.recover_until_close
      closing st.regions hreg
    have hres : (parse_any_in_region closing f st).2 =
        st2.recover_until_close.close_region := by
      simp only [parse_any_in_region, heq]
    rw [hres]
    have hbal : st2.openCount + (st.enter_region closing).closeCount =
        (st.enter_region closing).openCount + st2.closeCount := hev.2.2
    refine ⟨by rw [co, ro], by rw [cc, rc], rfl, rfl, ?_, by rw [cr]⟩
    have h1 : (st.enter_region closing).openCount = st.openCount + 1 := rfl
    have h2 : (st.enter_region closing).closeCount = st.closeCount := rfl
    rw [co, ro, cc, rc]
    rw [h1, h2] at hbal
    omega
  · intro fuel lnk toks
    have h := (evolves_parse fuel lnk { toks := toks }).2.2
    have h1 : ({ toks := toks } : PSt).openCount = 0 := rfl
    have h2 : ({ toks := toks } : PSt).closeCount = 0 := rfl
    rw [h1, h2] at h
    omega

/-- Witness for C2: the wrapper facts at a concrete inner parser and state,
and the full-parse balance on a concrete token stream. -/
theorem C2_region_open_close_balance_witness :
    ((parse_any_in_region [Token.KeywordEndVar] (fun s => ((0 : Nat), s))
        ({ toks := [{ kind := Token.KeywordEndVar }] } : PSt)).2.openCount =
        ((fun (s : PSt) => ((0 : Nat), s))
          (({ toks := [{ kind := Token.KeywordEndVar }] } : PSt).enter_region
            [Token.KeywordEndVar])).2.openCount ∧
      (parse_any_in_region [Token.KeywordEndVar] (fun s => ((0 : Nat), s))
        ({ toks := [{ kind := Token.KeywordEndVar }] } : PSt)).2.closeCount =
        ((fun (s : PSt) => ((0 : Nat), s))
          (({ toks := [{ kind := Token.KeywordEndVar }] } : PSt).enter_region
            [Token.KeywordEndVar])).2.closeCount + 1 ∧
      (({ toks := [{ kind := Token.KeywordEndVar }] } : PSt).enter_region
          [Token.KeywordEndVar]).openCount =
        ({ toks := [{ kind := Token.KeywordEndVar }] } : PSt).openCount + 1 ∧
      (({ toks := [{ kind := Token.KeywordEndVar }] } : PSt).enter_region
          [Token.KeywordEndVar]).closeCount =
        ({ toks := [{ kind := Token.KeywordEndVar }] } : PSt).closeCount ∧
      (parse_any_in_region [Token.KeywordEndVar] (fun s => ((0 : Nat), s))
        ({ toks := [{ kind := Token.KeywordEndVar }] } : PSt)).2.openCount +
          ({ toks := [{ kind := Token.KeywordEndVar }] } : PSt).closeCount =
        ({ toks := [{ kind := Token.KeywordEndVar }] } : PSt).openCount +
          (parse_any_in_region [Token.KeywordEndVar] (fun s => ((0 : Nat), s))
            ({ toks := [{ kind := Token.KeywordEndVar }] } : PSt)).2.closeCount ∧
      (parse_any_in_region [Token.KeywordEndVar] (fun s => ((0 : Nat), s))
        ({ toks := [{ kind := Token.KeywordEndVar }] } : PSt)).2.regions =
        ({ toks := [{ kind := Token.KeywordEndVar }] } : PSt).regions) ∧
    ((parse 8 LinkageType.Internal
        ({ toks := [{ kind := Token.KeywordType },
                    { kind := Token.Identifier, text := "T" },
                    { kind := Token.KeywordColon },
                    { kind := Token.Identifier, text := "INT" },
                    { kind := Token.KeywordSemicolon },
                    { kind := Token.KeywordEndType }] } : PSt)).2.openCount =
      (parse 8 LinkageType.Internal
        ({ toks := [{ kind := Token.KeywordType },
                    { kind := Token.Identifier, text := "T" },
                    { kind := Token.KeywordColon },
                    { kind := Token.Identifier, text := "INT" },
                    { kind := Token.KeywordSemicolon },
                    { kind := Token.KeywordEndType }] } : PSt)).2.closeCount) :=
  ⟨C2_region_open_close_balance.1 Nat [Token.KeywordEndVar]
      (fun s => ((0 : Nat), s))
      ({ toks := [{ kind := Token.KeywordEndVar }] } : PSt)
      (fun s => Evolves.refl s),
    C2_region_open_close_balance.2 8 LinkageType.Internal
      [{ kind := Token.KeywordType },
       { kind := Token.Identifier, text := "T" },
       { kind := Token.KeywordColon },
       { kind := Token.Identifier, text := "INT" },
       { kind := Token.KeywordSemicolon },
       { kind := Token.KeywordEndType }]⟩

/-- Folding an accept-diagnostic step over a list appends one copy of the
diagnostic per element and changes nothing else of the session state. -/
theorem foldl_accept_diagnostic (d : Diagnostic) :
    ∀ {β : Type} (l : List β) (st : PSt),
      l.foldl (fun s _ => s.accept_diagnostic d) st =
        { st with diags := st.diags ++ List.replicate l.length d }
  | _, [], st => by simp
  | _, _ :: l, st => by
      rw [List.foldl_cons, foldl_accept_diagnostic d l]
      simp [PSt.accept_diagnostic, List.replicate_succ]

/-- C6: in the `parse_interface` loop, a parsed method whose implementation
body is non-empty is diagnosed with one E113 and nevertheless retained —
both the method and its implementation are appended to the interface's
lists; and a parsed property is always retained, with exactly one E113
diagnostic recorded per accessor whose body is non-empty.  A non-empty body
never causes the method or property to be dropped. -/
theorem C6_interface_default_bodies_diagnosed_not_dropped :
    (∀ (method : Pou) (imp : Implementation) (methods : List Pou)
        (impls : List Implementation) (st : PSt),
      imp.statements ≠ [] →
        parse_interface_method_entry (some (method, imp)) methods impls st =
          (methods ++ [method], impls ++ [imp],
            st.accept_diagnostic
              ((Diagnostic.new
                "Interfaces can not have a default implementation").with_error_code
                "E113"))) ∧
    (∀ (property : PropertyBlock) (props : List PropertyBlock) (st : PSt),
      parse_interface_property_entry (some property) props st =
        (props ++ [property],
          { st with diags := (st.diags ++ List.replicate
              (property.implementations.filter
                (fun imp => !imp.body.isEmpty)).length
              ((Diagnostic.new
                "Interfaces can not have a default implementation").with_error_code
                "E113")) })) := by
  constructor
  · intro method imp methods impls st h
    have hb : imp.statements.isEmpty = false := by
      cases hs : imp.statements
      · exact absurd hs h
      · rfl
    unfold parse_interface_method_entry
    dsimp only
    rw [hb]
    simp
  · intro property props st
    unfold parse_interface_property_entry
    dsimp only
    rw [foldl_accept_diagnostic]

/-- Witness for C6: a concrete method with a one-statement body and a
concrete property with one non-empty GET accessor. -/
theorem C6_interface_default_bodies_witness :
    (parse_interface_method_entry
      (some ({ name := "m", id := 0, kind := PouType.Function,
               variable_blocks := [], return_type := none, poly_mode := none,
               generics := [], linkage := LinkageType.Internal,
               super_class := none, interfaces := [], is_const := false,
               properties := [] },
             { name := "m", type_name := "m",
               linkage := LinkageType.Internal, pou_type := PouType.Function,
               statements := [AstNode.mk 0 AstStmt.EmptyStatement],
               overriding := false, generic := false, access := none }))
      [] [] ({ toks := [] } : PSt) =
      ([{ name := "m", id := 0, kind := PouType.Function,
          variable_blocks := [], return_type := none, poly_mode := none,
          generics := [], linkage := LinkageType.Internal,
          super_class := none, interfaces := [], is_const := false,
          properties := [] }],
       [{ name := "m", type_name := "m",
          linkage := LinkageType.Internal, pou_type := PouType.Function,
          statements := [AstNode.mk 0 AstStmt.EmptyStatement],
          overriding := false, generic := false, access := none }],
       ({ toks := [] } : PSt).accept_diagnostic
         ((Diagnostic.new
           "Interfaces can not have a default implementation").with_error_code
           "E113"))) ∧
    (parse_interface_property_entry
      (some { ident := { name := "p" },
              datatype := DataTypeDeclaration.Reference "INT",
              implementations :=
                [{ kind := PropertyKind.Get, variable_blocks := [],
                   body := [AstNode.mk 0 AstStmt.EmptyStatement] }] })
      [] ({ toks := [] } : PSt) =
      ([{ ident := { name := "p" },
          datatype := DataTypeDeclaration.Reference "INT",
          implementations :=
            [{ kind := PropertyKind.Get, variable_blocks := [],
               body := [AstNode.mk 0 AstStmt.EmptyStatement] }] }],
       { ({ toks := [] } : PSt) with diags :=
          (({ toks := [] } : PSt).diags ++ List.replicate
            (({ ident := { name := "p" },
                datatype := DataTypeDeclaration.Reference "INT",
                implementations :=
                  [{ kind := PropertyKind.Get, variable_blocks := [],
                     body := [AstNode.mk 0 AstStmt.EmptyStatement] }] } :
                  PropertyBlock).implementations.filter
              (fun imp => !imp.body.isEmpty)).length
            ((Diagnostic.new
              "Interfaces can not have a default implementation").with_error_code
              "E113")) })) :=
  ⟨C6_interface_default_bodies_diagnosed_not_dropped.1
      { name := "m", id := 0, kind := PouType.Function,
        variable_blocks := [], return_type := none, poly_mode := none,
        generics := [], linkage := LinkageType.Internal,
        super_class := none, interfaces := [], is_const := false,
        properties := [] }
      { name := "m", type_name := "m",
        linkage := LinkageType.Internal, pou_type := PouType.Function,
        statements := [AstNode.mk 0 AstStmt.EmptyStatement],
        overriding := false, generic := false, access := none }
      [] [] ({ toks := [] } : PSt) (List.cons_ne_nil _ _),
    C6_interface_default_bodies_diagnosed_not_dropped.2
      { ident := { name := "p" },
        datatype := DataTypeDeclaration.Reference "INT",
        implementations :=
          [{ kind := PropertyKind.Get, variable_blocks := [],
             body := [AstNode.mk 0 AstStmt.EmptyStatement] }] }
      [] ({ toks := [] } : PSt)⟩

/-- A run of the `EXTENDS` collection loop over a well-formed clause list:
each `EXTENDS <name>` pair is consumed in order and the session is otherwise
untouched. -/
theorem parse_super_class_exts_run :
    ∀ (names : List String) (fuel : Nat) (rest : List Tok) (st : PSt),
      names.length ≤ fuel →
      st.toks = names.flatMap
        (fun n => [({ kind := Token.KeywordExtends } : Tok),
                   { kind := Token.Identifier, text := n }]) ++ rest →
      (∀ t, rest.head? = some t → t.kind ≠ Token.KeywordExtends) →
      ∃ stF, parse_super_class_exts fuel st = (some names, stF) ∧
        stF.toks = rest ∧ stF.diags = st.diags ∧ stF.regions = st.regions ∧
        stF.openCount = st.openCount ∧ stF.closeCount = st.closeCount
  | [], fuel, rest, st => by
      intro hf htoks hrest
      have htoks2 : st.toks = rest := by simpa using htoks
      cases fuel with
      | zero => exact ⟨st, rfl, htoks2, rfl, rfl, rfl, rfl⟩
      | succ f =>
          have htokne : st.token ≠ Token.KeywordExtends := by
            unfold PSt.token
            rw [htoks2]
            cases rest with
            | nil => simp
            | cons t ts => exact hrest t rfl
          have hc : st.try_consume Token.KeywordExtends = (false, st) := by
            unfold PSt.try_consume
            rw [if_neg htokne]
          unfold parse_super_class_exts
          rw [hc]
          exact ⟨st, rfl, htoks2, rfl, rfl, rfl, rfl⟩
  | n :: ns, fuel, rest, st => by
      intro hf htoks hrest
      cases fuel with
      | zero => simp at hf
      | succ f =>
          have htok : st.token = Token.KeywordExtends := by
            unfold PSt.token
            rw [htoks]
            rfl
          have hc : st.try_consume Token.KeywordExtends = (true, st.advance) := by
            unfold PSt.try_consume
            rw [if_pos htok]
          unfold parse_super_class_exts
          rw [hc]
          dsimp only
          have h1 : st.advance.token = Token.Identifier := by
            unfold PSt.token PSt.advance
            dsimp only
            rw [htoks]
            rfl
          have h2 : st.advance.slice = n := by
            unfold PSt.slice PSt.advance
            dsimp only
            rw [htoks]
            rfl
          have hid : parse_identifier st.advance =
              (some n, st.advance.advance) := by
            simp [parse_identifier, h1, h2]
          have hadv2 : st.advance.advance.toks = ns.flatMap
              (fun n => [({ kind := Token.KeywordExtends } : Tok),
                         { kind := Token.Identifier, text := n }]) ++ rest := by
            unfold PSt.advance
            dsimp only
            rw [htoks]
            rfl
          obtain ⟨stF, hrec, hA, hB, hC, hD, hE⟩ :=
            parse_super_class_exts_run ns f rest st.advance.advance
              (by simpa using hf) hadv2 hrest
          rw [hid]
          dsimp only
          rw [hrec]
          exact ⟨stF, rfl, hA, hB.trans rfl, hC.trans rfl, hD.trans rfl,
            hE.trans rfl⟩

/-- The region wrapper returns the inner parser's result unchanged. -/
theorem parse_any_in_region_result {α : Type} (closing : List Token)
    (f : PSt → α × PSt) (st : PSt) :
    (parse_any_in_region closing f st).1 = (f (st.enter_region closing)).1 := by
  unfold parse_any_in_region
  rcases heq : f (st.enter_region closing) with ⟨r, st2⟩
  simp only [heq]

/-- The scoped POU body always yields at least the main POU node. -/
theorem parse_pou_scope_body_produces (fuel : Nat) (kind : PouType)
    (linkage : LinkageType) (constant : Bool) (name : String)
    (poly_mode : Option PolymorphismMode) (generics : List GenericBinding)
    (st : PSt) :
    (parse_pou_scope_body fuel kind linkage constant name poly_mode generics
      st).1.1 ≠ [] := by
  unfold parse_pou_scope_body
  rcases h1 : parse_super_class fuel st with ⟨sup, st1⟩
  rcases h2 : parse_interface_declarations fuel st1 with ⟨ifs, st2⟩
  rcases h3 : parse_return_type fuel st2 with ⟨rt, st3⟩
  rcases h4 : parse_pou_var_blocks fuel st3 with ⟨vbs, st4⟩
  rcases h5 : parse_pou_methods_loop fuel kind name linkage ([], [], []) st4
    with ⟨⟨ips, imps, props⟩, st5⟩
  rcases h6 : parse_implementation fuel linkage kind name name
    (!generics.isEmpty) st5 with ⟨impl, st6⟩
  simp only [h1, h2, h3, h4, h5, h6]
  simp

/-- The POU region body always yields at least one POU node. -/
theorem parse_pou_inner_produces (fuel : Nat) (kind : PouType)
    (linkage : LinkageType) (constant : Bool) (st : PSt) :
    (parse_pou_inner fuel kind linkage constant st).1.1 ≠ [] := by
  unfold parse_pou_inner
  rcases hP : parse_polymorphism_mode kind st with ⟨pm, st1⟩
  rcases hI : parse_identifier st1 with ⟨nm, st2⟩
  rcases hG : parse_generics fuel st2 with ⟨gs, st3⟩
  simp only [hP, hI, hG]
  unfold with_scope
  rcases hB : parse_pou_scope_body fuel kind linkage constant (nm.getD "") pm
    gs { st3 with scope := some (nm.getD "") } with ⟨res, st4⟩
  simp only [hB]
  have := parse_pou_scope_body_produces fuel kind linkage constant (nm.getD "")
    pm gs { st3 with scope := some (nm.getD "") }
  rw [hB] at this
  exact this

/-- C5: a POU header with several `EXTENDS` clauses keeps only the first
extension as the superclass; every extension after the first produces
exactly one E114 multiple-inheritance diagnostic (and nothing else changes
in the session: the clause list is consumed and the diagnostics appended);
and independently, `parse_pou` always appends at least one POU node to the
compilation unit, so the POU is still produced. -/
theorem C5_multiple_extends_first_kept_rest_diagnosed :
    (∀ (fuel : Nat) (names : List String) (rest : List Tok) (st : PSt),
      2 ≤ names.length → names.length ≤ fuel →
      st.toks = names.flatMap
        (fun n => [({ kind := Token.KeywordExtends } : Tok),
                   { kind := Token.Identifier, text := n }]) ++ rest →
      (∀ t, rest.head? = some t → t.kind ≠ Token.KeywordExtends) →
      (parse_super_class fuel st).1 = some { name := names.headD "" } ∧
      (parse_super_class fuel st).2.diags =
        st.diags ++ List.replicate (names.length - 1)
          ((Diagnostic.new
            "Multiple inheritance. POUs can only be extended once.").with_error_code
            "E114") ∧
      (parse_super_class fuel st).2.toks = rest) ∧
    (∀ (fuel : Nat) (unit : CompilationUnit) (kind : PouType)
        (linkage : LinkageType) (endTok : Token) (constant : Bool) (st : PSt),
      unit.pous.length <
        (parse_pou fuel unit kind linkage endTok constant st).1.pous.length) := by
  constructor
  · intro fuel names rest st hlen hfuel htoks hrest
    obtain ⟨stF, hE, hA, hB, hC, hD, hF⟩ :=
      parse_super_class_exts_run names fuel rest st hfuel htoks hrest
    unfold parse_super_class
    rw [hE]
    dsimp only
    rw [foldl_accept_diagnostic]
    refine ⟨?_, ?_, ?_⟩
    · cases names with
      | nil => simp at hlen
      | cons n ns => rfl
    · dsimp only
      rw [hB]
      simp
    · exact hA
  · intro fuel unit kind linkage endTok constant st
    unfold parse_pou
    rcases hR : parse_any_in_region [endTok, Token.KeywordEndAction,
        Token.KeywordEndProgram, Token.KeywordEndFunction,
        Token.KeywordEndFunctionBlock, Token.KeywordEndClass]
        (parse_pou_inner fuel kind linkage constant)
        ((if constant ∧ linkage ≠ LinkageType.BuiltIn then
            st.accept_diagnostic Diagnostic.const_pragma_is_not_allowed
          else st).advance) with ⟨⟨pous, impls⟩, st5⟩
    simp only [hR]
    have hne : pous ≠ [] := by
      have h0 := parse_any_in_region_result [endTok, Token.KeywordEndAction,
        Token.KeywordEndProgram, Token.KeywordEndFunction,
        Token.KeywordEndFunctionBlock, Token.KeywordEndClass]
        (parse_pou_inner fuel kind linkage constant)
        ((if constant ∧ linkage ≠ LinkageType.BuiltIn then
            st.accept_diagnostic Diagnostic.const_pragma_is_not_allowed
          else st).advance)
      rw [hR] at h0
      have h1 := parse_pou_inner_produces fuel kind linkage constant
        (((if constant ∧ linkage ≠ LinkageType.BuiltIn then
            st.accept_diagnostic Diagnostic.const_pragma_is_not_allowed
          else st).advance).enter_region [endTok, Token.KeywordEndAction,
            Token.KeywordEndProgram, Token.KeywordEndFunction,
            Token.KeywordEndFunctionBlock, Token.KeywordEndClass])
      rw [← h0] at h1
      exact h1
    cases pous with
    | nil => exact absurd rfl hne
    | cons p ps => simp

/-- Witness for C5: `EXTENDS A EXTENDS B` keeps `A`, records one E114, and
leaves the following token; and `parse_pou` on a concrete state grows the
POU list. -/
theorem C5_multiple_extends_witness :
    ((parse_super_class 3
        { toks := [({ kind := Token.KeywordExtends } : Tok),
                   { kind := Token.Identifier, text := "A" },
                   { kind := Token.KeywordExtends },
                   { kind := Token.Identifier, text := "B" },
                   { kind := Token.KeywordVar }] }).1 =
        some { name := "A" } ∧
      (parse_super_class 3
        { toks := [({ kind := Token.KeywordExtends } : Tok),
                   { kind := Token.Identifier, text := "A" },
                   { kind := Token.KeywordExtends },
                   { kind := Token.Identifier, text := "B" },
                   { kind := Token.KeywordVar }] }).2.diags =
        [(Diagnostic.new
          "Multiple inheritance. POUs can only be extended once.").with_error_code
          "E114"] ∧
      (parse_super_class 3
        { toks := [({ kind := Token.KeywordExtends } : Tok),
                   { kind := Token.Identifier, text := "A" },
                   { kind := Token.KeywordExtends },
                   { kind := Token.Identifier, text := "B" },
                   { kind := Token.KeywordVar }] }).2.toks =
        [{ kind := Token.KeywordVar }]) ∧
    ({} : CompilationUnit).pous.length <
      (parse_pou 8 {} PouType.Function LinkageType.Internal
        Token.KeywordEndFunction false
        { toks := [{ kind := Token.Identifier, text := "f" }] }).1.pous.length :=
  ⟨C5_multiple_extends_first_kept_rest_diagnosed.1 3 ["A", "B"]
      [{ kind := Token.KeywordVar }]
      { toks := [({ kind := Token.KeywordExtends } : Tok),
                 { kind := Token.Identifier, text := "A" },
                 { kind := Token.KeywordExtends },
                 { kind := Token.Identifier, text := "B" },
                 { kind := Token.KeywordVar }] }
      (by decide) (by decide) rfl
      (by
        intro t ht
        simp at ht
        subst ht
        decide),
    C5_multiple_extends_first_kept_rest_diagnosed.2 8 {} PouType.Function
      LinkageType.Internal Token.KeywordEndFunction false
      { toks := [{ kind := Token.Identifier, text := "f" }] }⟩

/-- C1: in a type-reference type definition whose identifier is followed by
a parenthesized expression (so bounds are present and the defined/derived
condition holds whatever `name` is), the resulting `DataType` variant is a
function of the already-parsed expression's syntactic shape alone: an
expression list yields an enum over exactly those elements, a lone
member-reference expression yields an enum over that single reference, and
any other shape yields a subrange with that expression as its bounds — the
tokens after the closing parenthesis (beyond the optional initializer
machinery) and the remaining input `rest` do not influence the choice. -/
theorem C1_type_reference_variant_from_expression_shape
    (fuel : Nat) (name : Option String) (tyName : String) (rest : List Tok)
    (st st1 : PSt) (e : AstNode)
    (htoks : st.toks = ({ kind := Token.Identifier, text := tyName } : Tok) ::
      ({ kind := Token.KeywordParensOpen } : Tok) :: rest)
    (hE : parse_expression fuel st.advance.advance = (e, st1))
    (hclose : st1.token = Token.KeywordParensClose) :
    ∃ (initial_value : Option AstNode) (sc : Option String) (stF : PSt),
      parse_type_reference_type_definition fuel name st =
        (some (DataTypeDeclaration.Definition
          (match e with
           | .mk i (.ExpressionList es) =>
               DataType.EnumType name tyName (.mk i (.ExpressionList es))
           | .mk i (.ReferenceExpr (.Member m) b) =>
               DataType.EnumType name tyName (.mk i (.ReferenceExpr (.Member m) b))
           | _ => DataType.SubRangeType name tyName (some e)) sc,
          initial_value), stF) := by
  have hslice : st.slice = tyName := by
    unfold PSt.slice
    rw [htoks]
  have htok1 : st.advance.token = Token.KeywordParensOpen := by
    unfold PSt.token PSt.advance
    dsimp only
    rw [htoks]
    rfl
  have hc : st.advance.try_consume Token.KeywordParensOpen =
      (true, st.advance.advance) := by
    unfold PSt.try_consume
    rw [if_pos htok1]
  unfold parse_type_reference_type_definition
  simp only [PSt.slice_and_advance]
  simp only [hslice, hc]
  simp only [hE]
  rw [if_pos hclose]
  dsimp only
  rcases hA : st1.advance.try_consume Token.KeywordAssignment with ⟨b1, s2⟩
  try simp only [hA]
  cases b1 with
  | true =>
      rcases hE2 : parse_expression fuel s2 with ⟨e2, s3⟩
      try simp only [hE2]
      rw [if_pos (by simp)]
      cases e with
      | mk i stmt =>
          cases stmt <;>
            first
              | exact ⟨_, _, _, rfl⟩
              | (rename_i acc b
                 cases acc <;> exact ⟨_, _, _, rfl⟩)
  | false =>
      rcases hR : s2.try_consume Token.KeywordReferenceAssignment with ⟨b2, s3⟩
      try simp only [hR]
      cases b2 with
      | true =>
          rcases hE2 : parse_expression fuel s3 with ⟨e2, s4⟩
          try simp only [hE2]
          rw [if_pos (by simp)]
          cases e with
          | mk i stmt =>
              cases stmt <;>
                first
                  | exact ⟨_, _, _, rfl⟩
                  | (rename_i acc b
                     cases acc <;> exact ⟨_, _, _, rfl⟩)
      | false =>
          rw [if_pos (by simp)]
          cases e with
          | mk i stmt =>
              cases stmt <;>
                first
                  | exact ⟨_, _, _, rfl⟩
                  | (rename_i acc b
                     cases acc <;> exact ⟨_, _, _, rfl⟩)

/-- Witness for C1: `INT (RED)` with a defined name — the parenthesized
expression's shape picks the variant. -/
theorem C1_type_reference_variant_witness :
    ∃ (initial_value : Option AstNode) (sc : Option String) (stF : PSt),
      parse_type_reference_type_definition 10 (some "T")
        { toks := [({ kind := Token.Identifier, text := "INT" } : Tok),
                   { kind := Token.KeywordParensOpen },
                   { kind := Token.Identifier, text := "RED" },
                   { kind := Token.KeywordParensClose }] } =
        (some (DataTypeDeclaration.Definition
          (match (parse_expression 10
              ({ toks := [({ kind := Token.Identifier, text := "INT" } : Tok),
                          { kind := Token.KeywordParensOpen },
                          { kind := Token.Identifier, text := "RED" },
                          { kind := Token.KeywordParensClose }] } :
                PSt).advance.advance).1 with
           | .mk i (.ExpressionList es) =>
               DataType.EnumType (some "T") "INT" (.mk i (.ExpressionList es))
           | .mk i (.ReferenceExpr (.Member m) b) =>
               DataType.EnumType (some "T") "INT"
                 (.mk i (.ReferenceExpr (.Member m) b))
           | _ => DataType.SubRangeType (some "T") "INT"
               (some (parse_expression 10
                 ({ toks := [({ kind := Token.Identifier, text := "INT" } : Tok),
                             { kind := Token.KeywordParensOpen },
                             { kind := Token.Identifier, text := "RED" },
                             { kind := Token.KeywordParensClose }] } :
                   PSt).advance.advance).1)) sc,
          initial_value), stF) :=
  C1_type_reference_variant_from_expression_shape 10 (some "T") "INT"
    [{ kind := Token.Identifier, text := "RED" },
     { kind := Token.KeywordParensClose }]
    { toks := [({ kind := Token.Identifier, text := "INT" } : Tok),
               { kind := Token.KeywordParensOpen },
               { kind := Token.Identifier, text := "RED" },
               { kind := Token.KeywordParensClose }] }
    (parse_expression 10
      ({ toks := [({ kind := Token.Identifier, text := "INT" } : Tok),
                  { kind := Token.KeywordParensOpen },
                  { kind := Token.Identifier, text := "RED" },
                  { kind := Token.KeywordParensClose }] } :
        PSt).advance.advance).2
    (parse_expression 10
      ({ toks := [({ kind := Token.Identifier, text := "INT" } : Tok),
                  { kind := Token.KeywordParensOpen },
                  { kind := Token.Identifier, text := "RED" },
                  { kind := Token.KeywordParensClose }] } :
        PSt).advance.advance).1
    rfl rfl rfl

/-- A diagnostic present in the log stays present in any later state of the
same parse. -/
theorem Evolves.mem_diags {st st' : PSt} (h : Evolves st st') {d : Diagnostic}
    (hd : d ∈ st.diags) : d ∈ st'.diags :=
  h.1.subset hd

/-- C7: `parse_property` returns no node exactly when the property's name or
its datatype is missing; in that case the corresponding missing-name /
missing-datatype diagnostics are in the log when the empty result is
returned; and when both are present the returned node is a `PropertyBlock`
with that name and datatype. -/
theorem C7_parse_property_none_iff_missing_name_or_datatype
    (fuel : Nat) (st st1 st2 : PSt) (identOpt : Option String)
    (dtOpt : Option DataTypeDeclaration)
    (hIdent : parse_identifier st.advance = (identOpt, st1))
    (hDt : parse_return_type fuel
      (match identOpt with
       | none => st1.accept_diagnostic
           (Diagnostic.new "Property definition is missing a name")
       | some _ => st1) = (dtOpt, st2)) :
    ((parse_property fuel st).1 = none ↔ (identOpt = none ∨ dtOpt = none)) ∧
    (identOpt = none →
      Diagnostic.new "Property definition is missing a name" ∈
        (parse_property fuel st).2.diags) ∧
    (dtOpt = none →
      Diagnostic.new "Property definition is missing a datatype" ∈
        (parse_property fuel st).2.diags) ∧
    (∀ (nm : String) (dt : DataTypeDeclaration),
      identOpt = some nm → dtOpt = some dt →
      ∃ impls, (parse_property fuel st).1 =
        some { ident := { name := nm }, datatype := dt,
               implementations := impls }) := by
  unfold parse_property
  simp only [hIdent]
  cases identOpt with
  | none =>
      dsimp only
      dsimp only at hDt
      simp only [hDt]
      cases dtOpt with
      | none =>
          dsimp only
          rcases hI2 : parse_property_implementations fuel
            (parse_property_var_blocks_illegal fuel
              (st2.accept_diagnostic
                (Diagnostic.new "Property definition is missing a datatype")))
            with ⟨impls, st5⟩
          try simp only [hI2]
          try dsimp only
          have e1 : Evolves (st1.accept_diagnostic
              (Diagnostic.new "Property definition is missing a name")) st2 :=
            evolves_of_run (evolves_parse_return_type fuel) hDt
          have e2 := e1.trans (evolves_accept_diagnostic st2
            (Diagnostic.new "Property definition is missing a datatype"))
          have e3 := e2.trans (evolves_parse_property_var_blocks_illegal fuel
            (st2.accept_diagnostic
              (Diagnostic.new "Property definition is missing a datatype")))
          have e4 := e3.trans
            (evolves_of_run (evolves_parse_property_implementations fuel) hI2)
          have e5 := e4.trans
            (evolves_try_consume_or_report st5 Token.KeywordEndProperty)
          have e2b : Evolves (st2.accept_diagnostic
              (Diagnostic.new "Property definition is missing a datatype"))
              (st5.try_consume_or_report Token.KeywordEndProperty) :=
            (evolves_parse_property_var_blocks_illegal fuel
              (st2.accept_diagnostic
                (Diagnostic.new "Property definition is missing a datatype"))).trans
              ((evolves_of_run (evolves_parse_property_implementations fuel)
                hI2).trans
                (evolves_try_consume_or_report st5 Token.KeywordEndProperty))
          refine ⟨by simp, ?_, ?_, ?_⟩
          · intro _
            exact e5.mem_diags (by simp [PSt.accept_diagnostic])
          · intro _
            exact e2b.mem_diags (by simp [PSt.accept_diagnostic])
          · intro nm dt h1 h2
            cases h1
      | some dt =>
          dsimp only
          rcases hI2 : parse_property_implementations fuel
            (parse_property_var_blocks_illegal fuel st2) with ⟨impls, st5⟩
          try simp only [hI2]
          try dsimp only
          have e1 : Evolves (st1.accept_diagnostic
              (Diagnostic.new "Property definition is missing a name")) st2 :=
            evolves_of_run (evolves_parse_return_type fuel) hDt
          have e3 := e1.trans
            (evolves_parse_property_var_blocks_illegal fuel st2)
          have e4 := e3.trans
            (evolves_of_run (evolves_parse_property_implementations fuel) hI2)
          have e5 := e4.trans
            (evolves_try_consume_or_report st5 Token.KeywordEndProperty)
          refine ⟨by simp, ?_, ?_, ?_⟩
          · intro _
            exact e5.mem_diags (by simp [PSt.accept_diagnostic])
          · intro h
            cases h
          · intro nm dt2 h1 h2
            cases h1
  | some nm =>
      dsimp only
      dsimp only at hDt
      simp only [hDt]
      cases dtOpt with
      | none =>
          dsimp only
          rcases hI2 : parse_property_implementations fuel
            (parse_property_var_blocks_illegal fuel
              (st2.accept_diagnostic
                (Diagnostic.new "Property definition is missing a datatype")))
            with ⟨impls, st5⟩
          try simp only [hI2]
          try dsimp only
          have e2b : Evolves (st2.accept_diagnostic
              (Diagnostic.new "Property definition is missing a datatype"))
              (st5.try_consume_or_report Token.KeywordEndProperty) :=
            (evolves_parse_property_var_blocks_illegal fuel
              (st2.accept_diagnostic
                (Diagnostic.new "Property definition is missing a datatype"))).trans
              ((evolves_of_run (evolves_parse_property_implementations fuel)
                hI2).trans
                (evolves_try_consume_or_report st5 Token.KeywordEndProperty))
          refine ⟨by simp, ?_, ?_, ?_⟩
          · intro h
            cases h
          · intro _
            exact e2b.mem_diags (by simp [PSt.accept_diagnostic])
          · intro nm2 dt h1 h2
            cases h2
      | some dt =>
          dsimp only
          rcases hI2 : parse_property_implementations fuel
            (parse_property_var_blocks_illegal fuel st2) with ⟨impls, st5⟩
          try simp only [hI2]
          try dsimp only
          refine ⟨by simp, ?_, ?_, ?_⟩
          · intro h
            cases h
          · intro h
            cases h
          · intro nm2 dt2 h1 h2
            injection h1 with h1
            injection h2 with h2
            subst h1
            subst h2
            exact ⟨impls, rfl⟩

/-- Witness for C7: a `PROPERTY` with neither name nor datatype. -/
theorem C7_parse_property_witness :
    (((parse_property 10 ({ toks := [({ kind := Token.KeywordProperty } : Tok), { kind := Token.KeywordEndProperty }] } : PSt)).1 = none ↔
      ((parse_identifier ({ toks := [({ kind := Token.KeywordProperty } : Tok), { kind := Token.KeywordEndProperty }] } : PSt).advance).1 = none ∨ (parse_return_type 10 (match (parse_identifier ({ toks := [({ kind := Token.KeywordProperty } : Tok), { kind := Token.KeywordEndProperty }] } : PSt).advance).1 with
        | none => (parse_identifier ({ toks := [({ kind := Token.KeywordProperty } : Tok), { kind := Token.KeywordEndProperty }] } : PSt).advance).2.accept_diagnostic
            (Diagnostic.new "Property definition is missing a name")
        | some _ => (parse_identifier ({ toks := [({ kind := Token.KeywordProperty } : Tok), { kind := Token.KeywordEndProperty }] } : PSt).advance).2)).1 = none)) ∧
    ((parse_identifier ({ toks := [({ kind := Token.KeywordProperty } : Tok), { kind := Token.KeywordEndProperty }] } : PSt).advance).1 = none →
      Diagnostic.new "Property definition is missing a name" ∈
        (parse_property 10 ({ toks := [({ kind := Token.KeywordProperty } : Tok), { kind := Token.KeywordEndProperty }] } : PSt)).2.diags) ∧
    ((parse_return_type 10 (match (parse_identifier ({ toks := [({ kind := Token.KeywordProperty } : Tok), { kind := Token.KeywordEndProperty }] } : PSt).advance).1 with
        | none => (parse_identifier ({ toks := [({ kind := Token.KeywordProperty } : Tok), { kind := Token.KeywordEndProperty }] } : PSt).advance).2.accept_diagnostic
            (Diagnostic.new "Property definition is missing a name")
        | some _ => (parse_identifier ({ toks := [({ kind := Token.KeywordProperty } : Tok), { kind := Token.KeywordEndProperty }] } : PSt).advance).2)).1 = none →
      Diagnostic.new "Property definition is missing a datatype" ∈
        (parse_property 10 ({ toks := [({ kind := Token.KeywordProperty } : Tok), { kind := Token.KeywordEndProperty }] } : PSt)).2.diags) ∧
    (∀ (nm : String) (dt : DataTypeDeclaration),
      (parse_identifier ({ toks := [({ kind := Token.KeywordProperty } : Tok), { kind := Token.KeywordEndProperty }] } : PSt).advance).1 = some nm → (parse_return_type 10 (match (parse_identifier ({ toks := [({ kind := Token.KeywordProperty } : Tok), { kind := Token.KeywordEndProperty }] } : PSt).advance).1 with
        | none => (parse_identifier ({ toks := [({ kind := Token.KeywordProperty } : Tok), { kind := Token.KeywordEndProperty }] } : PSt).advance).2.accept_diagnostic
            (Diagnostic.new "Property definition is missing a name")
        | some _ => (parse_identifier ({ toks := [({ kind := Token.KeywordProperty } : Tok), { kind := Token.KeywordEndProperty }] } : PSt).advance).2)).1 = some dt →
      ∃ impls, (parse_property 10 ({ toks := [({ kind := Token.KeywordProperty } : Tok), { kind := Token.KeywordEndProperty }] } : PSt)).1 =
        some { ident := { name := nm }, datatype := dt,
               implementations := impls })) :=
  C7_parse_property_none_iff_missing_name_or_datatype 10 ({ toks := [({ kind := Token.KeywordProperty } : Tok), { kind := Token.KeywordEndProperty }] } : PSt)
    (parse_identifier ({ toks := [({ kind := Token.KeywordProperty } : Tok), { kind := Token.KeywordEndProperty }] } : PSt).advance).2 (parse_return_type 10 (match (parse_identifier ({ toks := [({ kind := Token.KeywordProperty } : Tok), { kind := Token.KeywordEndProperty }] } : PSt).advance).1 with
        | none => (parse_identifier ({ toks := [({ kind := Token.KeywordProperty } : Tok), { kind := Token.KeywordEndProperty }] } : PSt).advance).2.accept_diagnostic
            (Diagnostic.new "Property definition is missing a name")
        | some _ => (parse_identifier ({ toks := [({ kind := Token.KeywordProperty } : Tok), { kind := Token.KeywordEndProperty }] } : PSt).advance).2)).2 (parse_identifier ({ toks := [({ kind := Token.KeywordProperty } : Tok), { kind := Token.KeywordEndProperty }] } : PSt).advance).1 (parse_return_type 10 (match (parse_identifier ({ toks := [({ kind := Token.KeywordProperty } : Tok), { kind := Token.KeywordEndProperty }] } : PSt).advance).1 with
        | none => (parse_identifier ({ toks := [({ kind := Token.KeywordProperty } : Tok), { kind := Token.KeywordEndProperty }] } : PSt).advance).2.accept_diagnostic
            (Diagnostic.new "Property definition is missing a name")
        | some _ => (parse_identifier ({ toks := [({ kind := Token.KeywordProperty } : Tok), { kind := Token.KeywordEndProperty }] } : PSt).advance).2)).1 rfl rfl

/-- C8: in `parse_variable_block`, the parsed variable list is passed
through the default-initializer pass exactly when the block carries the
`CONSTANT` modifier and its kind is not External — otherwise it is kept
as parsed; and the pass itself relates input to output pointwise: each
variable keeps its name, declared type and address, a variable with an
explicit initializer keeps it unchanged, and a variable without one
receives a synthetic default-value initializer. -/
theorem C8_constant_block_default_initializers
    (fuel : Nat) (linkage : LinkageType) (st st1 st2 st3 st4 st5 st6 : PSt)
    (kind : VariableBlockType) (constant retain : Bool)
    (access : AccessModifier) (vars : List Variable)
    (h1 : parse_variable_block_type st = (kind, st1))
    (h2 : st1.try_consume Token.KeywordConstant = (constant, st2))
    (h3 : st2.try_consume Token.KeywordRetain = (retain, st3))
    (h4 : (st3.try_consume Token.KeywordNonRetain).2 = st4)
    (h5 : parse_access_modifier st4 = (access, st5))
    (h6 : parse_any_in_region [Token.KeywordEndVar] (parse_variable_list fuel)
      st5 = (vars, st6)) :
    ((parse_variable_block fuel linkage st).1 =
      { access := access, constant := constant, retain := retain,
        vars := if constant ∧ kind ≠ VariableBlockType.External then
            (fill_constant_defaults vars st6).1
          else vars,
        kind := kind, linkage := linkage }) ∧
    (∀ (l : List Variable) (s : PSt),
      List.Forall₂ (fun v w : Variable =>
        w.name = v.name ∧
        w.data_type_declaration = v.data_type_declaration ∧
        w.address = v.address ∧
        (match v.initializer with
         | some x => w.initializer = some x
         | none => ∃ i, w.initializer =
             some (AstNode.mk i AstStmt.DefaultValue)))
        l (fill_constant_defaults l s).1) := by
  constructor
  · unfold parse_variable_block
    simp only [h1, h2, h3, h4, h5, h6]
    by_cases hcond : constant = true ∧ kind ≠ VariableBlockType.External
    · rw [if_pos hcond, if_pos hcond]
    · rw [if_neg hcond, if_neg hcond]
  · intro l
    induction l with
    | nil => intro s; exact List.Forall₂.nil
    | cons v rest ih =>
        intro s
        unfold fill_constant_defaults
        rcases hv : v with ⟨nm, dtd, init, addr⟩
        cases init with
        | none =>
            dsimp only [Variable.initializer]
            rcases hT : fill_constant_defaults rest
              { s with idCounter := s.idCounter + 1 } with ⟨tl, s2⟩
            simp only [PSt.next_id, hT]
            refine List.Forall₂.cons ⟨rfl, rfl, rfl, ?_⟩ ?_
            · exact ⟨s.idCounter, rfl⟩
            · have := ih { s with idCounter := s.idCounter + 1 }
              rw [hT] at this
              exact this
        | some x =>
            dsimp only [Variable.initializer]
            rcases hT : fill_constant_defaults rest s with ⟨tl, s2⟩
            simp only [hT]
            refine List.Forall₂.cons ⟨rfl, rfl, rfl, rfl⟩ ?_
            have := ih s
            rw [hT] at this
            exact this

/-- Witness for C8: a concrete `VAR CONSTANT` block, and the fill pass on a
concrete two-variable list. -/
theorem C8_constant_block_witness :
    ((parse_variable_block 20 LinkageType.Internal ({ toks := [({ kind := Token.KeywordVar } : Tok), { kind := Token.KeywordConstant }, { kind := Token.Identifier, text := "x" }, { kind := Token.KeywordColon }, { kind := Token.Identifier, text := "INT" }, { kind := Token.KeywordSemicolon }, { kind := Token.KeywordEndVar }] } : PSt)).1 =
      { access := (parse_access_modifier ((((parse_variable_block_type ({ toks := [({ kind := Token.KeywordVar } : Tok), { kind := Token.KeywordConstant }, { kind := Token.Identifier, text := "x" }, { kind := Token.KeywordColon }, { kind := Token.Identifier, text := "INT" }, { kind := Token.KeywordSemicolon }, { kind := Token.KeywordEndVar }] } : PSt)).2.try_consume Token.KeywordConstant).2.try_consume Token.KeywordRetain).2.try_consume Token.KeywordNonRetain).2).1, constant := ((parse_variable_block_type ({ toks := [({ kind := Token.KeywordVar } : Tok), { kind := Token.KeywordConstant }, { kind := Token.Identifier, text := "x" }, { kind := Token.KeywordColon }, { kind := Token.Identifier, text := "INT" }, { kind := Token.KeywordSemicolon }, { kind := Token.KeywordEndVar }] } : PSt)).2.try_consume Token.KeywordConstant).1, retain := (((parse_variable_block_type ({ toks := [({ kind := Token.KeywordVar } : Tok), { kind := Token.KeywordConstant }, { kind := Token.Identifier, text := "x" }, { kind := Token.KeywordColon }, { kind := Token.Identifier, text := "INT" }, { kind := Token.KeywordSemicolon }, { kind := Token.KeywordEndVar }] } : PSt)).2.try_consume Token.KeywordConstant).2.try_consume Token.KeywordRetain).1,
        vars := if ((parse_variable_block_type ({ toks := [({ kind := Token.KeywordVar } : Tok), { kind := Token.KeywordConstant }, { kind := Token.Identifier, text := "x" }, { kind := Token.KeywordColon }, { kind := Token.Identifier, text := "INT" }, { kind := Token.KeywordSemicolon }, { kind := Token.KeywordEndVar }] } : PSt)).2.try_consume Token.KeywordConstant).1 ∧ (parse_variable_block_type ({ toks := [({ kind := Token.KeywordVar } : Tok), { kind := Token.KeywordConstant }, { kind := Token.Identifier, text := "x" }, { kind := Token.KeywordColon }, { kind := Token.Identifier, text := "INT" }, { kind := Token.KeywordSemicolon }, { kind := Token.KeywordEndVar }] } : PSt)).1 ≠ VariableBlockType.External then
            (fill_constant_defaults (parse_any_in_region [Token.KeywordEndVar] (parse_variable_list 20) (parse_access_modifier ((((parse_variable_block_type ({ toks := [({ kind := Token.KeywordVar } : Tok), { kind := Token.KeywordConstant }, { kind := Token.Identifier, text := "x" }, { kind := Token.KeywordColon }, { kind := Token.Identifier, text := "INT" }, { kind := Token.KeywordSemicolon }, { kind := Token.KeywordEndVar }] } : PSt)).2.try_consume Token.KeywordConstant).2.try_consume Token.KeywordRetain).2.try_consume Token.KeywordNonRetain).2).2).1 (parse_any_in_region [Token.KeywordEndVar] (parse_variable_list 20) (parse_access_modifier ((((parse_variable_block_type ({ toks := [({ kind := Token.KeywordVar } : Tok), { kind := Token.KeywordConstant }, { kind := Token.Identifier, text := "x" }, { kind := Token.KeywordColon }, { kind := Token.Identifier, text := "INT" }, { kind := Token.KeywordSemicolon }, { kind := Token.KeywordEndVar }] } : PSt)).2.try_consume Token.KeywordConstant).2.try_consume Token.KeywordRetain).2.try_consume Token.KeywordNonRetain).2).2).2).1
          else (parse_any_in_region [Token.KeywordEndVar] (parse_variable_list 20) (parse_access_modifier ((((parse_variable_block_type ({ toks := [({ kind := Token.KeywordVar } : Tok), { kind := Token.KeywordConstant }, { kind := Token.Identifier, text := "x" }, { kind := Token.KeywordColon }, { kind := Token.Identifier, text := "INT" }, { kind := Token.KeywordSemicolon }, { kind := Token.KeywordEndVar }] } : PSt)).2.try_consume Token.KeywordConstant).2.try_consume Token.KeywordRetain).2.try_consume Token.KeywordNonRetain).2).2).1,
        kind := (parse_variable_block_type ({ toks := [({ kind := Token.KeywordVar } : Tok), { kind := Token.KeywordConstant }, { kind := Token.Identifier, text := "x" }, { kind := Token.KeywordColon }, { kind := Token.Identifier, text := "INT" }, { kind := Token.KeywordSemicolon }, { kind := Token.KeywordEndVar }] } : PSt)).1, linkage := LinkageType.Internal }) ∧
    List.Forall₂ (fun v w : Variable =>
        w.name = v.name ∧
        w.data_type_declaration = v.data_type_declaration ∧
        w.address = v.address ∧
        (match v.initializer with
         | some x => w.initializer = some x
         | none => ∃ i, w.initializer =
             some (AstNode.mk i AstStmt.DefaultValue)))
      [Variable.mk "a" (DataTypeDeclaration.Reference "INT") none none, Variable.mk "b" (DataTypeDeclaration.Reference "INT") (some (AstNode.mk 0 (AstStmt.LiteralInteger 5))) none]
      (fill_constant_defaults [Variable.mk "a" (DataTypeDeclaration.Reference "INT") none none, Variable.mk "b" (DataTypeDeclaration.Reference "INT") (some (AstNode.mk 0 (AstStmt.LiteralInteger 5))) none] ({ toks := [] } : PSt)).1 :=
  ⟨(C8_constant_block_default_initializers 20 LinkageType.Internal ({ toks := [({ kind := Token.KeywordVar } : Tok), { kind := Token.KeywordConstant }, { kind := Token.Identifier, text := "x" }, { kind := Token.KeywordColon }, { kind := Token.Identifier, text := "INT" }, { kind := Token.KeywordSemicolon }, { kind := Token.KeywordEndVar }] } : PSt)
      (parse_variable_block_type ({ toks := [({ kind := Token.KeywordVar } : Tok), { kind := Token.KeywordConstant }, { kind := Token.Identifier, text := "x" }, { kind := Token.KeywordColon }, { kind := Token.Identifier, text := "INT" }, { kind := Token.KeywordSemicolon }, { kind := Token.KeywordEndVar }] } : PSt)).2 ((parse_variable_block_type ({ toks := [({ kind := Token.KeywordVar } : Tok), { kind := Token.KeywordConstant }, { kind := Token.Identifier, text := "x" }, { kind := Token.KeywordColon }, { kind := Token.Identifier, text := "INT" }, { kind := Token.KeywordSemicolon }, { kind := Token.KeywordEndVar }] } : PSt)).2.try_consume Token.KeywordConstant).2 (((parse_variable_block_type ({ toks := [({ kind := Token.KeywordVar } : Tok), { kind := Token.KeywordConstant }, { kind := Token.Identifier, text := "x" }, { kind := Token.KeywordColon }, { kind := Token.Identifier, text := "INT" }, { kind := Token.KeywordSemicolon }, { kind := Token.KeywordEndVar }] } : PSt)).2.try_consume Token.KeywordConstant).2.try_consume Token.KeywordRetain).2 ((((parse_variable_block_type ({ toks := [({ kind := Token.KeywordVar } : Tok), { kind := Token.KeywordConstant }, { kind := Token.Identifier, text := "x" }, { kind := Token.KeywordColon }, { kind := Token.Identifier, text := "INT" }, { kind := Token.KeywordSemicolon }, { kind := Token.KeywordEndVar }] } : PSt)).2.try_consume Token.KeywordConstant).2.try_consume Token.KeywordRetain).2.try_consume Token.KeywordNonRetain).2 (parse_access_modifier ((((parse_variable_block_type ({ toks := [({ kind := Token.KeywordVar } : Tok), { kind := Token.KeywordConstant }, { kind := Token.Identifier, text := "x" }, { kind := Token.KeywordColon }, { kind := Token.Identifier, text := "INT" }, { kind := Token.KeywordSemicolon }, { kind := Token.KeywordEndVar }] } : PSt)).2.try_consume Token.KeywordConstant).2.try_consume Token.KeywordRetain).2.try_consume Token.KeywordNonRetain).2).2 (parse_any_in_region [Token.KeywordEndVar] (parse_variable_list 20) (parse_access_modifier ((((parse_variable_block_type ({ toks := [({ kind := Token.KeywordVar } : Tok), { kind := Token.KeywordConstant }, { kind := Token.Identifier, text := "x" }, { kind := Token.KeywordColon }, { kind := Token.Identifier, text := "INT" }, { kind := Token.KeywordSemicolon }, { kind := Token.KeywordEndVar }] } : PSt)).2.try_consume Token.KeywordConstant).2.try_consume Token.KeywordRetain).2.try_consume Token.KeywordNonRetain).2).2).2
      (parse_variable_block_type ({ toks := [({ kind := Token.KeywordVar } : Tok), { kind := Token.KeywordConstant }, { kind := Token.Identifier, text := "x" }, { kind := Token.KeywordColon }, { kind := Token.Identifier, text := "INT" }, { kind := Token.KeywordSemicolon }, { kind := Token.KeywordEndVar }] } : PSt)).1 ((parse_variable_block_type ({ toks := [({ kind := Token.KeywordVar } : Tok), { kind := Token.KeywordConstant }, { kind := Token.Identifier, text := "x" }, { kind := Token.KeywordColon }, { kind := Token.Identifier, text := "INT" }, { kind := Token.KeywordSemicolon }, { kind := Token.KeywordEndVar }] } : PSt)).2.try_consume Token.KeywordConstant).1 (((parse_variable_block_type ({ toks := [({ kind := Token.KeywordVar } : Tok), { kind := Token.KeywordConstant }, { kind := Token.Identifier, text := "x" }, { kind := Token.KeywordColon }, { kind := Token.Identifier, text := "INT" }, { kind := Token.KeywordSemicolon }, { kind := Token.KeywordEndVar }] } : PSt)).2.try_consume Token.KeywordConstant).2.try_consume Token.KeywordRetain).1 (parse_access_modifier ((((parse_variable_block_type ({ toks := [({ kind := Token.KeywordVar } : Tok), { kind := Token.KeywordConstant }, { kind := Token.Identifier, text := "x" }, { kind := Token.KeywordColon }, { kind := Token.Identifier, text := "INT" }, { kind := Token.KeywordSemicolon }, { kind := Token.KeywordEndVar }] } : PSt)).2.try_consume Token.KeywordConstant).2.try_consume Token.KeywordRetain).2.try_consume Token.KeywordNonRetain).2).1 (parse_any_in_region [Token.KeywordEndVar] (parse_variable_list 20) (parse_access_modifier ((((parse_variable_block_type ({ toks := [({ kind := Token.KeywordVar } : Tok), { kind := Token.KeywordConstant }, { kind := Token.Identifier, text := "x" }, { kind := Token.KeywordColon }, { kind := Token.Identifier, text := "INT" }, { kind := Token.KeywordSemicolon }, { kind := Token.KeywordEndVar }] } : PSt)).2.try_consume Token.KeywordConstant).2.try_consume Token.KeywordRetain).2.try_consume Token.KeywordNonRetain).2).2).1
      rfl rfl rfl rfl rfl rfl).1,
    (C8_constant_block_default_initializers 20 LinkageType.Internal ({ toks := [({ kind := Token.KeywordVar } : Tok), { kind := Token.KeywordConstant }, { kind := Token.Identifier, text := "x" }, { kind := Token.KeywordColon }, { kind := Token.Identifier, text := "INT" }, { kind := Token.KeywordSemicolon }, { kind := Token.KeywordEndVar }] } : PSt)
      (parse_variable_block_type ({ toks := [({ kind := Token.KeywordVar } : Tok), { kind := Token.KeywordConstant }, { kind := Token.Identifier, text := "x" }, { kind := Token.KeywordColon }, { kind := Token.Identifier, text := "INT" }, { kind := Token.KeywordSemicolon }, { kind := Token.KeywordEndVar }] } : PSt)).2 ((parse_variable_block_type ({ toks := [({ kind := Token.KeywordVar } : Tok), { kind := Token.KeywordConstant }, { kind := Token.Identifier, text := "x" }, { kind := Token.KeywordColon }, { kind := Token.Identifier, text := "INT" }, { kind := Token.KeywordSemicolon }, { kind := Token.KeywordEndVar }] } : PSt)).2.try_consume Token.KeywordConstant).2 (((parse_variable_block_type ({ toks := [({ kind := Token.KeywordVar } : Tok), { kind := Token.KeywordConstant }, { kind := Token.Identifier, text := "x" }, { kind := Token.KeywordColon }, { kind := Token.Identifier, text := "INT" }, { kind := Token.KeywordSemicolon }, { kind := Token.KeywordEndVar }] } : PSt)).2.try_consume Token.KeywordConstant).2.try_consume Token.KeywordRetain).2 ((((parse_variable_block_type ({ toks := [({ kind := Token.KeywordVar } : Tok), { kind := Token.KeywordConstant }, { kind := Token.Identifier, text := "x" }, { kind := Token.KeywordColon }, { kind := Token.Identifier, text := "INT" }, { kind := Token.KeywordSemicolon }, { kind := Token.KeywordEndVar }] } : PSt)).2.try_consume Token.KeywordConstant).2.try_consume Token.KeywordRetain).2.try_consume Token.KeywordNonRetain).2 (parse_access_modifier ((((parse_variable_block_type ({ toks := [({ kind := Token.KeywordVar } : Tok), { kind := Token.KeywordConstant }, { kind := Token.Identifier, text := "x" }, { kind := Token.KeywordColon }, { kind := Token.Identifier, text := "INT" }, { kind := Token.KeywordSemicolon }, { kind := Token.KeywordEndVar }] } : PSt)).2.try_consume Token.KeywordConstant).2.try_consume Token.KeywordRetain).2.try_consume Token.KeywordNonRetain).2).2 (parse_any_in_region [Token.KeywordEndVar] (parse_variable_list 20) (parse_access_modifier ((((parse_variable_block_type ({ toks := [({ kind := Token.KeywordVar } : Tok), { kind := Token.KeywordConstant }, { kind := Token.Identifier, text := "x" }, { kind := Token.KeywordColon }, { kind := Token.Identifier, text := "INT" }, { kind := Token.KeywordSemicolon }, { kind := Token.KeywordEndVar }] } : PSt)).2.try_consume Token.KeywordConstant).2.try_consume Token.KeywordRetain).2.try_consume Token.KeywordNonRetain).2).2).2
      (parse_variable_block_type ({ toks := [({ kind := Token.KeywordVar } : Tok), { kind := Token.KeywordConstant }, { kind := Token.Identifier, text := "x" }, { kind := Token.KeywordColon }, { kind := Token.Identifier, text := "INT" }, { kind := Token.KeywordSemicolon }, { kind := Token.KeywordEndVar }] } : PSt)).1 ((parse_variable_block_type ({ toks := [({ kind := Token.KeywordVar } : Tok), { kind := Token.KeywordConstant }, { kind := Token.Identifier, text := "x" }, { kind := Token.KeywordColon }, { kind := Token.Identifier, text := "INT" }, { kind := Token.KeywordSemicolon }, { kind := Token.KeywordEndVar }] } : PSt)).2.try_consume Token.KeywordConstant).1 (((parse_variable_block_type ({ toks := [({ kind := Token.KeywordVar } : Tok), { kind := Token.KeywordConstant }, { kind := Token.Identifier, text := "x" }, { kind := Token.KeywordColon }, { kind := Token.Identifier, text := "INT" }, { kind := Token.KeywordSemicolon }, { kind := Token.KeywordEndVar }] } : PSt)).2.try_consume Token.KeywordConstant).2.try_consume Token.KeywordRetain).1 (parse_access_modifier ((((parse_variable_block_type ({ toks := [({ kind := Token.KeywordVar } : Tok), { kind := Token.KeywordConstant }, { kind := Token.Identifier, text := "x" }, { kind := Token.KeywordColon }, { kind := Token.Identifier, text := "INT" }, { kind := Token.KeywordSemicolon }, { kind := Token.KeywordEndVar }] } : PSt)).2.try_consume Token.KeywordConstant).2.try_consume Token.KeywordRetain).2.try_consume Token.KeywordNonRetain).2).1 (parse_any_in_region [Token.KeywordEndVar] (parse_variable_list 20) (parse_access_modifier ((((parse_variable_block_type ({ toks := [({ kind := Token.KeywordVar } : Tok), { kind := Token.KeywordConstant }, { kind := Token.Identifier, text := "x" }, { kind := Token.KeywordColon }, { kind := Token.Identifier, text := "INT" }, { kind := Token.KeywordSemicolon }, { kind := Token.KeywordEndVar }] } : PSt)).2.try_consume Token.KeywordConstant).2.try_consume Token.KeywordRetain).2.try_consume Token.KeywordNonRetain).2).2).1
      rfl rfl rfl rfl rfl rfl).2
      [Variable.mk "a" (DataTypeDeclaration.Reference "INT") none none, Variable.mk "b" (DataTypeDeclaration.Reference "INT") (some (AstNode.mk 0 (AstStmt.LiteralInteger 5))) none] ({ toks := [] } : PSt)⟩

/-- A run of the name-collection loop of `parse_variable_line` over a
comma-separated name list terminated by `AT`: all names are collected, the
cursor stops on the `AT` token, and the session is otherwise untouched. -/
theorem parse_variable_line_names_run :
    ∀ (names : List String) (fuel : Nat) (rest2 : List Tok) (st : PSt),
      names ≠ [] →
      names.length ≤ fuel →
      st.toks = ((List.map (fun s => ({ kind := Token.Identifier, text := s } : Tok)) names).intersperse
          ({ kind := Token.KeywordComma } : Tok) ++
        ({ kind := Token.KeywordAt } : Tok) :: rest2) →
      ∃ lt lx, parse_variable_line_names fuel st =
        (names, { st with
                  toks := (({ kind := Token.KeywordAt } : Tok) :: rest2),
                  lastToken := lt, lastText := lx })
  | [], _, _, _ => by
      intro hne _ _
      exact absurd rfl hne
  | [n], fuel, rest2, st => by
      intro _ hf htoks
      cases fuel with
      | zero => simp at hf
      | succ f =>
          obtain ⟨tks, lt0, lx0, dg, rg, sc, ic, oc, cc⟩ := st
          dsimp only at htoks
          subst htoks
          exact ⟨Token.Identifier, n, rfl⟩
  | n :: m :: ns, fuel, rest2, st => by
      intro _ hf htoks
      cases fuel with
      | zero => simp at hf
      | succ f =>
          obtain ⟨tks, lt0, lx0, dg, rg, sc, ic, oc, cc⟩ := st
          dsimp only at htoks
          subst htoks
          have hstep : parse_variable_line_names (f + 1) ({ toks := ((List.map (fun s => ({ kind := Token.Identifier, text := s } : Tok)) (n :: m :: ns)).intersperse ({ kind := Token.KeywordComma } : Tok) ++ ({ kind := Token.KeywordAt } : Tok) :: rest2), lastToken := lt0, lastText := lx0, diags := dg, regions := rg, scope := sc, idCounter := ic, openCount := oc, closeCount := cc } : PSt) = (n :: (parse_variable_line_names f ({ toks := ((List.map (fun s => ({ kind := Token.Identifier, text := s } : Tok)) (m :: ns)).intersperse ({ kind := Token.KeywordComma } : Tok) ++ ({ kind := Token.KeywordAt } : Tok) :: rest2), lastToken := Token.KeywordComma, lastText := "", diags := dg, regions := rg, scope := sc, idCounter := ic, openCount := oc, closeCount := cc } : PSt)).1, (parse_variable_line_names f ({ toks := ((List.map (fun s => ({ kind := Token.Identifier, text := s } : Tok)) (m :: ns)).intersperse ({ kind := Token.KeywordComma } : Tok) ++ ({ kind := Token.KeywordAt } : Tok) :: rest2), lastToken := Token.KeywordComma, lastText := "", diags := dg, regions := rg, scope := sc, idCounter := ic, openCount := oc, closeCount := cc } : PSt)).2) := rfl
          obtain ⟨lt, lx, hrec⟩ := parse_variable_line_names_run (m :: ns) f rest2 ({ toks := ((List.map (fun s => ({ kind := Token.Identifier, text := s } : Tok)) (m :: ns)).intersperse ({ kind := Token.KeywordComma } : Tok) ++ ({ kind := Token.KeywordAt } : Tok) :: rest2), lastToken := Token.KeywordComma, lastText := "", diags := dg, regions := rg, scope := sc, idCounter := ic, openCount := oc, closeCount := cc } : PSt) (List.cons_ne_nil _ _) (by simpa using hf) rfl
          refine ⟨lt, lx, ?_⟩
          rw [hstep, hrec]

/-- Any variable produced by `parse_aliasing` carries the given (single)
name, the parsed reference expression as its initializer, and no address. -/
theorem parse_aliasing_shape :
    ∀ (fuel : Nat) (nm : String) (st : PSt) (v : Variable),
      (parse_aliasing fuel nm st).1 = some v →
      ∃ dty, v = Variable.mk nm dty (some (parse_reference st).1) none
  | 0, nm, st, v => by
      intro h
      exact absurd h (by simp [parse_aliasing])
  | fuel + 1, nm, st, v => by
      intro h
      unfold parse_aliasing at h
      rcases hR : parse_reference st with ⟨r, s1⟩
      simp only [hR] at h
      rcases hC : s1.try_consume Token.KeywordColon with ⟨bc, s1b⟩
      simp only [hC] at h
      cases bc <;> dsimp only at h
      · rcases hP : parse_pointer_definition fuel none
          (some AutoDerefType.Alias) true
          (s1b.accept_diagnostic (Diagnostic.missing_token "KeywordColon"))
          with ⟨dt, s3⟩
        simp only [hP] at h
        rcases hS : s3.try_consume Token.KeywordSemicolon with ⟨bs, s4⟩
        simp only [hS] at h
        cases bs <;> dsimp only at h <;>
          (cases dt with
           | none => exact absurd h (by simp)
           | some pr =>
               rcases pr with ⟨dty, ini⟩
               dsimp only at h
               injection h with h
               exact ⟨dty, h.symm⟩)
      · rcases hP : parse_pointer_definition fuel none
          (some AutoDerefType.Alias) true s1b with ⟨dt, s3⟩
        simp only [hP] at h
        rcases hS : s3.try_consume Token.KeywordSemicolon with ⟨bs, s4⟩
        simp only [hS] at h
        cases bs <;> dsimp only at h <;>
          (cases dt with
           | none => exact absurd h (by simp)
           | some pr =>
               rcases pr with ⟨dty, ini⟩
               dsimp only at h
               injection h with h
               exact ⟨dty, h.symm⟩)

/-- C10: a variable line listing several comma-separated names followed by
the alias form `AT <identifier>` is parsed entirely by `parse_aliasing`
applied to the FIRST name only: the line's result (both the produced
variables and the final session state) equals that of the aliasing parse,
which yields at most one variable; any variable produced carries the first
name, the aliased reference expression as its initializer and no address.
The remaining names are discarded, and since the result state is exactly
the aliasing run's state, no diagnostic is recorded for them. -/
theorem C10_alias_line_uses_only_first_name
    (f : Nat) (names : List String) (rest2 : List Tok) (x : String) (st : PSt)
    (hlen : 2 ≤ names.length)
    (hfuel : names.length ≤ f)
    (htoks : st.toks = ((List.map (fun s => ({ kind := Token.Identifier, text := s } : Tok)) names).intersperse ({ kind := Token.KeywordComma } : Tok) ++ ({ kind := Token.KeywordAt } : Tok) :: ({ kind := Token.Identifier, text := x } : Tok) :: rest2)) :
    (parse_variable_line (f + 1) st =
      ((match (parse_aliasing f (names.headD "") { st with toks := (({ kind := Token.Identifier, text := x } : Tok) :: rest2), lastToken := Token.KeywordAt, lastText := "" }).1 with
        | some v => [v]
        | none => []),
       (parse_aliasing f (names.headD "") { st with toks := (({ kind := Token.Identifier, text := x } : Tok) :: rest2), lastToken := Token.KeywordAt, lastText := "" }).2)) ∧
    (∀ v : Variable,
      (parse_aliasing f (names.headD "") { st with toks := (({ kind := Token.Identifier, text := x } : Tok) :: rest2), lastToken := Token.KeywordAt, lastText := "" }).1 = some v →
      ∃ dty, v = Variable.mk (names.headD "") dty
        (some (parse_reference { st with toks := (({ kind := Token.Identifier, text := x } : Tok) :: rest2), lastToken := Token.KeywordAt, lastText := "" }).1) none) := by
  have hne : names ≠ [] := by
    intro hcon
    rw [hcon] at hlen
    simp at hlen
  obtain ⟨tks, lt0, lx0, dg, rg, sc, ic, oc, cc⟩ := st
  dsimp only at htoks
  subst htoks
  obtain ⟨lt, lx, hnames⟩ := parse_variable_line_names_run names f
    (({ kind := Token.Identifier, text := x } : Tok) :: rest2) ({ toks := ((List.map (fun s => ({ kind := Token.Identifier, text := s } : Tok)) names).intersperse ({ kind := Token.KeywordComma } : Tok) ++ ({ kind := Token.KeywordAt } : Tok) :: ({ kind := Token.Identifier, text := x } : Tok) :: rest2), lastToken := lt0, lastText := lx0, diags := dg, regions := rg, scope := sc, idCounter := ic, openCount := oc, closeCount := cc } : PSt) hne hfuel rfl
  unfold parse_variable_line
  simp only [hnames]
  constructor
  · show (match parse_aliasing f (names.headD "") ({ toks := (({ kind := Token.Identifier, text := x } : Tok) :: rest2), lastToken := Token.KeywordAt, lastText := "", diags := dg, regions := rg, scope := sc, idCounter := ic, openCount := oc, closeCount := cc } : PSt) with
          | (some aliased_variable, st) => ([aliased_variable], st)
          | (none, st) => ([], st)) = _
    rcases hA : parse_aliasing f (names.headD "") ({ toks := (({ kind := Token.Identifier, text := x } : Tok) :: rest2), lastToken := Token.KeywordAt, lastText := "", diags := dg, regions := rg, scope := sc, idCounter := ic, openCount := oc, closeCount := cc } : PSt) with ⟨res, sF⟩
    try simp only [hA]
    cases res <;> rfl
  · intro v hv
    exact parse_aliasing_shape f (names.headD "") ({ toks := (({ kind := Token.Identifier, text := x } : Tok) :: rest2), lastToken := Token.KeywordAt, lastText := "", diags := dg, regions := rg, scope := sc, idCounter := ic, openCount := oc, closeCount := cc } : PSt) v hv

/-- Witness for C10: the line `a, b AT y : INT;` — the whole line is the
aliasing parse of the first name `a`. -/
theorem C10_alias_line_witness :
    (parse_variable_line (3 + 1) ({ toks := [({ kind := Token.Identifier, text := "a" } : Tok), { kind := Token.KeywordComma }, { kind := Token.Identifier, text := "b" }, { kind := Token.KeywordAt }, { kind := Token.Identifier, text := "y" }, { kind := Token.KeywordColon }, { kind := Token.Identifier, text := "INT" }, { kind := Token.KeywordSemicolon }] } : PSt) =
      ((match (parse_aliasing 3 (["a", "b"].headD "") { ({ toks := [({ kind := Token.Identifier, text := "a" } : Tok), { kind := Token.KeywordComma }, { kind := Token.Identifier, text := "b" }, { kind := Token.KeywordAt }, { kind := Token.Identifier, text := "y" }, { kind := Token.KeywordColon }, { kind := Token.Identifier, text := "INT" }, { kind := Token.KeywordSemicolon }] } : PSt) with toks := (({ kind := Token.Identifier, text := "y" } : Tok) :: [({ kind := Token.KeywordColon } : Tok), { kind := Token.Identifier, text := "INT" }, { kind := Token.KeywordSemicolon }]), lastToken := Token.KeywordAt, lastText := "" }).1 with
        | some v => [v]
        | none => []),
       (parse_aliasing 3 (["a", "b"].headD "") { ({ toks := [({ kind := Token.Identifier, text := "a" } : Tok), { kind := Token.KeywordComma }, { kind := Token.Identifier, text := "b" }, { kind := Token.KeywordAt }, { kind := Token.Identifier, text := "y" }, { kind := Token.KeywordColon }, { kind := Token.Identifier, text := "INT" }, { kind := Token.KeywordSemicolon }] } : PSt) with toks := (({ kind := Token.Identifier, text := "y" } : Tok) :: [({ kind := Token.KeywordColon } : Tok), { kind := Token.Identifier, text := "INT" }, { kind := Token.KeywordSemicolon }]), lastToken := Token.KeywordAt, lastText := "" }).2)) ∧
    (∀ v : Variable,
      (parse_aliasing 3 (["a", "b"].headD "") { ({ toks := [({ kind := Token.Identifier, text := "a" } : Tok), { kind := Token.KeywordComma }, { kind := Token.Identifier, text := "b" }, { kind := Token.KeywordAt }, { kind := Token.Identifier, text := "y" }, { kind := Token.KeywordColon }, { kind := Token.Identifier, text := "INT" }, { kind := Token.KeywordSemicolon }] } : PSt) with toks := (({ kind := Token.Identifier, text := "y" } : Tok) :: [({ kind := Token.KeywordColon } : Tok), { kind := Token.Identifier, text := "INT" }, { kind := Token.KeywordSemicolon }]), lastToken := Token.KeywordAt, lastText := "" }).1 = some v →
      ∃ dty, v = Variable.mk (["a", "b"].headD "") dty
        (some (parse_reference { ({ toks := [({ kind := Token.Identifier, text := "a" } : Tok), { kind := Token.KeywordComma }, { kind := Token.Identifier, text := "b" }, { kind := Token.KeywordAt }, { kind := Token.Identifier, text := "y" }, { kind := Token.KeywordColon }, { kind := Token.Identifier, text := "INT" }, { kind := Token.KeywordSemicolon }] } : PSt) with toks := (({ kind := Token.Identifier, text := "y" } : Tok) :: [({ kind := Token.KeywordColon } : Tok), { kind := Token.Identifier, text := "INT" }, { kind := Token.KeywordSemicolon }]), lastToken := Token.KeywordAt, lastText := "" }).1) none) :=
  C10_alias_line_uses_only_first_name 3 ["a", "b"]
    [({ kind := Token.KeywordColon } : Tok), { kind := Token.Identifier, text := "INT" }, { kind := Token.KeywordSemicolon }] "y" ({ toks := [({ kind := Token.Identifier, text := "a" } : Tok), { kind := Token.KeywordComma }, { kind := Token.Identifier, text := "b" }, { kind := Token.KeywordAt }, { kind := Token.Identifier, text := "y" }, { kind := Token.KeywordColon }, { kind := Token.Identifier, text := "INT" }, { kind := Token.KeywordSemicolon }] } : PSt)
    (by decide) (by decide) rfl
